import Mathlib

/-! Shallow embedding of the OpenNN class `OrderSelectionAlgorithm`, after
`opennn/order_selection_algorithm.cpp`.

* `double` values are exact rationals (`ℚ`); `size_t` values are naturals.
* A C++ call that may throw returns a pair: the `Except` result and the object
  state at the moment the call ends, so that the state left behind by a throw
  can be inspected.
* The preprocessor symbol `__OPENNN_DEBUG__` is not defined in the sources; it
  is the field `debug` of the object and every `#ifdef __OPENNN_DEBUG__` block
  is guarded by it.
* Collaborators whose code is outside the sources (training strategy, neural
  network, multilayer perceptron, data set) are modelled by what the callers
  use of them; the trainer is a script of outcomes consumed one per call.
* Writing to `std::cout` is not modelled.
-/

namespace OpenNN

/-- Ways in which a call can end abnormally. `logic_error` is the
`std::logic_error` thrown by the class itself, `training_failure` an exception
escaping `perform_training`, and `undefined` marks a dereference of a null
pointer or a read past the end of a vector. -/
inductive Error where
  | logic_error (what : String)
  | training_failure
  | undefined
  deriving DecidableEq

/-- The enumeration `OrderSelectionAlgorithm::PerformanceCalculationMethod`;
`unnamed` stands for a value outside the three enumerators (the `default:`
branches of the switches). -/
inductive PerformanceCalculationMethod where
  | Maximum
  | Minimum
  | Mean
  | unnamed (code : Nat)
  deriving DecidableEq

/-- The enumeration `TrainingStrategy::MainType` as far as
`get_final_performances` switches over it; `unnamed` is any other value. -/
inductive MainType where
  | NO_MAIN
  | GRADIENT_DESCENT
  | CONJUGATE_GRADIENT
  | QUASI_NEWTON_METHOD
  | LEVENBERG_MARQUARDT_ALGORITHM
  | USER_MAIN
  | unnamed (code : Nat)
  deriving DecidableEq

/-- The two members of a training algorithm results record that
`get_final_performances` reads. -/
structure TrainingAlgorithmResults where
  final_performance : ℚ
  final_selection_performance : ℚ
  deriving DecidableEq

/-- The structure `TrainingStrategy::Results`: one results pointer per main
training method, null when that method did not run. -/
structure Results where
  gradient_descent_results_pointer : Option TrainingAlgorithmResults
  conjugate_gradient_results_pointer : Option TrainingAlgorithmResults
  quasi_Newton_method_results_pointer : Option TrainingAlgorithmResults
  Levenberg_Marquardt_algorithm_results_pointer : Option TrainingAlgorithmResults
  deriving DecidableEq

/-- Modelled from the spec: one return of `Trainer.train()`, the results
record together with the parameter vector the network holds afterwards. -/
structure TrainingOutcome where
  results : Results
  parameters : List ℚ
  deriving DecidableEq

/-- Calls made on the collaborators, in the order they are made. -/
inductive Event where
  | grow_layer_perceptron (layer : Nat) (count : Nat)
  | prune_layer_perceptron (layer : Nat) (index : Nat)
  | perturbate_parameters (magnitude : ℚ)
  | randomize_parameters_normal
  | perform_training
  | set_maximum_selection_performance_decreases (value : Nat)
  deriving DecidableEq

/-- Modelled from the spec: the multilayer perceptron as the order selection
uses it, the number of inputs and the number of perceptrons of each layer. -/
structure MultilayerPerceptron where
  inputs_number : Nat
  layers : List Nat
  deriving DecidableEq

/-- Modelled from the spec: the neural network, a pointer to its multilayer
perceptron and its flattened parameter vector. -/
structure NeuralNetwork where
  multilayer_perceptron_pointer : Option MultilayerPerceptron
  parameters : List ℚ
  deriving DecidableEq

/-- Use of an instance of the data set. -/
inductive InstanceUse where
  | Training
  | Selection
  | Testing
  | Unused
  deriving DecidableEq

/-- Modelled from the spec: the data set, the use of each instance and the
numbers of input and target variables. -/
structure DataSet where
  instances : List InstanceUse
  inputs_number : Nat
  targets_number : Nat
  deriving DecidableEq

/-- Modelled from the spec: the performance functional, which holds the
pointers to the neural network and to the data set. -/
structure PerformanceFunctional where
  neural_network_pointer : Option NeuralNetwork
  data_set_pointer : Option DataSet
  deriving DecidableEq

/-- The two settings of the quasi-Newton method that
`calculate_maximum_final_performances` touches. -/
structure QuasiNewtonMethod where
  maximum_iterations_number : Nat
  maximum_selection_performance_decreases : Nat
  deriving DecidableEq

/-- Modelled from the spec: the training strategy (the `Trainer`). `script`
holds what the coming calls of `perform_training` do, one entry per call,
`none` for a call that throws; `random` holds the parameter vectors the coming
random perturbations produce; `trace` records the collaborator calls made so
far. -/
structure TrainingStrategy where
  performance_functional_pointer : Option PerformanceFunctional
  main_type : MainType
  quasi_Newton_method_pointer : Option QuasiNewtonMethod
  script : List (Option TrainingOutcome)
  random : List (List ℚ)
  trace : List Event
  deriving DecidableEq

/-- The members of `OrderSelectionAlgorithm` and the build switch `debug`. -/
structure OrderSelectionAlgorithm where
  debug : Bool
  training_strategy_pointer : Option TrainingStrategy
  order_history : List Nat
  performance_history : List ℚ
  selection_performance_history : List ℚ
  parameters_history : List (List ℚ)
  minimum_order : Nat
  maximum_order : Nat
  trials_number : Nat
  performance_calculation_method : PerformanceCalculationMethod
  reserve_parameters_data : Bool
  reserve_performance_data : Bool
  reserve_selection_performance_data : Bool
  reserve_minimal_parameters : Bool
  display : Bool
  selection_performance_goal : ℚ
  maximum_iterations_number : Nat
  maximum_time : ℚ
  tolerance : ℚ
  deriving DecidableEq

/-- Result of a call: what it returns or throws, and the object afterwards. -/
abbrev Outcome (α : Type) : Type := Except Error α × OrderSelectionAlgorithm

/-- Number of `perform_training` calls recorded in the trace of a strategy. -/
def TrainingStrategy.training_calls (ts : TrainingStrategy) : Nat :=
  ts.trace.count Event.perform_training

/-- Number of `perform_training` calls made so far through the attached
training strategy (zero when none is attached). -/
def training_invocations (s : OrderSelectionAlgorithm) : Nat :=
  match s.training_strategy_pointer with
  | some ts => ts.training_calls
  | none => 0

/-! ## Setters of the order bounds -/

/-- Embeds `OrderSelectionAlgorithm::set_maximum_order`. -/
def set_maximum_order (s : OrderSelectionAlgorithm) (new_maximum_order : Nat) : Outcome Unit :=
  if s.debug = true ∧ new_maximum_order ≤ 0 then
    (.error (.logic_error "maximum_order must be greater than 0."), s)
  else if s.debug = true ∧ new_maximum_order ≤ s.minimum_order then
    (.error (.logic_error "maximum_order must be greater than minimum_order."), s)
  else
    (.ok (), { s with maximum_order := new_maximum_order })

/-- Embeds `OrderSelectionAlgorithm::set_minimum_order`. -/
def set_minimum_order (s : OrderSelectionAlgorithm) (new_minimum_order : Nat) : Outcome Unit :=
  if s.debug = true ∧ new_minimum_order ≤ 0 then
    (.error (.logic_error "minimum_order must be greater than 0."), s)
  else if s.debug = true ∧ new_minimum_order ≥ s.maximum_order then
    (.error (.logic_error "minimum_order must be less than maximum_order."), s)
  else
    (.ok (), { s with minimum_order := new_minimum_order })

/-! ## Collaborator operations -/

/-- Appends a collaborator call to the trace. -/
def TrainingStrategy.record (e : Event) (ts : TrainingStrategy) : TrainingStrategy :=
  { ts with trace := ts.trace ++ [e] }

/-- The neural network reached through the performance functional. -/
def TrainingStrategy.neural_network (ts : TrainingStrategy) : Option NeuralNetwork :=
  match ts.performance_functional_pointer with
  | some pf => pf.neural_network_pointer
  | none => none

/-- In-place update of the neural network reached through the performance
functional. -/
def TrainingStrategy.modify_neural_network (f : NeuralNetwork → NeuralNetwork)
    (ts : TrainingStrategy) : TrainingStrategy :=
  match ts.performance_functional_pointer with
  | some pf =>
    match pf.neural_network_pointer with
    | some nn =>
      let pf1 : PerformanceFunctional := { pf with neural_network_pointer := some (f nn) }
      { ts with performance_functional_pointer := some pf1 }
    | none => ts
  | none => ts

/-- In-place update of the multilayer perceptron of a neural network. -/
def NeuralNetwork.modify_multilayer_perceptron (f : MultilayerPerceptron → MultilayerPerceptron)
    (nn : NeuralNetwork) : NeuralNetwork :=
  match nn.multilayer_perceptron_pointer with
  | some mlp => { nn with multilayer_perceptron_pointer := some (f mlp) }
  | none => nn

/-- Modelled from the spec: `MultilayerPerceptron::get_layers_number`. -/
def MultilayerPerceptron.get_layers_number (mlp : MultilayerPerceptron) : Nat :=
  mlp.layers.length

/-- Modelled from the spec: `MultilayerPerceptron::is_empty`, true when there
is no layer. -/
def MultilayerPerceptron.is_empty (mlp : MultilayerPerceptron) : Bool :=
  mlp.layers.isEmpty

/-- Modelled from the spec: `Instances::count_selection_instances_number`. -/
def DataSet.count_selection_instances_number (ds : DataSet) : Nat :=
  ds.instances.count InstanceUse.Selection

/-- Modelled from the spec: `grow_layer_perceptron(layer, count)` adds `count`
perceptrons to the layer. -/
def grow_layer_perceptron (layer count : Nat) (ts : TrainingStrategy) : TrainingStrategy :=
  (ts.modify_neural_network (NeuralNetwork.modify_multilayer_perceptron (fun mlp =>
    { mlp with layers := mlp.layers.set layer (mlp.layers.getD layer 0 + count) }))).record
    (Event.grow_layer_perceptron layer count)

/-- Modelled from the spec: `prune_layer_perceptron(layer, index)` removes one
perceptron from the layer. -/
def prune_layer_perceptron (layer index : Nat) (ts : TrainingStrategy) : TrainingStrategy :=
  (ts.modify_neural_network (NeuralNetwork.modify_multilayer_perceptron (fun mlp =>
    { mlp with layers := mlp.layers.set layer (mlp.layers.getD layer 0 - 1) }))).record
    (Event.prune_layer_perceptron layer index)

/-- Replaces the parameter vector of the network by the next random draw. -/
def TrainingStrategy.draw_parameters (ts : TrainingStrategy) : TrainingStrategy :=
  { ts.modify_neural_network (fun nn => { nn with parameters := ts.random.headD [] }) with
    random := ts.random.tail }

/-- Modelled from the spec: `perturbate_parameters(magnitude)` moves the
parameters at random. -/
def perturbate_parameters (magnitude : ℚ) (ts : TrainingStrategy) : TrainingStrategy :=
  ts.draw_parameters.record (Event.perturbate_parameters magnitude)

/-- Modelled from the spec: `randomize_parameters_normal()` redraws the
parameters. -/
def randomize_parameters_normal (ts : TrainingStrategy) : TrainingStrategy :=
  ts.draw_parameters.record Event.randomize_parameters_normal

/-- Modelled from the spec: `arrange_parameters()` returns the flattened
parameter vector of the network. -/
def arrange_parameters (ts : TrainingStrategy) : List ℚ :=
  match ts.neural_network with
  | some nn => nn.parameters
  | none => []

/-- Modelled from the spec: `Trainer.train()`. The call is recorded, the next
script entry is consumed; it either throws or installs the trained parameters
in the network and returns the results record. -/
def perform_training (ts : TrainingStrategy) : Except Error Results × TrainingStrategy :=
  match ts.script with
  | [] => (.error .training_failure, ts.record Event.perform_training)
  | none :: rest => (.error .training_failure, { ts.record Event.perform_training with script := rest })
  | some out :: rest =>
    (.ok out.results,
      { (ts.record Event.perform_training).modify_neural_network
          (fun nn => { nn with parameters := out.parameters }) with script := rest })

/-- Reads the two final performances through a results pointer; a null
pointer cannot be read. -/
def read_results : Option TrainingAlgorithmResults → Except Error (ℚ × ℚ)
  | some r => .ok (r.final_performance, r.final_selection_performance)
  | none => .error .undefined

/-- Embeds `OrderSelectionAlgorithm::get_final_performances`; the main type
is the one reported by the training strategy. -/
def get_final_performances (main_type : MainType) (results : Results) : Except Error (ℚ × ℚ) :=
  match main_type with
  | .NO_MAIN => .ok (0, 0)
  | .GRADIENT_DESCENT => read_results results.gradient_descent_results_pointer
  | .CONJUGATE_GRADIENT => read_results results.conjugate_gradient_results_pointer
  | .QUASI_NEWTON_METHOD => read_results results.quasi_Newton_method_results_pointer
  | .LEVENBERG_MARQUARDT_ALGORITHM =>
    read_results results.Levenberg_Marquardt_algorithm_results_pointer
  | .USER_MAIN => .ok (0, 0)
  | .unnamed _ => .error (.logic_error "Unknown main type method.")

/-- Subtraction of `size_t` values (operands below `2 ^ 64`): the difference,
wrapped around `2 ^ 64` when the second operand is the larger one. -/
def size_t_sub (a b : Nat) : Nat :=
  if b ≤ a then a - b else a + 2 ^ 64 - b

/-! ## The trial aggregation -/

/-- One pass of the history lookup
`for (i = 0; i < order_history.size(); i++) if (order_history[i] == order_number) ...`:
`acc` is the pair (value kept so far, flag), the first list argument is what is
left of `order_history` from index `i` on, and `values` is the history the
value is read from. -/
def scan_history (values : List ℚ) (order_number : Nat) :
    List Nat → Nat → ℚ × Bool → Except Error (ℚ × Bool)
  | [], _, acc => .ok acc
  | o :: rest, i, acc =>
    if o = order_number then
      match values[i]? with
      | some v => scan_history values order_number rest (i + 1) (v, true)
      | none => .error .undefined
    else scan_history values order_number rest (i + 1) acc

/-- Running aggregate of the trials: `final` and `final_parameters`. -/
abbrev Aggregate : Type := (ℚ × ℚ) × List ℚ

/-- The update of `final` and `final_parameters` made by one later trial of
`calculate_minimum_final_performances`. -/
def minimum_update (flag_performance flag_selection : Bool) (_trials_number : Nat)
    (acc : Aggregate) (current_performance : ℚ × ℚ) (parameters : List ℚ) : Aggregate :=
  let acc1 : Aggregate :=
    if flag_performance = false ∧ acc.1.1 > current_performance.1 then
      ((current_performance.1, acc.1.2), parameters)
    else acc
  if flag_selection = false ∧ acc1.1.2 > current_performance.2 then
    ((acc1.1.1, current_performance.2), parameters)
  else acc1

/-- The update of `final` and `final_parameters` made by one later trial of
`calculate_maximum_final_performances`. -/
def maximum_update (flag_performance flag_selection : Bool) (_trials_number : Nat)
    (acc : Aggregate) (current_performance : ℚ × ℚ) (parameters : List ℚ) : Aggregate :=
  let acc1 : Aggregate :=
    if flag_performance = false ∧ acc.1.1 < current_performance.1 then
      ((current_performance.1, acc.1.2), parameters)
    else acc
  if flag_selection = false ∧ acc1.1.2 < current_performance.2 then
    ((acc1.1.1, current_performance.2), parameters)
  else acc1

/-- The update of `mean_final` made by one later trial of
`calculate_mean_final_performances`; `final_parameters` is not touched. -/
def mean_update (flag_performance flag_selection : Bool) (trials_number : Nat)
    (acc : Aggregate) (current_performance : ℚ × ℚ) (_parameters : List ℚ) : Aggregate :=
  let m0 : ℚ :=
    if flag_performance = false then acc.1.1 + current_performance.1 / (trials_number : ℚ)
    else acc.1.1
  let m1 : ℚ :=
    if flag_selection = false then acc.1.2 + current_performance.2 / (trials_number : ℚ)
    else acc.1.2
  ((m0, m1), acc.2)

/-- What differs between the three `calculate_*_final_performances` methods:
the initial content of `final`, the update made by the trials after the first,
and whether the shrink branch first sets the quasi-Newton method (only
`calculate_maximum_final_performances` does). -/
structure Reduction where
  initial : ℚ × ℚ
  update : Bool → Bool → Nat → Aggregate → ℚ × ℚ → List ℚ → Aggregate
  sets_quasi_Newton_method : Bool

/-- The first trial, common to both branches of the resize:
`perturbate_parameters(0.5)`, `perform_training()`, then `final_parameters`
and `final` are read. -/
def first_trial (ts : TrainingStrategy) : Except Error Aggregate × TrainingStrategy :=
  match perform_training (perturbate_parameters (1 / 2) ts) with
  | (.error e, ts1) => (.error e, ts1)
  | (.ok results, ts1) =>
    match get_final_performances ts1.main_type results with
    | .error e => (.error e, ts1)
    | .ok final => (.ok (final, arrange_parameters ts1), ts1)

/-- The statement at the head of the shrink branch of
`calculate_maximum_final_performances`: the quasi-Newton method gets its
maximum iterations number as maximum selection performance decreases. -/
def set_quasi_Newton_method (ts : TrainingStrategy) : Except Error Unit × TrainingStrategy :=
  match ts.quasi_Newton_method_pointer with
  | none => (.error .undefined, ts)
  | some qn =>
    let qn1 : QuasiNewtonMethod :=
      { qn with maximum_selection_performance_decreases := qn.maximum_iterations_number }
    let ts1 : TrainingStrategy := { ts with quasi_Newton_method_pointer := some qn1 }
    (.ok (), ts1.record
      (Event.set_maximum_selection_performance_decreases qn.maximum_iterations_number))

/-- The loop `for (i = 0; i < count; i++) prune_layer_perceptron(layer, 0)`. -/
def prune_loop (layer : Nat) : Nat → TrainingStrategy → TrainingStrategy
  | 0, ts => ts
  | n + 1, ts => prune_loop layer n (prune_layer_perceptron layer 0 ts)

/-- The resize of the last hidden layer to `order_number` followed by the
first trial (lines 703 to 724 of the minimum method and their twins). -/
def resize_and_train (r : Reduction) (order_number : Nat) (ts : TrainingStrategy) :
    Except Error Aggregate × TrainingStrategy :=
  match ts.neural_network with
  | none => (.error .undefined, ts)
  | some nn =>
    match nn.multilayer_perceptron_pointer with
    | none => (.error .undefined, ts)
    | some mlp =>
      let last_hidden_layer := size_t_sub mlp.get_layers_number 2
      match mlp.layers[last_hidden_layer]? with
      | none => (.error .undefined, ts)
      | some perceptrons_number =>
        if order_number > perceptrons_number then
          first_trial (grow_layer_perceptron last_hidden_layer
            (order_number - perceptrons_number) ts)
        else if r.sets_quasi_Newton_method = true then
          match set_quasi_Newton_method ts with
          | (.error e, ts1) => (.error e, ts1)
          | (.ok _, ts1) =>
            first_trial (prune_loop last_hidden_layer (perceptrons_number - order_number) ts1)
        else
          first_trial (prune_loop last_hidden_layer (perceptrons_number - order_number) ts)

/-- The loop `for (i = 1; i < trials_number; i++)`; the first argument is the
number of iterations left. -/
def trials_loop (update : Aggregate → ℚ × ℚ → List ℚ → Aggregate) :
    Nat → Aggregate → TrainingStrategy → Except Error Aggregate × TrainingStrategy
  | 0, acc, ts => (.ok acc, ts)
  | n + 1, acc, ts =>
    match perform_training (randomize_parameters_normal ts) with
    | (.error e, ts1) => (.error e, ts1)
    | (.ok results, ts1) =>
      match get_final_performances ts1.main_type results with
      | .error e => (.error e, ts1)
      | .ok current_performance =>
        trials_loop update n (update acc current_performance (arrange_parameters ts1)) ts1

/-- The common body of `calculate_minimum_final_performances`,
`calculate_maximum_final_performances` and `calculate_mean_final_performances`,
which are the same text up to the three items of `Reduction`: the debug
checks of the arguments, the two history lookups that set `final` and the
flags, the early return when both flags are set, the resize with the first
trial, the later trials, and the four `push_back`. -/
def calculate_final_performances (r : Reduction) (s : OrderSelectionAlgorithm)
    (order_number : Nat) : Outcome (ℚ × ℚ) :=
  if s.debug = true ∧ order_number ≤ 0 then
    (.error (.logic_error "Number of hidden perceptrons must be greater than 0."), s)
  else if s.debug = true ∧ s.trials_number ≤ 0 then
    (.error (.logic_error "Number of parameters assay must be greater than 0."), s)
  else
    match s.training_strategy_pointer with
    | none => (.error .undefined, s)
    | some ts =>
      match ts.performance_functional_pointer with
      | none => (.error .undefined, s)
      | some _ =>
        match scan_history s.performance_history order_number s.order_history 0
            (r.initial.1, false) with
        | .error e => (.error e, s)
        | .ok (final0, flag_performance) =>
          match scan_history s.selection_performance_history order_number s.order_history 0
              (r.initial.2, false) with
          | .error e => (.error e, s)
          | .ok (final1, flag_selection) =>
            if flag_performance = true ∧ flag_selection = true then
              (.ok (final0, final1), s)
            else
              match resize_and_train r order_number ts with
              | (.error e, ts1) => (.error e, { s with training_strategy_pointer := some ts1 })
              | (.ok first, ts1) =>
                match trials_loop (r.update flag_performance flag_selection s.trials_number)
                    (s.trials_number - 1) first ts1 with
                | (.error e, ts2) => (.error e, { s with training_strategy_pointer := some ts2 })
                | (.ok (final, final_parameters), ts2) =>
                  (.ok final,
                    { s with
                      training_strategy_pointer := some ts2
                      order_history := s.order_history ++ [order_number]
                      performance_history := s.performance_history ++ [final.1]
                      selection_performance_history := s.selection_performance_history ++ [final.2]
                      parameters_history := s.parameters_history ++ [final_parameters] })

/-- The items of `calculate_minimum_final_performances`: `final` starts at
(10, 10) and a trial replaces a value by a lower one. -/
def minimum_reduction : Reduction :=
  { initial := (10, 10), update := minimum_update, sets_quasi_Newton_method := false }

/-- The items of `calculate_maximum_final_performances`: `final` starts at
(0, 0), a trial replaces a value by a higher one, and the shrink branch sets
the quasi-Newton method first. -/
def maximum_reduction : Reduction :=
  { initial := (0, 0), update := maximum_update, sets_quasi_Newton_method := true }

/-- The items of `calculate_mean_final_performances`: `mean_final` starts at
(0, 0) and a trial adds its value divided by `trials_number`. -/
def mean_reduction : Reduction :=
  { initial := (0, 0), update := mean_update, sets_quasi_Newton_method := false }

/-- Embeds `OrderSelectionAlgorithm::calculate_minimum_final_performances`. -/
def calculate_minimum_final_performances (s : OrderSelectionAlgorithm) (order_number : Nat) :
    Outcome (ℚ × ℚ) :=
  calculate_final_performances minimum_reduction s order_number

/-- Embeds `OrderSelectionAlgorithm::calculate_maximum_final_performances`. -/
def calculate_maximum_final_performances (s : OrderSelectionAlgorithm) (order_number : Nat) :
    Outcome (ℚ × ℚ) :=
  calculate_final_performances maximum_reduction s order_number

/-- Embeds `OrderSelectionAlgorithm::calculate_mean_final_performances`. -/
def calculate_mean_final_performances (s : OrderSelectionAlgorithm) (order_number : Nat) :
    Outcome (ℚ × ℚ) :=
  calculate_final_performances mean_reduction s order_number

/-- Embeds `OrderSelectionAlgorithm::calculate_performances`. -/
def calculate_performances (s : OrderSelectionAlgorithm) (order_number : Nat) : Outcome (ℚ × ℚ) :=
  match s.performance_calculation_method with
  | .Maximum => calculate_maximum_final_performances s order_number
  | .Minimum => calculate_minimum_final_performances s order_number
  | .Mean => calculate_mean_final_performances s order_number
  | .unnamed _ => (.error (.logic_error "Unknown performance calculation method."), s)

/-! ## Pre-flight check -/

/-- Embeds `OrderSelectionAlgorithm::check`. -/
def check (s : OrderSelectionAlgorithm) : Outcome Unit :=
  match s.training_strategy_pointer with
  | none => (.error (.logic_error "Pointer to training strategy is NULL."), s)
  | some ts =>
    match ts.performance_functional_pointer with
    | none => (.error (.logic_error "Pointer to performance functional is NULL."), s)
    | some pf =>
      match pf.neural_network_pointer with
      | none => (.error (.logic_error "Pointer to neural network is NULL."), s)
      | some nn =>
        match nn.multilayer_perceptron_pointer with
        | none => (.error (.logic_error "Pointer to multilayer perceptron is NULL."), s)
        | some mlp =>
          if mlp.is_empty = true then
            (.error (.logic_error "Multilayer Perceptron is empty."), s)
          else if mlp.get_layers_number = 1 then
            (.error (.logic_error
              "Number of layers in multilayer perceptron must be greater than 1."), s)
          else
            match pf.data_set_pointer with
            | none => (.error (.logic_error "Pointer to data set is NULL."), s)
            | some ds =>
              if ds.count_selection_instances_number = 0 then
                (.error (.logic_error "Number of selection instances is zero."), s)
              else (.ok (), s)

/-! ## Notions used to state the properties -/

/-- Relation between a strategy and the same strategy after collaborator calls
other than `perform_training`: script, main type and number of trainings are
the same, and an attached network or quasi-Newton method stays attached. -/
def TrainingStrategy.steady (a b : TrainingStrategy) : Prop :=
  b.script = a.script ∧ b.main_type = a.main_type ∧ b.training_calls = a.training_calls ∧
    b.neural_network.isSome = a.neural_network.isSome ∧
    b.quasi_Newton_method_pointer.isSome = a.quasi_Newton_method_pointer.isSome

/-- Relation between a strategy and the same strategy `k` successful trainings
later, `rest` being what is left of the script. -/
def TrainingStrategy.trained (a b : TrainingStrategy) (k : Nat)
    (rest : List (Option TrainingOutcome)) : Prop :=
  b.script = rest ∧ b.main_type = a.main_type ∧ b.training_calls = a.training_calls + k ∧
    b.neural_network.isSome = true

/-- The aggregate of a batch of trials on a fresh order: the first trial sets
it, each later trial updates it (both flags are false on a fresh order). A
trial is the outcome of one training paired with the two final performances
read from it. -/
def aggregate (r : Reduction) (trials_number : Nat) :
    List (TrainingOutcome × (ℚ × ℚ)) → Aggregate
  | [] => (r.initial, [])
  | x :: xs =>
    xs.foldl (fun a y => r.update false false trials_number a y.2 y.1.parameters)
      (x.2, x.1.parameters)

/-- A sequence of evaluations, each with its own reduction policy and order:
the policy is stored in the object, as the enumeration overload of
`set_performance_calculation_method` does, and `calculate_performances` is
called; a call that throws leaves the object as it is at the throw and the
sequence goes on. -/
def evaluate_orders :
    List (PerformanceCalculationMethod × Nat) → OrderSelectionAlgorithm → OrderSelectionAlgorithm
  | [], s => s
  | (m, o) :: calls, s =>
    evaluate_orders calls (calculate_performances { s with performance_calculation_method := m } o).2

/-! ## Sample objects -/

/-- Results record of a quasi-Newton training with the given final values. -/
def sample_results (t u : ℚ) : Results :=
  { gradient_descent_results_pointer := none
    conjugate_gradient_results_pointer := none
    quasi_Newton_method_results_pointer := some ⟨t, u⟩
    Levenberg_Marquardt_algorithm_results_pointer := none }

/-- A trial: a training outcome with final values `t`, `u` and parameters `p`,
paired with the values read from it. -/
def sample_trial (t u : ℚ) (p : List ℚ) : TrainingOutcome × (ℚ × ℚ) :=
  (⟨sample_results t u, p⟩, (t, u))

/-- A perceptron with two inputs, a hidden layer of four and one output. -/
def sample_perceptron : MultilayerPerceptron :=
  { inputs_number := 2, layers := [4, 1] }

/-- A network around `sample_perceptron`. -/
def sample_network : NeuralNetwork :=
  { multilayer_perceptron_pointer := some sample_perceptron, parameters := [] }

/-- A data set with one training and one selection instance. -/
def sample_data_set : DataSet :=
  { instances := [.Training, .Selection], inputs_number := 2, targets_number := 1 }

/-- A performance functional over the sample network and data set. -/
def sample_functional : PerformanceFunctional :=
  { neural_network_pointer := some sample_network, data_set_pointer := some sample_data_set }

/-- A quasi-Newton training strategy that will play the given script. -/
def sample_strategy (script : List (Option TrainingOutcome)) : TrainingStrategy :=
  { performance_functional_pointer := some sample_functional
    main_type := .QUASI_NEWTON_METHOD
    quasi_Newton_method_pointer := some ⟨100, 5⟩
    script := script
    random := []
    trace := [] }

/-- An algorithm object with empty histories and bounds 1 and 6. -/
def sample_algorithm (debug : Bool) (trials_number : Nat) (method : PerformanceCalculationMethod)
    (script : List (Option TrainingOutcome)) : OrderSelectionAlgorithm :=
  { debug := debug
    training_strategy_pointer := some (sample_strategy script)
    order_history := []
    performance_history := []
    selection_performance_history := []
    parameters_history := []
    minimum_order := 1
    maximum_order := 6
    trials_number := trials_number
    performance_calculation_method := method
    reserve_parameters_data := true
    reserve_performance_data := true
    reserve_selection_performance_data := true
    reserve_minimal_parameters := true
    display := true
    selection_performance_goal := 0
    maximum_iterations_number := 1000
    maximum_time := 10000
    tolerance := 1 / 1000 }

/-- The sample algorithm after orders 2 and 3 have been recorded. -/
def sample_cached (debug : Bool) (method : PerformanceCalculationMethod) : OrderSelectionAlgorithm :=
  { sample_algorithm debug 2 method [] with
    order_history := [2, 3]
    performance_history := [7, 1]
    selection_performance_history := [8, 3]
    parameters_history := [[0], [3]] }

/-- Two trials: final values (2, 5) then (4, 3). -/
def sample_trials : List (TrainingOutcome × (ℚ × ℚ)) :=
  [sample_trial 2 5 [1], sample_trial 4 3 [2]]

/-- The script that plays `sample_trials`. -/
def sample_script : List (Option TrainingOutcome) :=
  sample_trials.map (fun y => some y.1)

/-- Every outcome that the coming trainings of the strategy can return has
non-negative final performances, as `get_final_performances` reads them. -/
def TrainingStrategy.nonneg_outcomes (ts : TrainingStrategy) : Prop :=
  ∀ out, some out ∈ ts.script → ∀ pair : ℚ × ℚ,
    get_final_performances ts.main_type out.results = .ok pair → 0 ≤ pair.1 ∧ 0 ≤ pair.2

/-- The numbers of perceptrons of the layers of the network the strategy
trains, when network and perceptron are attached. -/
def TrainingStrategy.layers (ts : TrainingStrategy) : Option (List Nat) :=
  match ts.neural_network with
  | some nn =>
    match nn.multilayer_perceptron_pointer with
    | some mlp => some mlp.layers
    | none => none
  | none => none

/-- The number of perceptrons of the last hidden layer, the layer of index
`layers_number - 2`. -/
def TrainingStrategy.last_hidden_perceptrons (ts : TrainingStrategy) : Option Nat :=
  match ts.layers with
  | some layers => layers[size_t_sub layers.length 2]?
  | none => none

/-- Whether a collaborator call is a `grow_layer_perceptron` or a
`prune_layer_perceptron`. -/
def Event.is_resize : Event → Bool
  | .grow_layer_perceptron _ _ => true
  | .prune_layer_perceptron _ _ => true
  | _ => false

/-- The grow and prune calls made so far, in order. -/
def TrainingStrategy.resizes (ts : TrainingStrategy) : List Event :=
  ts.trace.filter Event.is_resize

/-- Relation between a strategy and the same strategy after collaborator calls
that do not resize: same layers, same grow and prune calls. -/
def TrainingStrategy.settled (a b : TrainingStrategy) : Prop :=
  b.layers = a.layers ∧ b.resizes = a.resizes

/-! ## Normalized squared error (`normalized_squared_error.cpp`) -/

/-- The class `NormalizedSquaredError` as the performance term holds it: the
pointers to the neural network and to the data set inherited from
`PerformanceTerm`; `debug` tells whether `__OPENNN_DEBUG__` is defined. -/
structure NormalizedSquaredError where
  debug : Bool
  neural_network_pointer : Option NeuralNetwork
  data_set_pointer : Option DataSet
  deriving DecidableEq

/-- Modelled from the spec: `MultilayerPerceptron::get_inputs_number`. -/
def MultilayerPerceptron.get_inputs_number (mlp : MultilayerPerceptron) : Nat :=
  mlp.inputs_number

/-- Modelled from the spec: `MultilayerPerceptron::get_outputs_number`, the
number of perceptrons of the last layer, zero when there is no layer. -/
def MultilayerPerceptron.get_outputs_number (mlp : MultilayerPerceptron) : Nat :=
  mlp.layers.getLast?.getD 0

/-- Modelled from the spec: `Variables::count_inputs_number`. -/
def DataSet.count_inputs_number (ds : DataSet) : Nat :=
  ds.inputs_number

/-- Modelled from the spec: `Variables::count_targets_number`. -/
def DataSet.count_targets_number (ds : DataSet) : Nat :=
  ds.targets_number

/-- Modelled from the spec: `Instances::arrange_training_indices`, the indices
of the instances whose use is training, in increasing order. -/
def DataSet.arrange_training_indices (ds : DataSet) : List Nat :=
  (List.range ds.instances.length).filter (fun i => ds.instances[i]? = some InstanceUse.Training)

/-- The method `NormalizedSquaredError::check`: the tests in the order of the
source, each one throwing a `logic_error`. -/
def NormalizedSquaredError.check (nse : NormalizedSquaredError) : Except Error Unit :=
  match nse.neural_network_pointer with
  | none => .error (.logic_error "Pointer to neural network is NULL.")
  | some nn =>
    match nn.multilayer_perceptron_pointer with
    | none => .error (.logic_error "Pointer to multilayer perceptron is NULL.")
    | some mlp =>
      let multilayer_perceptron_inputs_number := mlp.get_inputs_number
      let multilayer_perceptron_outputs_number := mlp.get_outputs_number
      if multilayer_perceptron_inputs_number = 0 then
        .error (.logic_error "Number of inputs in multilayer perceptron object is zero.")
      else if multilayer_perceptron_outputs_number = 0 then
        .error (.logic_error "Number of outputs in multilayer perceptron object is zero.")
      else
        match nse.data_set_pointer with
        | none => .error (.logic_error "Pointer to data set is NULL.")
        | some ds =>
          let data_set_inputs_number := ds.count_inputs_number
          let data_set_targets_number := ds.count_targets_number
          if multilayer_perceptron_inputs_number ≠ data_set_inputs_number then
            .error (.logic_error "Number of inputs in multilayer perceptron must be equal to number of inputs in data set.")
          else if multilayer_perceptron_outputs_number ≠ data_set_targets_number then
            .error (.logic_error "Number of outputs in multilayer perceptron must be equal to number of targets in data set.")
          else .ok ()

/-- Modelled from the spec: `Vector::calculate_sum_squared_error`, the sum of
the squared differences of the components of two vectors. -/
def calculate_sum_squared_error (a b : List ℚ) : ℚ :=
  (List.zipWith (fun x y => (x - y) ^ 2) a b).sum

/-- Modelled from the spec: the mean of each of the `targets_number` target
variables over the given target vectors, as
`DataSet::calculate_training_target_data_mean` computes it over the training
instances. -/
def calculate_target_data_mean (targets : List (List ℚ)) (targets_number : Nat) : List ℚ :=
  (List.range targets_number).map
    (fun j => (targets.map (fun t => t.getD j 0)).sum / (targets.length : ℚ))

/-- The training instances of the data matrix, in the order of their indices. -/
def DataSet.training_rows (ds : DataSet) (data : List (List ℚ × List ℚ)) :
    List (List ℚ × List ℚ) :=
  ds.arrange_training_indices.filterMap (fun i => data[i]?)

/-- The normalization coefficient in the spec's words: the sum over the
training instances of the squared distance between the targets of the instance
and the training target mean. -/
def normalization_coefficient (ds : DataSet) (data : List (List ℚ × List ℚ)) : ℚ :=
  ((ds.training_rows data).map (fun row => calculate_sum_squared_error row.2
    (calculate_target_data_mean ((ds.training_rows data).map Prod.snd) ds.targets_number))).sum

/-- The sum squared error in the spec's words: the sum over the training
instances of the squared distance between the outputs of the network and the
targets of the instance. -/
def sum_squared_error (calculate_outputs : List ℚ → List ℚ) (ds : DataSet)
    (data : List (List ℚ × List ℚ)) : ℚ :=
  ((ds.training_rows data).map
    (fun row => calculate_sum_squared_error (calculate_outputs row.1) row.2)).sum

/-- A data set of three instances, two of them for training, with one input
and one target variable. -/
def sample_nse_data_set : DataSet :=
  { instances := [InstanceUse.Training, InstanceUse.Selection, InstanceUse.Training],
    inputs_number := 1, targets_number := 1 }

/-- A data matrix for `sample_nse_data_set`. -/
def sample_data : List (List ℚ × List ℚ) := [([0], [1]), ([5], [7]), ([1], [3])]

/-- Embeds `OrderSelectionAlgorithm::set_maximum_time`: under
`__OPENNN_DEBUG__` a time below zero is rejected; then the time is stored. -/
def set_maximum_time (s : OrderSelectionAlgorithm) (new_maximum_time : ℚ) : Outcome Unit :=
  if s.debug = true ∧ new_maximum_time < 0 then
    (.error (.logic_error "Maximum time must be greater than 0."), s)
  else (.ok (), { s with maximum_time := new_maximum_time })

/-- Embeds `OrderSelectionAlgorithm::get_maximum_time`. -/
def get_maximum_time (s : OrderSelectionAlgorithm) : ℚ :=
  s.maximum_time

/-- Embeds `TrainingAlgorithm::has_performance_functional`, which the training
strategy has under the same name. -/
def TrainingStrategy.has_performance_functional (ts : TrainingStrategy) : Bool :=
  ts.performance_functional_pointer.isSome

/-- Modelled from the spec: `NeuralNetwork::get_inputs_number`, the inputs
number of the multilayer perceptron, zero when there is none. -/
def NeuralNetwork.get_inputs_number (nn : NeuralNetwork) : Nat :=
  match nn.multilayer_perceptron_pointer with
  | some mlp => mlp.get_inputs_number
  | none => 0

/-- Modelled from the spec: `NeuralNetwork::get_outputs_number`, the outputs
number of the multilayer perceptron, zero when there is none. -/
def NeuralNetwork.get_outputs_number (nn : NeuralNetwork) : Nat :=
  match nn.multilayer_perceptron_pointer with
  | some mlp => mlp.get_outputs_number
  | none => 0

/-- The assignments of `OrderSelectionAlgorithm::set_default` for the given
numbers of inputs and outputs; `maximum_order` is a `size_t` product. -/
def assign_default (s : OrderSelectionAlgorithm) (inputs_number outputs_number : Nat) :
    OrderSelectionAlgorithm :=
  { s with
    minimum_order := 1
    maximum_order := (2 * (inputs_number + outputs_number)) % 2 ^ 64
    trials_number := 1
    reserve_parameters_data := true
    reserve_performance_data := true
    reserve_selection_performance_data := true
    reserve_minimal_parameters := true
    performance_calculation_method := .Minimum
    display := true
    selection_performance_goal := 0
    maximum_iterations_number := 1000
    maximum_time := 10000
    tolerance := 1 / 1000 }

/-- Embeds `OrderSelectionAlgorithm::set_default`: the numbers of inputs and
outputs are zero without training strategy or performance functional, and are
read from the neural network otherwise (a null network pointer is
dereferenced, which is undefined). -/
def set_default (s : OrderSelectionAlgorithm) : Outcome Unit :=
  match s.training_strategy_pointer with
  | none => (.ok (), assign_default s 0 0)
  | some ts =>
    if ts.has_performance_functional = false then (.ok (), assign_default s 0 0)
    else
      match ts.neural_network with
      | none => (.error .undefined, s)
      | some nn => (.ok (), assign_default s nn.get_inputs_number nn.get_outputs_number)

/-- Embeds `OrderSelectionAlgorithm::write_performance_calculation_method`. -/
def write_performance_calculation_method (s : OrderSelectionAlgorithm) : Except Error String :=
  match s.performance_calculation_method with
  | .Maximum => .ok "Maximum"
  | .Minimum => .ok "Minimum"
  | .Mean => .ok "Mean"
  | .unnamed _ => .error (.logic_error "Unknown performance calculation method.")

/-- Embeds the string overload of
`OrderSelectionAlgorithm::set_performance_calculation_method`. -/
def set_performance_calculation_method (s : OrderSelectionAlgorithm)
    (new_performance_calculation_method : String) : Outcome Unit :=
  if new_performance_calculation_method = "Maximum" then
    (.ok (), { s with performance_calculation_method := .Maximum })
  else if new_performance_calculation_method = "Minimum" then
    (.ok (), { s with performance_calculation_method := .Minimum })
  else if new_performance_calculation_method = "Mean" then
    (.ok (), { s with performance_calculation_method := .Mean })
  else (.error (.logic_error "Unknown performance calculation method."), s)

/-! ## Reading and deleting the histories -/

/-- The loop of `get_parameters_order`: it stops at the first index whose
order is `order` and reads `parameters_history` there; the result is the index
at the end of the loop and `parameters`.  The first list argument is what is
left of `order_history` from index `i` on. -/
def find_parameters (parameters_history : List (List ℚ)) (order : Nat) :
    List Nat → Nat → Except Error (Nat × List ℚ)
  | [], i => .ok (i, [])
  | o :: rest, i =>
    if o = order then
      match parameters_history[i]? with
      | some parameters => .ok (i, parameters)
      | none => .error .undefined
    else find_parameters parameters_history order rest (i + 1)

/-- Embeds `OrderSelectionAlgorithm::get_parameters_order`. -/
def get_parameters_order (s : OrderSelectionAlgorithm) (order : Nat) : Outcome (List ℚ) :=
  if s.debug = true ∧ order ≤ 0 then
    (.error (.logic_error "Order must be greater than 0."), s)
  else
    match find_parameters s.parameters_history order s.order_history 0 with
    | .error e => (.error e, s)
    | .ok (i, parameters) =>
      if i = s.order_history.length then
        (.error (.logic_error "Order not found in the parameter_history."), s)
      else (.ok parameters, s)

/-- Embeds `OrderSelectionAlgorithm::delete_selection_history`. -/
def delete_selection_history (s : OrderSelectionAlgorithm) : OrderSelectionAlgorithm :=
  { s with selection_performance_history := [] }

/-- Embeds `OrderSelectionAlgorithm::delete_performance_history`. -/
def delete_performance_history (s : OrderSelectionAlgorithm) : OrderSelectionAlgorithm :=
  { s with performance_history := [] }

/-- Embeds `OrderSelectionAlgorithm::delete_parameters_history`. -/
def delete_parameters_history (s : OrderSelectionAlgorithm) : OrderSelectionAlgorithm :=
  { s with parameters_history := [] }

/-- A call made on the algorithm object between two inspections of the
histories. -/
inductive Operation where
  | calculate_performances (order_number : Nat)
  | delete_selection_history
  | delete_performance_history
  | delete_parameters_history
  deriving DecidableEq

/-- The object after one operation; a call that throws leaves the object as it
is at the throw. -/
def apply_operation (s : OrderSelectionAlgorithm) : Operation → OrderSelectionAlgorithm
  | .calculate_performances order_number => (calculate_performances s order_number).2
  | .delete_selection_history => delete_selection_history s
  | .delete_performance_history => delete_performance_history s
  | .delete_parameters_history => delete_parameters_history s

/-- The object after a sequence of operations. -/
def run_operations (s : OrderSelectionAlgorithm) (operations : List Operation) :
    OrderSelectionAlgorithm :=
  operations.foldl apply_operation s

/-- The four histories have the same length. -/
def aligned (s : OrderSelectionAlgorithm) : Prop :=
  s.performance_history.length = s.order_history.length ∧
  s.selection_performance_history.length = s.order_history.length ∧
  s.parameters_history.length = s.order_history.length

/-- The local variables `flag_performance` and `flag_selection` of the three
`calculate_*_final_performances` methods after the two lookup loops; a lookup
that reads outside a history is undefined. -/
def lookup_flags (r : Reduction) (s : OrderSelectionAlgorithm) (order_number : Nat) :
    Except Error (Bool × Bool) :=
  match scan_history s.performance_history order_number s.order_history 0
      (r.initial.1, false) with
  | .error e => .error e
  | .ok (_, flag_performance) =>
    match scan_history s.selection_performance_history order_number s.order_history 0
        (r.initial.2, false) with
    | .error e => .error e
    | .ok (_, flag_selection) => .ok (flag_performance, flag_selection)

/-! ## The maximum policy as the mirror of the minimum policy -/

/-- The items of the maximum policy in the spec's words: those of the minimum
policy with the higher value of each metric kept, `final` starting at (0, 0),
and no other operation on the trainer. -/
def symmetric_maximum_reduction : Reduction :=
  { initial := (0, 0), update := maximum_update, sets_quasi_Newton_method := false }

/-- The maximum method in the spec's words: the operations of
`calculate_minimum_final_performances` with the higher values kept. -/
def symmetric_maximum_final_performances (s : OrderSelectionAlgorithm) (order_number : Nat) :
    Outcome (ℚ × ℚ) :=
  calculate_final_performances symmetric_maximum_reduction s order_number

/-- A gradient descent training strategy, without quasi-Newton method, whose
next training ends with the final values (2, 5) and the parameters [1]. -/
def sample_gradient_descent_strategy : TrainingStrategy :=
  { performance_functional_pointer := some sample_functional
    main_type := .GRADIENT_DESCENT
    quasi_Newton_method_pointer := none
    script := [some
      { results :=
          { gradient_descent_results_pointer := some ⟨2, 5⟩
            conjugate_gradient_results_pointer := none
            quasi_Newton_method_results_pointer := none
            Levenberg_Marquardt_algorithm_results_pointer := none }
        parameters := [1] }]
    random := []
    trace := [] }

/-- The sample algorithm with the gradient descent strategy attached. -/
def sample_gradient_descent_algorithm : OrderSelectionAlgorithm :=
  { sample_algorithm true 1 .Maximum [] with
    training_strategy_pointer := some sample_gradient_descent_strategy }

/-! ## Selection performance of the normalized squared error -/

theorem scan_history_not_mem (values : List ℚ) (order_number : Nat) :
    ∀ (rest : List Nat) (i : Nat) (acc : ℚ × Bool), order_number ∉ rest →
      scan_history values order_number rest i acc = .ok acc := by
  intro rest
  induction rest with
  | nil => intro i acc _; rfl
  | cons o rest ih =>
    intro i acc h
    have h1 : o ≠ order_number := fun e => h (by simp [e])
    have h2 : order_number ∉ rest := fun e => h (by simp [e])
    simp [scan_history, h1, ih (i + 1) acc h2]

theorem scan_history_flag (values : List ℚ) (order_number : Nat) :
    ∀ (rest : List Nat) (i : Nat) (acc : ℚ × Bool) (v : ℚ) (f : Bool),
      scan_history values order_number rest i acc = .ok (v, f) →
      order_number ∈ rest ∨ acc.2 = true → f = true := by
  intro rest
  induction rest with
  | nil =>
    intro i acc v f h hm
    simp [scan_history] at h
    rcases hm with hm | hm
    · simp at hm
    · rw [h] at hm; exact hm
  | cons o rest ih =>
    intro i acc v f h hm
    by_cases ho : o = order_number
    · simp only [scan_history, ho, if_true] at h
      cases hv : values[i]? with
      | none => simp [hv] at h
      | some w =>
        simp only [hv] at h
        exact ih (i + 1) (w, true) v f h (Or.inr rfl)
    · simp only [scan_history, ho, if_false] at h
      refine ih (i + 1) acc v f h ?_
      rcases hm with hm | hm
      · left
        rcases List.mem_cons.1 hm with e | e
        · exact absurd e.symm ho
        · exact e
      · exact Or.inr hm

theorem scan_history_pair (perf sel : List ℚ) (order_number : Nat) :
    ∀ (rest : List Nat) (i : Nat) (a b : ℚ × Bool),
      i + rest.length ≤ perf.length → i + rest.length ≤ sel.length → order_number ∈ rest →
      ∃ k t u, rest[k]? = some order_number ∧ (∀ j, k < j → rest[j]? ≠ some order_number) ∧
        perf[i + k]? = some t ∧ sel[i + k]? = some u ∧
        scan_history perf order_number rest i a = .ok (t, true) ∧
        scan_history sel order_number rest i b = .ok (u, true) := by
  intro rest
  induction rest with
  | nil => intro i a b _ _ h; simp at h
  | cons o rest ih =>
    intro i a b hp hs hm
    simp only [List.length_cons] at hp hs
    have hip : i < perf.length := by omega
    have his : i < sel.length := by omega
    by_cases hr : order_number ∈ rest
    · by_cases ho : o = order_number
      · obtain ⟨k, t, u, h1, h2, h3, h4, h5, h6⟩ :=
          ih (i + 1) (perf[i], true) (sel[i], true) (by omega) (by omega) hr
        refine ⟨k + 1, t, u, by simpa using h1, ?_, by rw [← h3]; congr 1; omega,
          by rw [← h4]; congr 1; omega, ?_, ?_⟩
        · intro j hj
          obtain ⟨j', rfl⟩ : ∃ j', j = j' + 1 := ⟨j - 1, by omega⟩
          simpa using h2 j' (by omega)
        · simp only [scan_history, ho, if_true, List.getElem?_eq_getElem hip]; exact h5
        · simp only [scan_history, ho, if_true, List.getElem?_eq_getElem his]; exact h6
      · obtain ⟨k, t, u, h1, h2, h3, h4, h5, h6⟩ :=
          ih (i + 1) a b (by omega) (by omega) hr
        refine ⟨k + 1, t, u, by simpa using h1, ?_, by rw [← h3]; congr 1; omega,
          by rw [← h4]; congr 1; omega, ?_, ?_⟩
        · intro j hj
          obtain ⟨j', rfl⟩ : ∃ j', j = j' + 1 := ⟨j - 1, by omega⟩
          simpa using h2 j' (by omega)
        · simp only [scan_history, ho, if_false]; exact h5
        · simp only [scan_history, ho, if_false]; exact h6
    · have ho : o = order_number := by
        rcases List.mem_cons.1 hm with e | e
        · exact e.symm
        · exact absurd e hr
      refine ⟨0, perf[i], sel[i], by simp [ho], ?_, by simp [List.getElem?_eq_getElem hip],
        by simp [List.getElem?_eq_getElem his], ?_, ?_⟩
      · intro j hj
        obtain ⟨j', rfl⟩ : ∃ j', j = j' + 1 := ⟨j - 1, by omega⟩
        intro hc
        simp only [List.getElem?_cons_succ] at hc
        exact hr (List.getElem?_mem hc)
      · simp only [scan_history, ho, if_true, List.getElem?_eq_getElem hip]
        exact scan_history_not_mem perf order_number rest (i + 1) _ hr
      · simp only [scan_history, ho, if_true, List.getElem?_eq_getElem his]
        exact scan_history_not_mem sel order_number rest (i + 1) _ hr

theorem calculate_final_performances_shape (r : Reduction) (s : OrderSelectionAlgorithm)
    (order_number : Nat) :
    ((calculate_final_performances r s order_number).2.order_history = s.order_history ∧
      (calculate_final_performances r s order_number).2.performance_history
        = s.performance_history ∧
      (calculate_final_performances r s order_number).2.selection_performance_history
        = s.selection_performance_history ∧
      (calculate_final_performances r s order_number).2.parameters_history
        = s.parameters_history) ∨
    (order_number ∉ s.order_history ∧ ∃ final final_parameters,
      (calculate_final_performances r s order_number).1 = .ok final ∧
      (calculate_final_performances r s order_number).2.order_history
        = s.order_history ++ [order_number] ∧
      (calculate_final_performances r s order_number).2.performance_history
        = s.performance_history ++ [final.1] ∧
      (calculate_final_performances r s order_number).2.selection_performance_history
        = s.selection_performance_history ++ [final.2] ∧
      (calculate_final_performances r s order_number).2.parameters_history
        = s.parameters_history ++ [final_parameters]) := by
  unfold calculate_final_performances
  split
  · simp
  split
  · simp
  split
  · simp
  split
  · simp
  split
  · simp
  rename_i ts _ _ final0 flag_performance hscan0
  split
  · simp
  rename_i final1 flag_selection hscan1
  split
  · simp
  rename_i hflags
  split
  · simp
  split
  · simp
  right
  refine ⟨?_, _, _, rfl, rfl, rfl, rfl, rfl⟩
  intro hmem
  have h0 := scan_history_flag _ _ _ _ _ _ _ hscan0 (Or.inl hmem)
  have h1 := scan_history_flag _ _ _ _ _ _ _ hscan1 (Or.inl hmem)
  exact hflags ⟨h0, h1⟩

theorem calculate_final_performances_cached_state (r : Reduction) (s : OrderSelectionAlgorithm)
    (order_number : Nat) (hmem : order_number ∈ s.order_history) :
    (calculate_final_performances r s order_number).2 = s := by
  unfold calculate_final_performances
  split
  · rfl
  split
  · rfl
  split
  · rfl
  split
  · rfl
  split
  · rfl
  rename_i ts _ _ final0 flag_performance hscan0
  split
  · rfl
  rename_i final1 flag_selection hscan1
  split
  · rfl
  rename_i hflags
  have h0 := scan_history_flag _ _ _ _ _ _ _ hscan0 (Or.inl hmem)
  have h1 := scan_history_flag _ _ _ _ _ _ _ hscan1 (Or.inl hmem)
  exact absurd ⟨h0, h1⟩ hflags

@[simp] theorem record_script (ts : TrainingStrategy) (e : Event) : (ts.record e).script = ts.script := rfl
@[simp] theorem record_main_type (ts : TrainingStrategy) (e : Event) : (ts.record e).main_type = ts.main_type := rfl
@[simp] theorem record_random (ts : TrainingStrategy) (e : Event) : (ts.record e).random = ts.random := rfl
@[simp] theorem record_neural_network (ts : TrainingStrategy) (e : Event) :
    (ts.record e).neural_network = ts.neural_network := rfl
@[simp] theorem record_quasi_Newton (ts : TrainingStrategy) (e : Event) :
    (ts.record e).quasi_Newton_method_pointer = ts.quasi_Newton_method_pointer := rfl
@[simp] theorem record_trace (ts : TrainingStrategy) (e : Event) : (ts.record e).trace = ts.trace ++ [e] := rfl

@[simp] theorem modify_neural_network_script (ts : TrainingStrategy)
    (f : NeuralNetwork → NeuralNetwork) :
    (ts.modify_neural_network f).script = ts.script := by
  unfold TrainingStrategy.modify_neural_network; split <;> [split; skip] <;> rfl
@[simp] theorem modify_neural_network_main_type (ts : TrainingStrategy)
    (f : NeuralNetwork → NeuralNetwork) :
    (ts.modify_neural_network f).main_type = ts.main_type := by
  unfold TrainingStrategy.modify_neural_network; split <;> [split; skip] <;> rfl
@[simp] theorem modify_neural_network_random (ts : TrainingStrategy)
    (f : NeuralNetwork → NeuralNetwork) :
    (ts.modify_neural_network f).random = ts.random := by
  unfold TrainingStrategy.modify_neural_network; split <;> [split; skip] <;> rfl
@[simp] theorem modify_neural_network_trace (ts : TrainingStrategy)
    (f : NeuralNetwork → NeuralNetwork) :
    (ts.modify_neural_network f).trace = ts.trace := by
  unfold TrainingStrategy.modify_neural_network; split <;> [split; skip] <;> rfl
@[simp] theorem modify_neural_network_quasi_Newton (ts : TrainingStrategy)
    (f : NeuralNetwork → NeuralNetwork) :
    (ts.modify_neural_network f).quasi_Newton_method_pointer = ts.quasi_Newton_method_pointer := by
  unfold TrainingStrategy.modify_neural_network; split <;> [split; skip] <;> rfl
@[simp] theorem modify_neural_network_neural_network (ts : TrainingStrategy)
    (f : NeuralNetwork → NeuralNetwork) :
    (ts.modify_neural_network f).neural_network = ts.neural_network.map f := by
  unfold TrainingStrategy.modify_neural_network TrainingStrategy.neural_network
  cases h : ts.performance_functional_pointer with
  | none => simp [h]
  | some pf =>
    cases h2 : pf.neural_network_pointer with
    | none => simp [h, h2]
    | some nn => simp [h2]


theorem steady_refl (a : TrainingStrategy) : a.steady a := ⟨rfl, rfl, rfl, rfl, rfl⟩

theorem steady_trans {a b c : TrainingStrategy} (h1 : a.steady b) (h2 : b.steady c) :
    a.steady c :=
  ⟨h2.1.trans h1.1, h2.2.1.trans h1.2.1, h2.2.2.1.trans h1.2.2.1,
    h2.2.2.2.1.trans h1.2.2.2.1, h2.2.2.2.2.trans h1.2.2.2.2⟩

theorem steady_record (ts : TrainingStrategy) (e : Event) (he : e ≠ Event.perform_training) :
    ts.steady (ts.record e) := by
  refine ⟨rfl, rfl, ?_, rfl, rfl⟩
  simp [TrainingStrategy.training_calls, List.count_append, List.count_singleton, he]

theorem steady_modify_neural_network (ts : TrainingStrategy) (f : NeuralNetwork → NeuralNetwork) :
    ts.steady (ts.modify_neural_network f) := by
  refine ⟨by simp, by simp, ?_, by simp, by simp⟩
  simp [TrainingStrategy.training_calls]

theorem steady_draw_parameters (ts : TrainingStrategy) : ts.steady ts.draw_parameters := by
  have h := steady_modify_neural_network ts (fun nn => { nn with parameters := ts.random.headD [] })
  exact ⟨h.1, h.2.1, h.2.2.1, h.2.2.2.1, h.2.2.2.2⟩

theorem steady_grow_layer_perceptron (layer count : Nat) (ts : TrainingStrategy) :
    ts.steady (grow_layer_perceptron layer count ts) :=
  steady_trans (steady_modify_neural_network ts _) (steady_record _ _ (by simp))

theorem steady_prune_layer_perceptron (layer index : Nat) (ts : TrainingStrategy) :
    ts.steady (prune_layer_perceptron layer index ts) :=
  steady_trans (steady_modify_neural_network ts _) (steady_record _ _ (by simp))

theorem steady_perturbate_parameters (magnitude : ℚ) (ts : TrainingStrategy) :
    ts.steady (perturbate_parameters magnitude ts) :=
  steady_trans (steady_draw_parameters ts) (steady_record _ _ (by simp))

theorem steady_randomize_parameters_normal (ts : TrainingStrategy) :
    ts.steady (randomize_parameters_normal ts) :=
  steady_trans (steady_draw_parameters ts) (steady_record _ _ (by simp))

theorem steady_prune_loop (layer : Nat) :
    ∀ (n : Nat) (ts : TrainingStrategy), ts.steady (prune_loop layer n ts) := by
  intro n
  induction n with
  | zero => intro ts; exact steady_refl ts
  | succ n ih =>
    intro ts
    exact steady_trans (steady_prune_layer_perceptron layer 0 ts) (ih _)

theorem set_quasi_Newton_method_spec (ts : TrainingStrategy)
    (h : ts.quasi_Newton_method_pointer.isSome = true) :
    ∃ ts1, set_quasi_Newton_method ts = (.ok (), ts1) ∧ ts.steady ts1 := by
  unfold set_quasi_Newton_method
  cases hq : ts.quasi_Newton_method_pointer with
  | none => simp [hq] at h
  | some qn =>
    refine ⟨_, rfl, rfl, rfl, ?_, rfl, ?_⟩
    · simp [TrainingStrategy.training_calls, TrainingStrategy.record, List.count_append]
    · simp [TrainingStrategy.record, hq]

/-- A successful `perform_training`: the head of the script is returned, its
parameters are installed, and one more training is recorded. -/
theorem perform_training_spec (ts : TrainingStrategy) (out : TrainingOutcome)
    (rest : List (Option TrainingOutcome)) (h : ts.script = some out :: rest)
    (hnn : ts.neural_network.isSome = true) :
    ∃ ts1, perform_training ts = (.ok out.results, ts1) ∧ ts1.script = rest ∧
      ts1.main_type = ts.main_type ∧ ts1.training_calls = ts.training_calls + 1 ∧
      ts1.neural_network.isSome = true ∧ arrange_parameters ts1 = out.parameters ∧
      ts1.quasi_Newton_method_pointer.isSome = ts.quasi_Newton_method_pointer.isSome := by
  unfold perform_training
  rw [h]
  refine ⟨_, rfl, rfl, ?_, ?_, ?_, ?_, ?_⟩
  · simp
  · simp [TrainingStrategy.training_calls, List.count_append]
  · have : ({ (ts.record Event.perform_training).modify_neural_network
          (fun nn => { nn with parameters := out.parameters }) with script := rest } :
          TrainingStrategy).neural_network
        = ((ts.record Event.perform_training).modify_neural_network
          (fun nn => { nn with parameters := out.parameters })).neural_network := rfl
    rw [this]; simp [hnn]
  · have : arrange_parameters ({ (ts.record Event.perform_training).modify_neural_network
          (fun nn => { nn with parameters := out.parameters }) with script := rest } :
          TrainingStrategy)
        = arrange_parameters ((ts.record Event.perform_training).modify_neural_network
          (fun nn => { nn with parameters := out.parameters })) := rfl
    rw [this]
    unfold arrange_parameters
    rw [modify_neural_network_neural_network, record_neural_network]
    cases hn : ts.neural_network with
    | none => simp [hn] at hnn
    | some nn => simp
  · simp

theorem trained_of_steady {a b c : TrainingStrategy} {k : Nat}
    {rest : List (Option TrainingOutcome)} (h1 : a.steady b) (h2 : b.trained c k rest) :
    a.trained c k rest :=
  ⟨h2.1, h2.2.1.trans h1.2.1, by rw [h2.2.2.1, h1.2.2.1], h2.2.2.2⟩

theorem first_trial_spec (ts : TrainingStrategy) (out : TrainingOutcome) (pair : ℚ × ℚ)
    (rest : List (Option TrainingOutcome)) (h : ts.script = some out :: rest)
    (hnn : ts.neural_network.isSome = true)
    (hfin : get_final_performances ts.main_type out.results = .ok pair) :
    ∃ ts1, first_trial ts = (.ok (pair, out.parameters), ts1) ∧ ts.trained ts1 1 rest := by
  have hs := steady_perturbate_parameters (1 / 2) ts
  obtain ⟨ts1, h1, h2, h3, h4, h5, h6, _⟩ :=
    perform_training_spec (perturbate_parameters (1 / 2) ts) out rest (hs.1.trans h)
      (hs.2.2.2.1.trans hnn)
  refine ⟨ts1, ?_, h2, h3.trans hs.2.1, by rw [h4, hs.2.2.1], h5⟩
  unfold first_trial
  rw [h1]
  simp only
  rw [h3, hs.2.1, hfin, h6]

theorem trials_loop_spec (update : Aggregate → ℚ × ℚ → List ℚ → Aggregate) :
    ∀ (xs : List (TrainingOutcome × (ℚ × ℚ))) (acc : Aggregate) (ts : TrainingStrategy)
      (rest : List (Option TrainingOutcome)),
      ts.script = xs.map (fun x => some x.1) ++ rest →
      ts.neural_network.isSome = true →
      (∀ x ∈ xs, get_final_performances ts.main_type x.1.results = .ok x.2) →
      ∃ ts1, trials_loop update xs.length acc ts
          = (.ok (xs.foldl (fun a x => update a x.2 x.1.parameters) acc), ts1) ∧
        ts.trained ts1 xs.length rest := by
  intro xs
  induction xs with
  | nil =>
    intro acc ts rest h hnn _
    exact ⟨ts, rfl, by simpa using h, rfl, rfl, hnn⟩
  | cons x xs ih =>
    intro acc ts rest h hnn hfin
    have hs := steady_randomize_parameters_normal ts
    obtain ⟨ts1, h1, h2, h3, h4, h5, h6, _⟩ :=
      perform_training_spec (randomize_parameters_normal ts) x.1
        (xs.map (fun x => some x.1) ++ rest) (hs.1.trans (by simpa using h))
        (hs.2.2.2.1.trans hnn)
    have hm : ts1.main_type = ts.main_type := h3.trans hs.2.1
    obtain ⟨ts2, k1, k2, k3, k4, k5⟩ :=
      ih (update acc x.2 x.1.parameters) ts1 rest h2 h5
        (fun y hy => by rw [hm]; exact hfin y (List.mem_cons_of_mem _ hy))
    refine ⟨ts2, ?_, k2, k3.trans hm, ?_, k5⟩
    · simp only [List.length_cons, trials_loop, List.foldl_cons]
      rw [h1]
      simp only
      rw [hm, hfin x (List.mem_cons_self _ _), h6]
      exact k1
    · rw [k4, h4, hs.2.2.1, List.length_cons]; omega

theorem resize_and_train_spec (r : Reduction) (order_number : Nat) (ts : TrainingStrategy)
    (nn : NeuralNetwork) (mlp : MultilayerPerceptron) (out : TrainingOutcome) (pair : ℚ × ℚ)
    (rest : List (Option TrainingOutcome))
    (hnn : ts.neural_network = some nn) (hmlp : nn.multilayer_perceptron_pointer = some mlp)
    (hlayers : 2 ≤ mlp.layers.length)
    (hqn : r.sets_quasi_Newton_method = true → ts.quasi_Newton_method_pointer.isSome = true)
    (h : ts.script = some out :: rest)
    (hfin : get_final_performances ts.main_type out.results = .ok pair) :
    ∃ ts1, resize_and_train r order_number ts = (.ok (pair, out.parameters), ts1) ∧
      ts.trained ts1 1 rest := by
  have hsome : ts.neural_network.isSome = true := by simp [hnn]
  have hidx : size_t_sub mlp.get_layers_number 2 = mlp.layers.length - 2 := by
    simp [size_t_sub, MultilayerPerceptron.get_layers_number, hlayers]
  have hlt : mlp.layers.length - 2 < mlp.layers.length := by omega
  have key : ∀ ts0 : TrainingStrategy, ts.steady ts0 →
      ∃ ts1, first_trial ts0 = (.ok (pair, out.parameters), ts1) ∧ ts.trained ts1 1 rest := by
    intro ts0 h0
    obtain ⟨ts1, e1, e2⟩ := first_trial_spec ts0 out pair rest (h0.1.trans h)
      (h0.2.2.2.1.trans hsome) (by rw [h0.2.1]; exact hfin)
    exact ⟨ts1, e1, trained_of_steady h0 e2⟩
  unfold resize_and_train
  simp only [hnn, hmlp, hidx, List.getElem?_eq_getElem hlt]
  split
  · exact key _ (steady_grow_layer_perceptron _ _ ts)
  · split
    · rename_i hq
      obtain ⟨ts0, e0, s0⟩ := set_quasi_Newton_method_spec ts (hqn hq)
      rw [e0]
      exact key _ (steady_trans s0 (steady_prune_loop _ _ _))
    · exact key _ (steady_prune_loop _ _ _)

theorem calculate_final_performances_fresh (r : Reduction) (s : OrderSelectionAlgorithm)
    (order_number : Nat) (ts : TrainingStrategy) (nn : NeuralNetwork)
    (mlp : MultilayerPerceptron) (trials : List (TrainingOutcome × (ℚ × ℚ)))
    (rest : List (Option TrainingOutcome))
    (hts : s.training_strategy_pointer = some ts)
    (hnn : ts.neural_network = some nn) (hmlp : nn.multilayer_perceptron_pointer = some mlp)
    (hlayers : 2 ≤ mlp.layers.length)
    (hqn : r.sets_quasi_Newton_method = true → ts.quasi_Newton_method_pointer.isSome = true)
    (hfresh : order_number ∉ s.order_history)
    (horder : s.debug = true → 1 ≤ order_number)
    (hN : trials.length = s.trials_number) (hpos : 1 ≤ s.trials_number)
    (hscript : ts.script = trials.map (fun y => some y.1) ++ rest)
    (hfin : ∀ y ∈ trials, get_final_performances ts.main_type y.1.results = .ok y.2) :
    ∃ ts2, calculate_final_performances r s order_number
        = (.ok (aggregate r s.trials_number trials).1,
          { s with
            training_strategy_pointer := some ts2
            order_history := s.order_history ++ [order_number]
            performance_history :=
              s.performance_history ++ [(aggregate r s.trials_number trials).1.1]
            selection_performance_history :=
              s.selection_performance_history ++ [(aggregate r s.trials_number trials).1.2]
            parameters_history :=
              s.parameters_history ++ [(aggregate r s.trials_number trials).2] }) ∧
      ts.trained ts2 s.trials_number rest := by
  cases trials with
  | nil => simp at hN; omega
  | cons x xs =>
    have hpf : ∃ pf, ts.performance_functional_pointer = some pf := by
      unfold TrainingStrategy.neural_network at hnn
      cases hp : ts.performance_functional_pointer with
      | none => simp [hp] at hnn
      | some pf => exact ⟨pf, rfl⟩
    obtain ⟨pf, hpf⟩ := hpf
    obtain ⟨ts1, e1, t1⟩ := resize_and_train_spec r order_number ts nn mlp x.1 x.2
      (xs.map (fun y => some y.1) ++ rest) hnn hmlp hlayers hqn (by simpa using hscript)
      (hfin x (List.mem_cons_self _ _))
    obtain ⟨ts2, e2, t2⟩ := trials_loop_spec (r.update false false s.trials_number) xs
      (x.2, x.1.parameters) ts1 rest t1.1 t1.2.2.2
      (fun y hy => by rw [t1.2.1]; exact hfin y (List.mem_cons_of_mem _ hy))
    have hlen : s.trials_number - 1 = xs.length := by
      simp only [List.length_cons] at hN; omega
    refine ⟨ts2, ?_, t2.1, t2.2.1.trans t1.2.1, ?_, t2.2.2.2⟩
    · unfold calculate_final_performances
      have g1 : ¬ (s.debug = true ∧ order_number ≤ 0) := fun c => by
        have := horder c.1; omega
      have g2 : ¬ (s.debug = true ∧ s.trials_number ≤ 0) := fun c => by omega
      simp only [g1, g2, if_false, hts, hpf,
        scan_history_not_mem _ _ _ _ _ hfresh, e1, hlen, e2]
      simp [aggregate]
    · rw [t2.2.2.1, t1.2.2.1, ← hN, List.length_cons]; omega

theorem calculate_final_performances_cached (r : Reduction) (s : OrderSelectionAlgorithm)
    (order_number : Nat) (ts : TrainingStrategy) (pf : PerformanceFunctional)
    (hts : s.training_strategy_pointer = some ts)
    (hpf : ts.performance_functional_pointer = some pf)
    (hperf : s.performance_history.length = s.order_history.length)
    (hsel : s.selection_performance_history.length = s.order_history.length)
    (hmem : order_number ∈ s.order_history)
    (hargs : s.debug = true → 1 ≤ order_number ∧ 1 ≤ s.trials_number) :
    ∃ (i : Nat) (t u : ℚ), s.order_history[i]? = some order_number ∧
      (∀ j, i < j → s.order_history[j]? ≠ some order_number) ∧
      s.performance_history[i]? = some t ∧ s.selection_performance_history[i]? = some u ∧
      calculate_final_performances r s order_number = (.ok (t, u), s) := by
  obtain ⟨k, t, u, h1, h2, h3, h4, h5, h6⟩ :=
    scan_history_pair s.performance_history s.selection_performance_history order_number
      s.order_history 0 (r.initial.1, false) (r.initial.2, false) (by omega) (by omega) hmem
  have h3' : s.performance_history[k]? = some t := by simpa using h3
  have h4' : s.selection_performance_history[k]? = some u := by simpa using h4
  refine ⟨k, t, u, h1, h2, h3', h4', ?_⟩
  unfold calculate_final_performances
  have g1 : ¬ (s.debug = true ∧ order_number ≤ 0) := fun c => by
    have := (hargs c.1).1; omega
  have g2 : ¬ (s.debug = true ∧ s.trials_number ≤ 0) := fun c => by
    have := (hargs c.1).2; omega
  simp only [g1, g2, if_false, hts, hpf, h5, h6]
  simp

theorem minimum_update_fst (n : Nat) (acc : Aggregate) (c : ℚ × ℚ) (p : List ℚ) :
    (minimum_update false false n acc c p).1.1 = min acc.1.1 c.1 := by
  unfold minimum_update
  rcases le_or_lt acc.1.1 c.1 with h | h
  · have h' : ¬ acc.1.1 > c.1 := not_lt.2 h
    simp only [h', and_false, if_false, min_eq_left h]
    split_ifs <;> rfl
  · simp only [h, and_true, gt_iff_lt, if_true, min_eq_right h.le]
    split_ifs <;> rfl

theorem minimum_update_snd (n : Nat) (acc : Aggregate) (c : ℚ × ℚ) (p : List ℚ) :
    (minimum_update false false n acc c p).1.2 = min acc.1.2 c.2 := by
  unfold minimum_update
  by_cases c1 : acc.1.1 > c.1
  · rcases le_or_lt acc.1.2 c.2 with h | h
    · have h' : ¬ acc.1.2 > c.2 := not_lt.2 h
      simp [c1, h', min_eq_left h]
    · simp [c1, h, min_eq_right h.le]
  · rcases le_or_lt acc.1.2 c.2 with h | h
    · have h' : ¬ acc.1.2 > c.2 := not_lt.2 h
      simp [c1, h', min_eq_left h]
    · simp [c1, h, min_eq_right h.le]

/-- After any number of minimum updates on a fresh order the first component
is a lower bound of the start value and of every trial value, and is one of
them; the same for the second component. -/
theorem minimum_fold (n : Nat) :
    ∀ (xs : List (TrainingOutcome × (ℚ × ℚ))) (acc : Aggregate),
      ((xs.foldl (fun a y => minimum_update false false n a y.2 y.1.parameters) acc).1.1
          ≤ acc.1.1 ∧
        (∀ y ∈ xs, (xs.foldl (fun a y => minimum_update false false n a y.2 y.1.parameters)
          acc).1.1 ≤ y.2.1) ∧
        ((xs.foldl (fun a y => minimum_update false false n a y.2 y.1.parameters) acc).1.1
          = acc.1.1 ∨
          ∃ y ∈ xs, (xs.foldl (fun a y => minimum_update false false n a y.2 y.1.parameters)
            acc).1.1 = y.2.1)) ∧
      ((xs.foldl (fun a y => minimum_update false false n a y.2 y.1.parameters) acc).1.2
          ≤ acc.1.2 ∧
        (∀ y ∈ xs, (xs.foldl (fun a y => minimum_update false false n a y.2 y.1.parameters)
          acc).1.2 ≤ y.2.2) ∧
        ((xs.foldl (fun a y => minimum_update false false n a y.2 y.1.parameters) acc).1.2
          = acc.1.2 ∨
          ∃ y ∈ xs, (xs.foldl (fun a y => minimum_update false false n a y.2 y.1.parameters)
            acc).1.2 = y.2.2)) := by
  intro xs
  induction xs with
  | nil => intro acc; simp
  | cons x xs ih =>
    intro acc
    simp only [List.foldl_cons]
    obtain ⟨⟨a1, a2, a3⟩, ⟨b1, b2, b3⟩⟩ := ih (minimum_update false false n acc x.2 x.1.parameters)
    rw [minimum_update_fst] at a1 a3
    rw [minimum_update_snd] at b1 b3
    refine ⟨⟨le_trans a1 (min_le_left _ _), ?_, ?_⟩, ⟨le_trans b1 (min_le_left _ _), ?_, ?_⟩⟩
    · intro y hy
      rcases List.mem_cons.1 hy with e | e
      · rw [e]; exact le_trans a1 (min_le_right _ _)
      · exact a2 y e
    · rcases a3 with e | ⟨y, hy, e⟩
      · rcases min_choice acc.1.1 x.2.1 with c | c
        · left; rw [e, c]
        · right; exact ⟨x, List.mem_cons_self _ _, by rw [e, c]⟩
      · right; exact ⟨y, List.mem_cons_of_mem _ hy, e⟩
    · intro y hy
      rcases List.mem_cons.1 hy with e | e
      · rw [e]; exact le_trans b1 (min_le_right _ _)
      · exact b2 y e
    · rcases b3 with e | ⟨y, hy, e⟩
      · rcases min_choice acc.1.2 x.2.2 with c | c
        · left; rw [e, c]
        · right; exact ⟨x, List.mem_cons_self _ _, by rw [e, c]⟩
      · right; exact ⟨y, List.mem_cons_of_mem _ hy, e⟩

theorem maximum_update_fst (n : Nat) (acc : Aggregate) (c : ℚ × ℚ) (p : List ℚ) :
    (maximum_update false false n acc c p).1.1 = max acc.1.1 c.1 := by
  unfold maximum_update
  rcases le_or_lt c.1 acc.1.1 with h | h
  · have h' : ¬ acc.1.1 < c.1 := not_lt.2 h
    simp only [h', and_false, if_false, max_eq_left h]
    split_ifs <;> rfl
  · simp only [h, and_true, if_true, max_eq_right h.le]
    split_ifs <;> rfl

theorem maximum_update_snd (n : Nat) (acc : Aggregate) (c : ℚ × ℚ) (p : List ℚ) :
    (maximum_update false false n acc c p).1.2 = max acc.1.2 c.2 := by
  unfold maximum_update
  by_cases c1 : acc.1.1 < c.1
  · rcases le_or_lt c.2 acc.1.2 with h | h
    · have h' : ¬ acc.1.2 < c.2 := not_lt.2 h
      simp [c1, h', max_eq_left h]
    · simp [c1, h, max_eq_right h.le]
  · rcases le_or_lt c.2 acc.1.2 with h | h
    · have h' : ¬ acc.1.2 < c.2 := not_lt.2 h
      simp [c1, h', max_eq_left h]
    · simp [c1, h, max_eq_right h.le]

/-- After any number of maximum updates on a fresh order each component is an
upper bound of its start value and of every trial value, and is one of them. -/
theorem maximum_fold (n : Nat) :
    ∀ (xs : List (TrainingOutcome × (ℚ × ℚ))) (acc : Aggregate),
      (acc.1.1 ≤ (xs.foldl (fun a y => maximum_update false false n a y.2 y.1.parameters)
          acc).1.1 ∧
        (∀ y ∈ xs, y.2.1 ≤ (xs.foldl (fun a y => maximum_update false false n a y.2
          y.1.parameters) acc).1.1) ∧
        ((xs.foldl (fun a y => maximum_update false false n a y.2 y.1.parameters) acc).1.1
          = acc.1.1 ∨
          ∃ y ∈ xs, (xs.foldl (fun a y => maximum_update false false n a y.2 y.1.parameters)
            acc).1.1 = y.2.1)) ∧
      (acc.1.2 ≤ (xs.foldl (fun a y => maximum_update false false n a y.2 y.1.parameters)
          acc).1.2 ∧
        (∀ y ∈ xs, y.2.2 ≤ (xs.foldl (fun a y => maximum_update false false n a y.2
          y.1.parameters) acc).1.2) ∧
        ((xs.foldl (fun a y => maximum_update false false n a y.2 y.1.parameters) acc).1.2
          = acc.1.2 ∨
          ∃ y ∈ xs, (xs.foldl (fun a y => maximum_update false false n a y.2 y.1.parameters)
            acc).1.2 = y.2.2)) := by
  intro xs
  induction xs with
  | nil => intro acc; simp
  | cons x xs ih =>
    intro acc
    simp only [List.foldl_cons]
    obtain ⟨⟨a1, a2, a3⟩, ⟨b1, b2, b3⟩⟩ := ih (maximum_update false false n acc x.2 x.1.parameters)
    rw [maximum_update_fst] at a1 a3
    rw [maximum_update_snd] at b1 b3
    refine ⟨⟨le_trans (le_max_left _ _) a1, ?_, ?_⟩, ⟨le_trans (le_max_left _ _) b1, ?_, ?_⟩⟩
    · intro y hy
      rcases List.mem_cons.1 hy with e | e
      · rw [e]; exact le_trans (le_max_right _ _) a1
      · exact a2 y e
    · rcases a3 with e | ⟨y, hy, e⟩
      · rcases max_choice acc.1.1 x.2.1 with c | c
        · left; rw [e, c]
        · right; exact ⟨x, List.mem_cons_self _ _, by rw [e, c]⟩
      · right; exact ⟨y, List.mem_cons_of_mem _ hy, e⟩
    · intro y hy
      rcases List.mem_cons.1 hy with e | e
      · rw [e]; exact le_trans (le_max_right _ _) b1
      · exact b2 y e
    · rcases b3 with e | ⟨y, hy, e⟩
      · rcases max_choice acc.1.2 x.2.2 with c | c
        · left; rw [e, c]
        · right; exact ⟨x, List.mem_cons_self _ _, by rw [e, c]⟩
      · right; exact ⟨y, List.mem_cons_of_mem _ hy, e⟩

/-- The minimum aggregate of a non-empty batch: each component is the least
value of that metric over the batch. -/
theorem aggregate_minimum (n : Nat) (trials : List (TrainingOutcome × (ℚ × ℚ)))
    (hne : trials ≠ []) :
    ((∀ y ∈ trials, (aggregate minimum_reduction n trials).1.1 ≤ y.2.1) ∧
      ∃ y ∈ trials, (aggregate minimum_reduction n trials).1.1 = y.2.1) ∧
    ((∀ y ∈ trials, (aggregate minimum_reduction n trials).1.2 ≤ y.2.2) ∧
      ∃ y ∈ trials, (aggregate minimum_reduction n trials).1.2 = y.2.2) := by
  cases trials with
  | nil => exact absurd rfl hne
  | cons x xs =>
    obtain ⟨⟨a1, a2, a3⟩, ⟨b1, b2, b3⟩⟩ := minimum_fold n xs (x.2, x.1.parameters)
    simp only [aggregate, minimum_reduction]
    refine ⟨⟨?_, ?_⟩, ⟨?_, ?_⟩⟩
    · intro y hy
      rcases List.mem_cons.1 hy with e | e
      · rw [e]; exact a1
      · exact a2 y e
    · rcases a3 with e | ⟨y, hy, e⟩
      · exact ⟨x, List.mem_cons_self _ _, e⟩
      · exact ⟨y, List.mem_cons_of_mem _ hy, e⟩
    · intro y hy
      rcases List.mem_cons.1 hy with e | e
      · rw [e]; exact b1
      · exact b2 y e
    · rcases b3 with e | ⟨y, hy, e⟩
      · exact ⟨x, List.mem_cons_self _ _, e⟩
      · exact ⟨y, List.mem_cons_of_mem _ hy, e⟩

/-- The maximum aggregate of a non-empty batch: each component is the greatest
value of that metric over the batch. -/
theorem aggregate_maximum (n : Nat) (trials : List (TrainingOutcome × (ℚ × ℚ)))
    (hne : trials ≠ []) :
    ((∀ y ∈ trials, y.2.1 ≤ (aggregate maximum_reduction n trials).1.1) ∧
      ∃ y ∈ trials, (aggregate maximum_reduction n trials).1.1 = y.2.1) ∧
    ((∀ y ∈ trials, y.2.2 ≤ (aggregate maximum_reduction n trials).1.2) ∧
      ∃ y ∈ trials, (aggregate maximum_reduction n trials).1.2 = y.2.2) := by
  cases trials with
  | nil => exact absurd rfl hne
  | cons x xs =>
    obtain ⟨⟨a1, a2, a3⟩, ⟨b1, b2, b3⟩⟩ := maximum_fold n xs (x.2, x.1.parameters)
    simp only [aggregate, maximum_reduction]
    refine ⟨⟨?_, ?_⟩, ⟨?_, ?_⟩⟩
    · intro y hy
      rcases List.mem_cons.1 hy with e | e
      · rw [e]; exact a1
      · exact a2 y e
    · rcases a3 with e | ⟨y, hy, e⟩
      · exact ⟨x, List.mem_cons_self _ _, e⟩
      · exact ⟨y, List.mem_cons_of_mem _ hy, e⟩
    · intro y hy
      rcases List.mem_cons.1 hy with e | e
      · rw [e]; exact b1
      · exact b2 y e
    · rcases b3 with e | ⟨y, hy, e⟩
      · exact ⟨x, List.mem_cons_self _ _, e⟩
      · exact ⟨y, List.mem_cons_of_mem _ hy, e⟩

theorem training_invocations_eq (s : OrderSelectionAlgorithm) (ts : TrainingStrategy)
    (h : s.training_strategy_pointer = some ts) : training_invocations s = ts.training_calls := by
  simp [training_invocations, h]

theorem getElem?_append_fresh {α : Type} (hist : List Nat) (vals : List α) (o : Nat) (a v : α)
    (i : Nat) (hlen : vals.length = hist.length) (hfresh : o ∉ hist)
    (h1 : (hist ++ [o])[i]? = some o) (h2 : (vals ++ [a])[i]? = some v) : v = a := by
  have hi : i = hist.length := by
    by_cases c : i < hist.length
    · rw [List.getElem?_append_left c] at h1
      exact absurd (List.getElem?_mem h1) hfresh
    · have c' : hist.length ≤ i := not_lt.1 c
      rw [List.getElem?_append_right c'] at h1
      by_cases d : i - hist.length = 0
      · omega
      · obtain ⟨k, hk⟩ : ∃ k, i - hist.length = k + 1 := ⟨i - hist.length - 1, by omega⟩
        rw [hk] at h1
        simp at h1
  subst hi
  rw [List.getElem?_append_right (by omega), hlen] at h2
  simpa using h2.symm

theorem calculate_final_performances_twice (r : Reduction) (s : OrderSelectionAlgorithm)
    (order_number : Nat) (ts : TrainingStrategy) (nn : NeuralNetwork)
    (mlp : MultilayerPerceptron) (trials : List (TrainingOutcome × (ℚ × ℚ)))
    (rest : List (Option TrainingOutcome))
    (hts : s.training_strategy_pointer = some ts)
    (hnn : ts.neural_network = some nn) (hmlp : nn.multilayer_perceptron_pointer = some mlp)
    (hlayers : 2 ≤ mlp.layers.length)
    (hqn : r.sets_quasi_Newton_method = true → ts.quasi_Newton_method_pointer.isSome = true)
    (hperf : s.performance_history.length = s.order_history.length)
    (hsel : s.selection_performance_history.length = s.order_history.length)
    (hfresh : order_number ∉ s.order_history)
    (horder : s.debug = true → 1 ≤ order_number)
    (hN : trials.length = s.trials_number) (hpos : 1 ≤ s.trials_number)
    (hscript : ts.script = trials.map (fun y => some y.1) ++ rest)
    (hfin : ∀ y ∈ trials, get_final_performances ts.main_type y.1.results = .ok y.2) :
    (calculate_final_performances r s order_number).1
        = .ok (aggregate r s.trials_number trials).1 ∧
      training_invocations (calculate_final_performances r s order_number).2
        = training_invocations s + s.trials_number ∧
      calculate_final_performances r (calculate_final_performances r s order_number).2
          order_number
        = (.ok (aggregate r s.trials_number trials).1,
          (calculate_final_performances r s order_number).2) := by
  obtain ⟨ts2, e, t⟩ := calculate_final_performances_fresh r s order_number ts nn mlp trials rest
    hts hnn hmlp hlayers hqn hfresh horder hN hpos hscript hfin
  have e1 : (calculate_final_performances r s order_number).1
      = .ok (aggregate r s.trials_number trials).1 := by rw [e]
  have hst : (calculate_final_performances r s order_number).2.training_strategy_pointer
      = some ts2 := by rw [e]
  have ho : (calculate_final_performances r s order_number).2.order_history
      = s.order_history ++ [order_number] := by rw [e]
  have hp : (calculate_final_performances r s order_number).2.performance_history
      = s.performance_history ++ [(aggregate r s.trials_number trials).1.1] := by rw [e]
  have hq : (calculate_final_performances r s order_number).2.selection_performance_history
      = s.selection_performance_history ++ [(aggregate r s.trials_number trials).1.2] := by
    rw [e]
  have hd : (calculate_final_performances r s order_number).2.debug = s.debug := by rw [e]
  have hn : (calculate_final_performances r s order_number).2.trials_number
      = s.trials_number := by rw [e]
  refine ⟨e1, ?_, ?_⟩
  · rw [training_invocations_eq _ ts2 hst, training_invocations_eq s ts hts]
    exact t.2.2.1
  · have hpf : ∃ pf, ts2.performance_functional_pointer = some pf := by
      have h := t.2.2.2
      unfold TrainingStrategy.neural_network at h
      cases hp : ts2.performance_functional_pointer with
      | none => simp [hp] at h
      | some pf => exact ⟨pf, rfl⟩
    obtain ⟨pf, hpf⟩ := hpf
    obtain ⟨i, v, w, h1, _, h3, h4, h5⟩ := calculate_final_performances_cached r
      (calculate_final_performances r s order_number).2 order_number ts2 pf hst hpf
      (by rw [hp, ho]; simp [hperf]) (by rw [hq, ho]; simp [hsel]) (by rw [ho]; simp)
      (fun d => ⟨horder (hd ▸ d), hn ▸ hpos⟩)
    rw [ho] at h1
    rw [hp] at h3
    rw [hq] at h4
    have hv := getElem?_append_fresh _ _ _ _ _ _ hperf hfresh h1 h3
    have hw := getElem?_append_fresh _ _ _ _ _ _ hsel hfresh h1 h4
    rw [h5, hv, hw]

theorem mean_fold (n : Nat) :
    ∀ (xs : List (TrainingOutcome × (ℚ × ℚ))) (acc : Aggregate),
      (xs.foldl (fun a y => mean_update false false n a y.2 y.1.parameters) acc)
        = ((acc.1.1 + (xs.map (fun y => y.2.1 / (n : ℚ))).sum,
            acc.1.2 + (xs.map (fun y => y.2.2 / (n : ℚ))).sum), acc.2) := by
  intro xs
  induction xs with
  | nil => intro acc; simp
  | cons x xs ih =>
    intro acc
    simp only [List.foldl_cons, List.map_cons, List.sum_cons]
    rw [ih]
    simp only [mean_update, if_true]
    refine Prod.ext (Prod.ext ?_ ?_) rfl
    · simp only; ring
    · simp only; ring

/-- What `calculate_mean_final_performances` computes on a fresh order: the
first trial value plus the later trial values each divided by the number of
trials, for both metrics; the parameters are those of the first trial. -/
theorem aggregate_mean (n : Nat) (x : TrainingOutcome × (ℚ × ℚ))
    (xs : List (TrainingOutcome × (ℚ × ℚ))) :
    aggregate mean_reduction n (x :: xs)
      = ((x.2.1 + (xs.map (fun y => y.2.1 / (n : ℚ))).sum,
          x.2.2 + (xs.map (fun y => y.2.2 / (n : ℚ))).sum), x.1.parameters) := by
  simp only [aggregate, mean_reduction]
  exact mean_fold n xs (x.2, x.1.parameters)

theorem scan_history_found (values : List ℚ) (order_number : Nat) (rest : List Nat) (i : Nat)
    (v0 v : ℚ) (h : scan_history values order_number rest i (v0, false) = .ok (v, true)) :
    order_number ∈ rest := by
  by_contra hc
  rw [scan_history_not_mem values order_number rest i (v0, false) hc] at h
  cases h

theorem calculate_final_performances_ok_mem (r : Reduction) (s : OrderSelectionAlgorithm)
    (order_number : Nat) :
    ∀ pair : ℚ × ℚ, (calculate_final_performances r s order_number).1 = .ok pair →
      order_number ∈ (calculate_final_performances r s order_number).2.order_history := by
  unfold calculate_final_performances
  split
  · intro pair h; cases h
  split
  · intro pair h; cases h
  split
  · intro pair h; cases h
  split
  · intro pair h; cases h
  split
  · intro pair h; cases h
  rename_i final0 flag_performance hscan0
  split
  · intro pair h; cases h
  split
  · rename_i hflags
    intro pair _
    have hp : flag_performance = true := hflags.1
    subst hp
    exact scan_history_found _ _ _ _ _ _ hscan0
  split
  · intro pair h; cases h
  split
  · intro pair h; cases h
  intro pair _
  simp

/-! ## Properties of the trial aggregation -/

theorem calculate_performances_eq (s : OrderSelectionAlgorithm) (order_number : Nat)
    (hmethod : s.performance_calculation_method = .Minimum ∨
      s.performance_calculation_method = .Maximum ∨ s.performance_calculation_method = .Mean) :
    ∃ r : Reduction, (r = minimum_reduction ∨ r = maximum_reduction ∨ r = mean_reduction) ∧
      (r.sets_quasi_Newton_method = true → s.performance_calculation_method = .Maximum) ∧
      ∀ s1 : OrderSelectionAlgorithm,
        s1.performance_calculation_method = s.performance_calculation_method →
        calculate_performances s1 order_number = calculate_final_performances r s1 order_number := by
  rcases hmethod with h | h | h
  · refine ⟨minimum_reduction, Or.inl rfl, by simp [minimum_reduction], fun s1 h1 => ?_⟩
    simp [calculate_performances, h1, h, calculate_minimum_final_performances]
  · refine ⟨maximum_reduction, Or.inr (Or.inl rfl), fun _ => h, fun s1 h1 => ?_⟩
    simp [calculate_performances, h1, h, calculate_maximum_final_performances]
  · refine ⟨mean_reduction, Or.inr (Or.inr rfl), by simp [mean_reduction], fun s1 h1 => ?_⟩
    simp [calculate_performances, h1, h, calculate_mean_final_performances]

/-- C1 (cache hit). Let the performance and selection histories be as long as
`order_history`, let the policy be Minimum, Maximum or Mean, let a training
strategy with a performance functional be attached, and let the arguments pass
the debug checks when these are compiled in. For an order that occurs in
`order_history`, `calculate_performances` returns the pair recorded at the
(last) index of that order and hands back the object unchanged: no training is
invoked and all histories are as before. -/
theorem cache_hit_returns_recorded_pair (s : OrderSelectionAlgorithm) (order_number : Nat)
    (ts : TrainingStrategy) (pf : PerformanceFunctional)
    (hmethod : s.performance_calculation_method = .Minimum ∨
      s.performance_calculation_method = .Maximum ∨ s.performance_calculation_method = .Mean)
    (hts : s.training_strategy_pointer = some ts)
    (hpf : ts.performance_functional_pointer = some pf)
    (hperf : s.performance_history.length = s.order_history.length)
    (hsel : s.selection_performance_history.length = s.order_history.length)
    (hmem : order_number ∈ s.order_history)
    (hargs : s.debug = true → 1 ≤ order_number ∧ 1 ≤ s.trials_number) :
    ∃ (i : Nat) (t u : ℚ), s.order_history[i]? = some order_number ∧
      (∀ j, i < j → s.order_history[j]? ≠ some order_number) ∧
      s.performance_history[i]? = some t ∧ s.selection_performance_history[i]? = some u ∧
      calculate_performances s order_number = (.ok (t, u), s) ∧
      training_invocations (calculate_performances s order_number).2 = training_invocations s := by
  obtain ⟨r, _, _, hr⟩ := calculate_performances_eq s order_number hmethod
  obtain ⟨i, t, u, h1, h2, h3, h4, h5⟩ :=
    calculate_final_performances_cached r s order_number ts pf hts hpf hperf hsel hmem hargs
  refine ⟨i, t, u, h1, h2, h3, h4, ?_, ?_⟩
  · rw [hr s rfl, h5]
  · rw [hr s rfl, h5]

/-- C1 at the sample object that has recorded orders 2 and 3, asked again for
order 3 under the Mean policy. -/
theorem cache_hit_returns_recorded_pair_witness :
    ∃ (i : Nat) (t u : ℚ), (sample_cached true .Mean).order_history[i]? = some 3 ∧
      (∀ j, i < j → (sample_cached true .Mean).order_history[j]? ≠ some 3) ∧
      (sample_cached true .Mean).performance_history[i]? = some t ∧
      (sample_cached true .Mean).selection_performance_history[i]? = some u ∧
      calculate_performances (sample_cached true .Mean) 3
        = (.ok (t, u), sample_cached true .Mean) ∧
      training_invocations (calculate_performances (sample_cached true .Mean) 3).2
        = training_invocations (sample_cached true .Mean) :=
  cache_hit_returns_recorded_pair (sample_cached true .Mean) 3 (sample_strategy [])
    sample_functional (Or.inr (Or.inr rfl)) rfl rfl rfl rfl (by decide)
    (fun _ => ⟨by decide, by decide⟩)

/-- Evaluate twice, for a trainer with the quasi-Newton method that the shrink
branch of the maximum method reads. For an order not in `order_history`, a policy among
Minimum, Maximum and Mean and `trials_number = N ≥ 1`, when the collaborators
are attached (for Maximum also the quasi-Newton method), the perceptron has at
least two layers, the histories are aligned, the order passes the debug check
and the next `N` trainings return outcomes whose final performances can be
read: the first `calculate_performances` invokes `perform_training` exactly
`N` times, an immediately following second call invokes it zero times and
returns the same pair; with `N = 1` the trainer is invoked once over both
calls. -/
theorem evaluate_twice_trains_once (s : OrderSelectionAlgorithm) (order_number : Nat)
    (ts : TrainingStrategy) (nn : NeuralNetwork) (mlp : MultilayerPerceptron)
    (trials : List (TrainingOutcome × (ℚ × ℚ))) (rest : List (Option TrainingOutcome))
    (hmethod : s.performance_calculation_method = .Minimum ∨
      s.performance_calculation_method = .Maximum ∨ s.performance_calculation_method = .Mean)
    (hts : s.training_strategy_pointer = some ts)
    (hnn : ts.neural_network = some nn) (hmlp : nn.multilayer_perceptron_pointer = some mlp)
    (hlayers : 2 ≤ mlp.layers.length)
    (hqn : s.performance_calculation_method = .Maximum →
      ts.quasi_Newton_method_pointer.isSome = true)
    (hperf : s.performance_history.length = s.order_history.length)
    (hsel : s.selection_performance_history.length = s.order_history.length)
    (hfresh : order_number ∉ s.order_history)
    (horder : s.debug = true → 1 ≤ order_number)
    (hN : trials.length = s.trials_number) (hpos : 1 ≤ s.trials_number)
    (hscript : ts.script = trials.map (fun y => some y.1) ++ rest)
    (hfin : ∀ y ∈ trials, get_final_performances ts.main_type y.1.results = .ok y.2) :
    ∃ pair : ℚ × ℚ,
      (calculate_performances s order_number).1 = .ok pair ∧
      training_invocations (calculate_performances s order_number).2
        = training_invocations s + s.trials_number ∧
      (calculate_performances (calculate_performances s order_number).2 order_number).1
        = .ok pair ∧
      training_invocations
          (calculate_performances (calculate_performances s order_number).2 order_number).2
        = training_invocations (calculate_performances s order_number).2 ∧
      (s.trials_number = 1 →
        training_invocations
            (calculate_performances (calculate_performances s order_number).2 order_number).2
          = training_invocations s + 1) := by
  obtain ⟨r, _, hq, hr⟩ := calculate_performances_eq s order_number hmethod
  obtain ⟨h1, h2, h3⟩ := calculate_final_performances_twice r s order_number ts nn mlp trials
    rest hts hnn hmlp hlayers (fun c => hqn (hq c)) hperf hsel hfresh horder hN hpos hscript hfin
  have hm : (calculate_final_performances r s order_number).2.performance_calculation_method
      = s.performance_calculation_method := by
    obtain ⟨ts2, e, _⟩ := calculate_final_performances_fresh r s order_number ts nn mlp trials
      rest hts hnn hmlp hlayers (fun c => hqn (hq c)) hfresh horder hN hpos hscript hfin
    rw [e]
  refine ⟨(aggregate r s.trials_number trials).1, ?_, ?_, ?_, ?_, ?_⟩
  · rw [hr s rfl]; exact h1
  · rw [hr s rfl]; exact h2
  · rw [hr s rfl, hr _ hm, h3]
  · rw [hr s rfl, hr _ hm, h3]
  · intro hone
    rw [hr s rfl, hr _ hm, h3, h2, hone]

/-- Evaluate twice at the sample object with `trials_number = 1`: order 3 evaluated twice
costs one training. -/
theorem evaluate_twice_trains_once_witness :
    ∃ pair : ℚ × ℚ,
      (calculate_performances (sample_algorithm true 1 .Minimum sample_script) 3).1 = .ok pair ∧
      training_invocations
          (calculate_performances (sample_algorithm true 1 .Minimum sample_script) 3).2
        = training_invocations (sample_algorithm true 1 .Minimum sample_script)
          + (sample_algorithm true 1 .Minimum sample_script).trials_number ∧
      (calculate_performances
          (calculate_performances (sample_algorithm true 1 .Minimum sample_script) 3).2 3).1
        = .ok pair ∧
      training_invocations
          (calculate_performances
            (calculate_performances (sample_algorithm true 1 .Minimum sample_script) 3).2 3).2
        = training_invocations
          (calculate_performances (sample_algorithm true 1 .Minimum sample_script) 3).2 ∧
      ((sample_algorithm true 1 .Minimum sample_script).trials_number = 1 →
        training_invocations
            (calculate_performances
              (calculate_performances (sample_algorithm true 1 .Minimum sample_script) 3).2 3).2
          = training_invocations (sample_algorithm true 1 .Minimum sample_script) + 1) :=
  evaluate_twice_trains_once (sample_algorithm true 1 .Minimum sample_script) 3
    (sample_strategy sample_script) sample_network sample_perceptron [sample_trial 2 5 [1]]
    [some (sample_trial 4 3 [2]).1]
    (Or.inl rfl) rfl rfl rfl (by decide) (fun _ => rfl) rfl rfl (by decide)
    (fun _ => by decide) rfl (by decide) rfl
    (by
      intro y hy
      simp only [List.mem_singleton] at hy
      subst hy
      rfl)

/-- C3 (minimum aggregation). For an order not in the history and a batch of
`N = trials_number ≥ 1` trial outcomes `(t_i, s_i)` returned by the trainer
(collaborators attached, at least two layers, order passing the debug check),
`calculate_minimum_final_performances` returns the pair made of the least
`t_i` and, independently, the least `s_i`, and appends the order and exactly
that pair to the histories. -/
theorem minimum_aggregation (s : OrderSelectionAlgorithm) (order_number : Nat)
    (ts : TrainingStrategy) (nn : NeuralNetwork) (mlp : MultilayerPerceptron)
    (trials : List (TrainingOutcome × (ℚ × ℚ))) (rest : List (Option TrainingOutcome))
    (hts : s.training_strategy_pointer = some ts)
    (hnn : ts.neural_network = some nn) (hmlp : nn.multilayer_perceptron_pointer = some mlp)
    (hlayers : 2 ≤ mlp.layers.length)
    (hfresh : order_number ∉ s.order_history)
    (horder : s.debug = true → 1 ≤ order_number)
    (hN : trials.length = s.trials_number) (hpos : 1 ≤ s.trials_number)
    (hscript : ts.script = trials.map (fun y => some y.1) ++ rest)
    (hfin : ∀ y ∈ trials, get_final_performances ts.main_type y.1.results = .ok y.2) :
    ∃ pair : ℚ × ℚ,
      (calculate_minimum_final_performances s order_number).1 = .ok pair ∧
      (∀ y ∈ trials, pair.1 ≤ y.2.1) ∧ (∃ y ∈ trials, pair.1 = y.2.1) ∧
      (∀ y ∈ trials, pair.2 ≤ y.2.2) ∧ (∃ y ∈ trials, pair.2 = y.2.2) ∧
      (calculate_minimum_final_performances s order_number).2.order_history
        = s.order_history ++ [order_number] ∧
      (calculate_minimum_final_performances s order_number).2.performance_history
        = s.performance_history ++ [pair.1] ∧
      (calculate_minimum_final_performances s order_number).2.selection_performance_history
        = s.selection_performance_history ++ [pair.2] := by
  obtain ⟨ts2, e, _⟩ := calculate_final_performances_fresh minimum_reduction s order_number ts
    nn mlp trials rest hts hnn hmlp hlayers (by simp [minimum_reduction]) hfresh horder hN hpos
    hscript hfin
  have hne : trials ≠ [] := by
    intro c; rw [c] at hN; simp at hN; omega
  obtain ⟨⟨a1, a2⟩, ⟨b1, b2⟩⟩ := aggregate_minimum s.trials_number trials hne
  refine ⟨(aggregate minimum_reduction s.trials_number trials).1, ?_, a1, a2, b1, b2, ?_, ?_, ?_⟩
    <;> simp only [calculate_minimum_final_performances, e]

/-- C3 at the sample object with two trials, (2, 5) then (4, 3), order 3. -/
theorem minimum_aggregation_witness :
    ∃ pair : ℚ × ℚ,
      (calculate_minimum_final_performances
        (sample_algorithm true 2 .Minimum sample_script) 3).1 = .ok pair ∧
      (∀ y ∈ sample_trials, pair.1 ≤ y.2.1) ∧ (∃ y ∈ sample_trials, pair.1 = y.2.1) ∧
      (∀ y ∈ sample_trials, pair.2 ≤ y.2.2) ∧ (∃ y ∈ sample_trials, pair.2 = y.2.2) ∧
      (calculate_minimum_final_performances
        (sample_algorithm true 2 .Minimum sample_script) 3).2.order_history
        = (sample_algorithm true 2 .Minimum sample_script).order_history ++ [3] ∧
      (calculate_minimum_final_performances
        (sample_algorithm true 2 .Minimum sample_script) 3).2.performance_history
        = (sample_algorithm true 2 .Minimum sample_script).performance_history ++ [pair.1] ∧
      (calculate_minimum_final_performances
        (sample_algorithm true 2 .Minimum sample_script) 3).2.selection_performance_history
        = (sample_algorithm true 2 .Minimum sample_script).selection_performance_history
          ++ [pair.2] :=
  minimum_aggregation (sample_algorithm true 2 .Minimum sample_script) 3
    (sample_strategy sample_script) sample_network sample_perceptron sample_trials []
    rfl rfl rfl (by decide) (by decide) (fun _ => by decide) rfl (by decide)
    (by simp [sample_strategy, sample_script])
    (by
      intro y hy
      simp only [sample_trials, List.mem_cons, List.mem_singleton, List.not_mem_nil,
        or_false] at hy
      rcases hy with e | e <;> subst e <;> rfl)

/-- Maximum aggregation, for a trainer with the quasi-Newton method that the
shrink branch reads. For an order not in the history and a batch of
`N = trials_number ≥ 1` trial outcomes `(t_i, s_i)` returned by the trainer
(collaborators attached, among them the quasi-Newton method that the shrink
branch sets, at least two layers, order passing the debug check),
`calculate_maximum_final_performances` returns the pair made of the greatest
`t_i` and the greatest `s_i`, and appends the order and exactly that pair to
the histories. -/
theorem maximum_aggregation (s : OrderSelectionAlgorithm) (order_number : Nat)
    (ts : TrainingStrategy) (nn : NeuralNetwork) (mlp : MultilayerPerceptron)
    (trials : List (TrainingOutcome × (ℚ × ℚ))) (rest : List (Option TrainingOutcome))
    (hts : s.training_strategy_pointer = some ts)
    (hnn : ts.neural_network = some nn) (hmlp : nn.multilayer_perceptron_pointer = some mlp)
    (hlayers : 2 ≤ mlp.layers.length)
    (hqn : ts.quasi_Newton_method_pointer.isSome = true)
    (hfresh : order_number ∉ s.order_history)
    (horder : s.debug = true → 1 ≤ order_number)
    (hN : trials.length = s.trials_number) (hpos : 1 ≤ s.trials_number)
    (hscript : ts.script = trials.map (fun y => some y.1) ++ rest)
    (hfin : ∀ y ∈ trials, get_final_performances ts.main_type y.1.results = .ok y.2) :
    ∃ pair : ℚ × ℚ,
      (calculate_maximum_final_performances s order_number).1 = .ok pair ∧
      (∀ y ∈ trials, y.2.1 ≤ pair.1) ∧ (∃ y ∈ trials, pair.1 = y.2.1) ∧
      (∀ y ∈ trials, y.2.2 ≤ pair.2) ∧ (∃ y ∈ trials, pair.2 = y.2.2) ∧
      (calculate_maximum_final_performances s order_number).2.order_history
        = s.order_history ++ [order_number] ∧
      (calculate_maximum_final_performances s order_number).2.performance_history
        = s.performance_history ++ [pair.1] ∧
      (calculate_maximum_final_performances s order_number).2.selection_performance_history
        = s.selection_performance_history ++ [pair.2] := by
  obtain ⟨ts2, e, _⟩ := calculate_final_performances_fresh maximum_reduction s order_number ts
    nn mlp trials rest hts hnn hmlp hlayers (fun _ => hqn) hfresh horder hN hpos hscript hfin
  have hne : trials ≠ [] := by
    intro c; rw [c] at hN; simp at hN; omega
  obtain ⟨⟨a1, a2⟩, ⟨b1, b2⟩⟩ := aggregate_maximum s.trials_number trials hne
  refine ⟨(aggregate maximum_reduction s.trials_number trials).1, ?_, a1, a2, b1, b2, ?_, ?_, ?_⟩
    <;> simp only [calculate_maximum_final_performances, e]

/-- Maximum aggregation at the sample object with two trials, (2, 5) then
(4, 3), order 3. -/
theorem maximum_aggregation_witness :
    ∃ pair : ℚ × ℚ,
      (calculate_maximum_final_performances
        (sample_algorithm true 2 .Maximum sample_script) 3).1 = .ok pair ∧
      (∀ y ∈ sample_trials, y.2.1 ≤ pair.1) ∧ (∃ y ∈ sample_trials, pair.1 = y.2.1) ∧
      (∀ y ∈ sample_trials, y.2.2 ≤ pair.2) ∧ (∃ y ∈ sample_trials, pair.2 = y.2.2) ∧
      (calculate_maximum_final_performances
        (sample_algorithm true 2 .Maximum sample_script) 3).2.order_history
        = (sample_algorithm true 2 .Maximum sample_script).order_history ++ [3] ∧
      (calculate_maximum_final_performances
        (sample_algorithm true 2 .Maximum sample_script) 3).2.performance_history
        = (sample_algorithm true 2 .Maximum sample_script).performance_history ++ [pair.1] ∧
      (calculate_maximum_final_performances
        (sample_algorithm true 2 .Maximum sample_script) 3).2.selection_performance_history
        = (sample_algorithm true 2 .Maximum sample_script).selection_performance_history
          ++ [pair.2] :=
  maximum_aggregation (sample_algorithm true 2 .Maximum sample_script) 3
    (sample_strategy sample_script) sample_network sample_perceptron sample_trials []
    rfl rfl rfl (by decide) rfl (by decide) (fun _ => by decide) rfl (by decide)
    (by simp [sample_strategy, sample_script])
    (by
      intro y hy
      simp only [sample_trials, List.mem_cons, List.mem_singleton, List.not_mem_nil,
        or_false] at hy
      rcases hy with e | e <;> subst e <;> rfl)

/-- C5 (mean aggregation), the code at the failing input: with
`trials_number = 2` and trial outcomes (2, 5) and (4, 3) on the fresh order 3,
`calculate_mean_final_performances` returns (2 + 4/2, 5 + 3/2) = (4, 13/2)
and records it, whereas the means are (3, 4): the first trial enters the sum
undivided. -/
theorem mean_first_trial_undivided :
    (calculate_mean_final_performances (sample_algorithm true 2 .Mean sample_script) 3).1
        = .ok (4, 13 / 2) ∧
      (calculate_mean_final_performances
        (sample_algorithm true 2 .Mean sample_script) 3).2.performance_history = [4] ∧
      (calculate_mean_final_performances
        (sample_algorithm true 2 .Mean sample_script) 3).2.selection_performance_history
        = [13 / 2] ∧
      ((2 + 4) / 2 : ℚ) = 3 ∧ ((5 + 3) / 2 : ℚ) = 4 ∧ (4 : ℚ) ≠ 3 ∧ (13 / 2 : ℚ) ≠ 4 := by
  obtain ⟨ts2, e, _⟩ := calculate_final_performances_fresh mean_reduction
    (sample_algorithm true 2 .Mean sample_script) 3
    (sample_strategy sample_script) sample_network sample_perceptron sample_trials []
    rfl rfl rfl (by decide) (by simp [mean_reduction]) (by decide) (fun _ => by decide) rfl
    (by decide) (by simp [sample_strategy, sample_script])
    (by
      intro y hy
      simp only [sample_trials, List.mem_cons, List.mem_singleton, List.not_mem_nil,
        or_false] at hy
      rcases hy with e | e <;> subst e <;> rfl)
  have ha : (aggregate mean_reduction (sample_algorithm true 2 .Mean sample_script).trials_number
      sample_trials).1 = (4, 13 / 2) := by
    simp only [aggregate, sample_trials, sample_trial, mean_reduction, mean_update,
      sample_algorithm, List.foldl_cons, List.foldl_nil]
    norm_num
  rw [ha] at e
  refine ⟨?_, ?_, ?_, by norm_num, by norm_num, by norm_num, by norm_num⟩
  · simp only [calculate_mean_final_performances, e]
  · simp only [calculate_mean_final_performances, e]; rfl
  · simp only [calculate_mean_final_performances, e]; rfl

theorem calculate_performances_shape (s : OrderSelectionAlgorithm) (order_number : Nat) :
    ((calculate_performances s order_number).2.order_history = s.order_history ∧
      (calculate_performances s order_number).2.performance_history
        = s.performance_history ∧
      (calculate_performances s order_number).2.selection_performance_history
        = s.selection_performance_history ∧
      (calculate_performances s order_number).2.parameters_history
        = s.parameters_history) ∨
    (order_number ∉ s.order_history ∧ ∃ final final_parameters,
      (calculate_performances s order_number).1 = .ok final ∧
      (calculate_performances s order_number).2.order_history
        = s.order_history ++ [order_number] ∧
      (calculate_performances s order_number).2.performance_history
        = s.performance_history ++ [final.1] ∧
      (calculate_performances s order_number).2.selection_performance_history
        = s.selection_performance_history ++ [final.2] ∧
      (calculate_performances s order_number).2.parameters_history
        = s.parameters_history ++ [final_parameters]) := by
  unfold calculate_performances
  split
  · exact calculate_final_performances_shape maximum_reduction s order_number
  · exact calculate_final_performances_shape minimum_reduction s order_number
  · exact calculate_final_performances_shape mean_reduction s order_number
  · left; exact ⟨rfl, rfl, rfl, rfl⟩

theorem calculate_performances_cached_state (s : OrderSelectionAlgorithm) (order_number : Nat)
    (hmem : order_number ∈ s.order_history) :
    (calculate_performances s order_number).2 = s := by
  unfold calculate_performances
  split
  · exact calculate_final_performances_cached_state maximum_reduction s order_number hmem
  · exact calculate_final_performances_cached_state minimum_reduction s order_number hmem
  · exact calculate_final_performances_cached_state mean_reduction s order_number hmem
  · rfl

/-- History growth. Under each of the policies Minimum, Maximum and Mean (for
Maximum with the quasi-Newton method that the shrink branch reads in part 1):
(1) on an order not in `order_history`, when the trials run (collaborators
attached, at least two layers, order passing the debug check, `trials_number`
successful trainings ahead), `calculate_performances` appends exactly one
element to each of the four histories, namely the order, the two components of
the returned pair and a parameter vector; (2) on an order already in
`order_history` it changes no history; (3) in every case the old
`order_history` is kept and at most one element is added, so its length never
decreases. -/
theorem history_growth (s : OrderSelectionAlgorithm) (order_number : Nat)
    (hmethod : s.performance_calculation_method = .Minimum ∨
      s.performance_calculation_method = .Maximum ∨ s.performance_calculation_method = .Mean) :
    (∀ (ts : TrainingStrategy) (nn : NeuralNetwork) (mlp : MultilayerPerceptron)
        (trials : List (TrainingOutcome × (ℚ × ℚ))) (rest : List (Option TrainingOutcome)),
      order_number ∉ s.order_history →
      s.training_strategy_pointer = some ts →
      ts.neural_network = some nn → nn.multilayer_perceptron_pointer = some mlp →
      2 ≤ mlp.layers.length →
      (s.performance_calculation_method = .Maximum →
        ts.quasi_Newton_method_pointer.isSome = true) →
      (s.debug = true → 1 ≤ order_number) →
      trials.length = s.trials_number → 1 ≤ s.trials_number →
      ts.script = trials.map (fun y => some y.1) ++ rest →
      (∀ y ∈ trials, get_final_performances ts.main_type y.1.results = .ok y.2) →
      ∃ (pair : ℚ × ℚ) (parameters : List ℚ),
        (calculate_performances s order_number).1 = .ok pair ∧
        (calculate_performances s order_number).2.order_history
          = s.order_history ++ [order_number] ∧
        (calculate_performances s order_number).2.performance_history
          = s.performance_history ++ [pair.1] ∧
        (calculate_performances s order_number).2.selection_performance_history
          = s.selection_performance_history ++ [pair.2] ∧
        (calculate_performances s order_number).2.parameters_history
          = s.parameters_history ++ [parameters]) ∧
    (order_number ∈ s.order_history →
      (calculate_performances s order_number).2.order_history = s.order_history ∧
      (calculate_performances s order_number).2.performance_history
        = s.performance_history ∧
      (calculate_performances s order_number).2.selection_performance_history
        = s.selection_performance_history ∧
      (calculate_performances s order_number).2.parameters_history
        = s.parameters_history) ∧
    ((calculate_performances s order_number).2.order_history = s.order_history ∨
      (calculate_performances s order_number).2.order_history
        = s.order_history ++ [order_number]) ∧
    s.order_history.length ≤ (calculate_performances s order_number).2.order_history.length := by
  refine ⟨?_, ?_, ?_, ?_⟩
  · intro ts nn mlp trials rest hfresh hts hnn hmlp hlayers hqn horder hN hpos hscript hfin
    obtain ⟨r, _, hq, hr⟩ := calculate_performances_eq s order_number hmethod
    obtain ⟨ts2, e, _⟩ := calculate_final_performances_fresh r s order_number ts nn mlp trials
      rest hts hnn hmlp hlayers (fun c => hqn (hq c)) hfresh horder hN hpos hscript hfin
    refine ⟨(aggregate r s.trials_number trials).1, (aggregate r s.trials_number trials).2,
      ?_, ?_, ?_, ?_, ?_⟩ <;> rw [hr s rfl, e]
  · intro hmem
    rw [calculate_performances_cached_state s order_number hmem]
    exact ⟨rfl, rfl, rfl, rfl⟩
  · rcases calculate_performances_shape s order_number with h | ⟨_, _, _, _, h, _⟩
    · exact Or.inl h.1
    · exact Or.inr h
  · rcases calculate_performances_shape s order_number with h | ⟨_, _, _, _, h, _⟩
    · rw [h.1]
    · rw [h]; simp

/-- History growth at the sample object with empty histories: evaluating order 3 under
the Mean policy appends one element to each history. -/
theorem history_growth_witness :
    ∃ (pair : ℚ × ℚ) (parameters : List ℚ),
      (calculate_performances (sample_algorithm true 2 .Mean sample_script) 3).1 = .ok pair ∧
      (calculate_performances (sample_algorithm true 2 .Mean sample_script) 3).2.order_history
        = (sample_algorithm true 2 .Mean sample_script).order_history ++ [3] ∧
      (calculate_performances
          (sample_algorithm true 2 .Mean sample_script) 3).2.performance_history
        = (sample_algorithm true 2 .Mean sample_script).performance_history ++ [pair.1] ∧
      (calculate_performances
          (sample_algorithm true 2 .Mean sample_script) 3).2.selection_performance_history
        = (sample_algorithm true 2 .Mean sample_script).selection_performance_history
          ++ [pair.2] ∧
      (calculate_performances
          (sample_algorithm true 2 .Mean sample_script) 3).2.parameters_history
        = (sample_algorithm true 2 .Mean sample_script).parameters_history ++ [parameters] :=
  (history_growth (sample_algorithm true 2 .Mean sample_script) 3 (Or.inr (Or.inr rfl))).1
    (sample_strategy sample_script) sample_network sample_perceptron sample_trials []
    (by decide) rfl rfl rfl (by decide) (fun _ => rfl) (fun _ => by decide) rfl (by decide)
    (by simp [sample_strategy, sample_script])
    (by
      intro y hy
      simp only [sample_trials, List.mem_cons, List.mem_singleton, List.not_mem_nil,
        or_false] at hy
      rcases hy with e | e <;> subst e <;> rfl)

theorem calculate_performances_nodup (s : OrderSelectionAlgorithm) (order_number : Nat)
    (h : s.order_history.Nodup) : (calculate_performances s order_number).2.order_history.Nodup := by
  rcases calculate_performances_shape s order_number with e | ⟨hfresh, _, _, _, e, _⟩
  · rw [e.1]; exact h
  · rw [e]
    exact List.Nodup.append h (List.nodup_singleton _) (by simpa using hfresh)

theorem evaluate_orders_nodup :
    ∀ (calls : List (PerformanceCalculationMethod × Nat)) (s : OrderSelectionAlgorithm),
      s.order_history.Nodup → (evaluate_orders calls s).order_history.Nodup := by
  intro calls
  induction calls with
  | nil => intro s h; exact h
  | cons c calls ih =>
    intro s h
    obtain ⟨m, o⟩ := c
    exact ih _ (calculate_performances_nodup _ o h)

theorem calculate_performances_ok_mem (s : OrderSelectionAlgorithm) (order_number : Nat)
    (pair : ℚ × ℚ) (h : (calculate_performances s order_number).1 = .ok pair) :
    order_number ∈ (calculate_performances s order_number).2.order_history := by
  unfold calculate_performances at h ⊢
  cases hm : s.performance_calculation_method with
  | Maximum =>
    rw [hm] at h
    exact calculate_final_performances_ok_mem maximum_reduction s order_number pair h
  | Minimum =>
    rw [hm] at h
    exact calculate_final_performances_ok_mem minimum_reduction s order_number pair h
  | Mean =>
    rw [hm] at h
    exact calculate_final_performances_ok_mem mean_reduction s order_number pair h
  | unnamed code =>
    rw [hm] at h
    cases h

theorem calculate_performances_mem_mono (s : OrderSelectionAlgorithm) (order_number x : Nat)
    (h : x ∈ s.order_history) : x ∈ (calculate_performances s order_number).2.order_history := by
  rcases calculate_performances_shape s order_number with e | ⟨_, _, _, _, e, _⟩
  · rw [e.1]; exact h
  · rw [e]; exact List.mem_append_left _ h

theorem evaluate_orders_mem_mono :
    ∀ (calls : List (PerformanceCalculationMethod × Nat)) (s : OrderSelectionAlgorithm) (x : Nat),
      x ∈ s.order_history → x ∈ (evaluate_orders calls s).order_history := by
  intro calls
  induction calls with
  | nil => intro s x h; exact h
  | cons c calls ih =>
    intro s x h
    obtain ⟨m, o⟩ := c
    exact ih _ x (calculate_performances_mem_mono _ o x h)

theorem evaluate_orders_append :
    ∀ (calls1 calls2 : List (PerformanceCalculationMethod × Nat)) (s : OrderSelectionAlgorithm),
      evaluate_orders (calls1 ++ calls2) s = evaluate_orders calls2 (evaluate_orders calls1 s) := by
  intro calls1
  induction calls1 with
  | nil => intro calls2 s; rfl
  | cons c calls1 ih =>
    intro calls2 s
    obtain ⟨m, o⟩ := c
    exact ih calls2 _

/-- C7 (one record per order). If `order_history` has no duplicate, it has
none after a call of `calculate_minimum_final_performances`,
`calculate_maximum_final_performances` or `calculate_mean_final_performances`
with any order, whether the call returns or throws (equal lengths of the
histories are not needed). Hence, in any sequence of evaluations that starts
from an empty history, `order_history` has no duplicate, and an order whose
evaluation returned occurs in it exactly once, whatever is evaluated later. -/
theorem one_record_per_order (s : OrderSelectionAlgorithm) (order_number : Nat)
    (hnodup : s.order_history.Nodup) :
    (calculate_minimum_final_performances s order_number).2.order_history.Nodup ∧
    (calculate_maximum_final_performances s order_number).2.order_history.Nodup ∧
    (calculate_mean_final_performances s order_number).2.order_history.Nodup ∧
    (∀ (calls : List (PerformanceCalculationMethod × Nat)) (s0 : OrderSelectionAlgorithm),
      s0.order_history = [] → (evaluate_orders calls s0).order_history.Nodup) ∧
    (∀ (before after : List (PerformanceCalculationMethod × Nat))
      (m : PerformanceCalculationMethod) (o : Nat) (s0 : OrderSelectionAlgorithm) (pair : ℚ × ℚ),
      s0.order_history = [] →
      (calculate_performances
        { evaluate_orders before s0 with performance_calculation_method := m } o).1 = .ok pair →
      (evaluate_orders (before ++ (m, o) :: after) s0).order_history.count o = 1) := by
  have key : ∀ r : Reduction,
      (calculate_final_performances r s order_number).2.order_history.Nodup := by
    intro r
    rcases calculate_final_performances_shape r s order_number with e | ⟨hfresh, _, _, _, e, _⟩
    · rw [e.1]; exact hnodup
    · rw [e]
      exact List.Nodup.append hnodup (List.nodup_singleton _) (by simpa using hfresh)
  have hseq : ∀ (calls : List (PerformanceCalculationMethod × Nat))
      (s0 : OrderSelectionAlgorithm), s0.order_history = [] →
      (evaluate_orders calls s0).order_history.Nodup :=
    fun calls s0 h0 => evaluate_orders_nodup calls s0 (by rw [h0]; exact List.nodup_nil)
  refine ⟨key _, key _, key _, hseq, ?_⟩
  intro before after m o s0 pair h0 hok
  refine List.count_eq_one_of_mem (hseq _ s0 h0) ?_
  rw [evaluate_orders_append]
  exact evaluate_orders_mem_mono after _ o (calculate_performances_ok_mem _ o pair hok)

/-- C7 at the sample object that has recorded orders 2 and 3: evaluating
order 3 or the fresh order 5 leaves no duplicate. -/
theorem one_record_per_order_witness :
    (sample_cached true .Minimum).order_history.Nodup ∧
    (calculate_minimum_final_performances (sample_cached true .Minimum) 3).2.order_history.Nodup ∧
    (calculate_maximum_final_performances (sample_cached true .Minimum) 5).2.order_history.Nodup ∧
    (calculate_mean_final_performances (sample_cached true .Minimum) 5).2.order_history.Nodup :=
  ⟨by decide,
    (one_record_per_order (sample_cached true .Minimum) 3 (by decide)).1,
    (one_record_per_order (sample_cached true .Minimum) 5 (by decide)).2.1,
    (one_record_per_order (sample_cached true .Minimum) 5 (by decide)).2.2.1⟩

/-! ## Properties of the configuration -/

/-- C8, the claim fails without `__OPENNN_DEBUG__`: from the bounds 1 and 6
`set_minimum_order(9)` succeeds although 9 is not below the maximum order, and
leaves the minimum order above the maximum order; `set_maximum_order(1)`
succeeds although 1 is not above the minimum order. -/
theorem setters_unchecked_without_debug :
    (sample_algorithm false 1 .Minimum []).minimum_order = 1 ∧
    (sample_algorithm false 1 .Minimum []).maximum_order = 6 ∧
    (set_minimum_order (sample_algorithm false 1 .Minimum []) 9).1 = .ok () ∧
    ¬ (9 < (sample_algorithm false 1 .Minimum []).maximum_order) ∧
    (set_minimum_order (sample_algorithm false 1 .Minimum []) 9).2.minimum_order = 9 ∧
    (set_minimum_order (sample_algorithm false 1 .Minimum []) 9).2.maximum_order = 6 ∧
    (set_maximum_order (sample_algorithm false 1 .Minimum []) 1).1 = .ok () ∧
    ¬ (1 > (sample_algorithm false 1 .Minimum []).minimum_order) := by
  refine ⟨rfl, rfl, rfl, by decide, rfl, rfl, rfl, by decide⟩

theorem set_minimum_order_checked (s : OrderSelectionAlgorithm) (n : Nat)
    (hdebug : s.debug = true) :
    (1 ≤ n ∧ n < s.maximum_order →
      set_minimum_order s n = (.ok (), { s with minimum_order := n })) ∧
    (¬ (1 ≤ n ∧ n < s.maximum_order) → ∃ e, set_minimum_order s n = (.error e, s)) := by
  unfold set_minimum_order
  constructor
  · intro h
    rw [if_neg (fun c => by omega), if_neg (fun c => by omega)]
  · intro h
    by_cases h1 : n ≤ 0
    · rw [if_pos ⟨hdebug, h1⟩]; exact ⟨_, rfl⟩
    · rw [if_neg (fun c => h1 c.2), if_pos ⟨hdebug, by omega⟩]; exact ⟨_, rfl⟩

theorem set_maximum_order_checked (s : OrderSelectionAlgorithm) (n : Nat)
    (hdebug : s.debug = true) :
    (1 ≤ n ∧ n > s.minimum_order →
      set_maximum_order s n = (.ok (), { s with maximum_order := n })) ∧
    (¬ (1 ≤ n ∧ n > s.minimum_order) → ∃ e, set_maximum_order s n = (.error e, s)) := by
  unfold set_maximum_order
  constructor
  · intro h
    rw [if_neg (fun c => by omega), if_neg (fun c => by omega)]
  · intro h
    by_cases h1 : n ≤ 0
    · rw [if_pos ⟨hdebug, h1⟩]; exact ⟨_, rfl⟩
    · rw [if_neg (fun c => h1 c.2), if_pos ⟨hdebug, by omega⟩]; exact ⟨_, rfl⟩

/-- C8 as amended (setters preserve the order domain when the debug checks are
compiled in). With `__OPENNN_DEBUG__`, from any configuration with
`1 ≤ minimum_order` (in particular from `1 ≤ minimum_order < maximum_order`):
`set_minimum_order(n)` succeeds iff `1 ≤ n < maximum_order`,
`set_maximum_order(n)` succeeds iff `n > minimum_order`; a successful call
stores `n` and leaves `1 ≤ minimum_order < maximum_order` true; a failing call
throws and leaves the object unchanged. -/
theorem setters_preserve_order_domain (s : OrderSelectionAlgorithm) (n : Nat)
    (hdebug : s.debug = true) (hmin : 1 ≤ s.minimum_order) :
    (((set_minimum_order s n).1 = .ok () ↔ 1 ≤ n ∧ n < s.maximum_order) ∧
      ((set_minimum_order s n).1 = .ok () →
        (set_minimum_order s n).2.minimum_order = n ∧
        1 ≤ (set_minimum_order s n).2.minimum_order ∧
        (set_minimum_order s n).2.minimum_order < (set_minimum_order s n).2.maximum_order) ∧
      ((set_minimum_order s n).1 ≠ .ok () →
        (∃ e, (set_minimum_order s n).1 = .error e) ∧ (set_minimum_order s n).2 = s)) ∧
    (((set_maximum_order s n).1 = .ok () ↔ n > s.minimum_order) ∧
      ((set_maximum_order s n).1 = .ok () →
        (set_maximum_order s n).2.maximum_order = n ∧
        1 ≤ (set_maximum_order s n).2.minimum_order ∧
        (set_maximum_order s n).2.minimum_order < (set_maximum_order s n).2.maximum_order) ∧
      ((set_maximum_order s n).1 ≠ .ok () →
        (∃ e, (set_maximum_order s n).1 = .error e) ∧ (set_maximum_order s n).2 = s)) := by
  constructor
  · by_cases h : 1 ≤ n ∧ n < s.maximum_order
    · have e := (set_minimum_order_checked s n hdebug).1 h
      rw [e]
      exact ⟨⟨fun _ => h, fun _ => rfl⟩, fun _ => ⟨rfl, h.1, h.2⟩, fun c => absurd rfl c⟩
    · obtain ⟨err, e⟩ := (set_minimum_order_checked s n hdebug).2 h
      rw [e]
      exact ⟨⟨(fun c => by cases c), fun c => absurd c h⟩, (fun c => by cases c),
        fun _ => ⟨⟨err, rfl⟩, rfl⟩⟩
  · by_cases h : 1 ≤ n ∧ n > s.minimum_order
    · have e := (set_maximum_order_checked s n hdebug).1 h
      rw [e]
      exact ⟨⟨fun _ => h.2, fun _ => rfl⟩, fun _ => ⟨rfl, hmin, h.2⟩, fun c => absurd rfl c⟩
    · obtain ⟨err, e⟩ := (set_maximum_order_checked s n hdebug).2 h
      rw [e]
      refine ⟨⟨(fun c => by cases c), fun c => absurd ⟨by omega, c⟩ h⟩, (fun c => by cases c),
        fun _ => ⟨⟨err, rfl⟩, rfl⟩⟩

/-- C8 as amended, at the sample object with the debug checks and bounds 1 and
6, for the value 9. -/
theorem setters_preserve_order_domain_witness :
    (sample_algorithm true 1 .Minimum []).debug = true ∧
    1 ≤ (sample_algorithm true 1 .Minimum []).minimum_order ∧
    ((set_minimum_order (sample_algorithm true 1 .Minimum []) 9).1 = .ok () ↔
      1 ≤ 9 ∧ 9 < (sample_algorithm true 1 .Minimum []).maximum_order) ∧
    ((set_maximum_order (sample_algorithm true 1 .Minimum []) 9).1 = .ok () ↔
      9 > (sample_algorithm true 1 .Minimum []).minimum_order) :=
  ⟨rfl, by decide,
    (setters_preserve_order_domain (sample_algorithm true 1 .Minimum []) 9 rfl (by decide)).1.1,
    (setters_preserve_order_domain (sample_algorithm true 1 .Minimum []) 9 rfl (by decide)).2.1⟩

/-- C9, the claim fails without `__OPENNN_DEBUG__`: with `a = 5 ≥ b = 3`
both `set_minimum_order(5)` and `set_maximum_order(3)` succeed, in either
order, and the object ends with minimum order 5 and maximum order 3. -/
theorem inverted_bounds_accepted_without_debug :
    (set_minimum_order (sample_algorithm false 1 .Minimum []) 5).1 = .ok () ∧
    (set_maximum_order (set_minimum_order (sample_algorithm false 1 .Minimum []) 5).2 3).1
      = .ok () ∧
    (set_maximum_order (sample_algorithm false 1 .Minimum []) 3).1 = .ok () ∧
    (set_minimum_order (set_maximum_order (sample_algorithm false 1 .Minimum []) 3).2 5).1
      = .ok () ∧
    (set_maximum_order
      (set_minimum_order (sample_algorithm false 1 .Minimum []) 5).2 3).2.minimum_order = 5 ∧
    (set_maximum_order
      (set_minimum_order (sample_algorithm false 1 .Minimum []) 5).2 3).2.maximum_order = 3 := by
  refine ⟨rfl, rfl, rfl, rfl, rfl, rfl⟩

theorem set_minimum_order_strategy (s : OrderSelectionAlgorithm) (n : Nat) :
    (set_minimum_order s n).2.training_strategy_pointer = s.training_strategy_pointer ∧
    (set_minimum_order s n).2.debug = s.debug := by
  unfold set_minimum_order
  split_ifs <;> exact ⟨rfl, rfl⟩

theorem set_maximum_order_strategy (s : OrderSelectionAlgorithm) (n : Nat) :
    (set_maximum_order s n).2.training_strategy_pointer = s.training_strategy_pointer ∧
    (set_maximum_order s n).2.debug = s.debug := by
  unfold set_maximum_order
  split_ifs <;> exact ⟨rfl, rfl⟩

/-- C9 as amended (inverted bounds are rejected when the debug checks are
compiled in). With `__OPENNN_DEBUG__`, for every starting configuration and all
`a ≥ b`, applying `set_minimum_order(a)` and `set_maximum_order(b)` one after
the other, in either order, makes at least one of the two calls throw; and the
calls leave the training strategy as it is, so no training is invoked. -/
theorem inverted_bounds_rejected (s : OrderSelectionAlgorithm) (a b : Nat)
    (hdebug : s.debug = true) (hab : a ≥ b) :
    ((∃ e, (set_minimum_order s a).1 = .error e) ∨
      (∃ e, (set_maximum_order (set_minimum_order s a).2 b).1 = .error e)) ∧
    ((∃ e, (set_maximum_order s b).1 = .error e) ∨
      (∃ e, (set_minimum_order (set_maximum_order s b).2 a).1 = .error e)) ∧
    (set_maximum_order (set_minimum_order s a).2 b).2.training_strategy_pointer
      = s.training_strategy_pointer ∧
    (set_minimum_order (set_maximum_order s b).2 a).2.training_strategy_pointer
      = s.training_strategy_pointer ∧
    training_invocations (set_maximum_order (set_minimum_order s a).2 b).2
      = training_invocations s ∧
    training_invocations (set_minimum_order (set_maximum_order s b).2 a).2
      = training_invocations s := by
  have p1 : (set_maximum_order (set_minimum_order s a).2 b).2.training_strategy_pointer
      = s.training_strategy_pointer :=
    (set_maximum_order_strategy _ b).1.trans (set_minimum_order_strategy s a).1
  have p2 : (set_minimum_order (set_maximum_order s b).2 a).2.training_strategy_pointer
      = s.training_strategy_pointer :=
    (set_minimum_order_strategy _ a).1.trans (set_maximum_order_strategy s b).1
  refine ⟨?_, ?_, p1, p2, by simp only [training_invocations, p1],
    by simp only [training_invocations, p2]⟩
  · by_cases h : 1 ≤ a ∧ a < s.maximum_order
    · right
      have e := (set_minimum_order_checked s a hdebug).1 h
      rw [e]
      obtain ⟨err, e2⟩ := (set_maximum_order_checked { s with minimum_order := a } b hdebug).2
        (fun c => by have := c.2; simp only at this; omega)
      exact ⟨err, by rw [e2]⟩
    · left
      obtain ⟨err, e⟩ := (set_minimum_order_checked s a hdebug).2 h
      exact ⟨err, by rw [e]⟩
  · by_cases h : 1 ≤ b ∧ b > s.minimum_order
    · right
      have e := (set_maximum_order_checked s b hdebug).1 h
      rw [e]
      obtain ⟨err, e2⟩ := (set_minimum_order_checked { s with maximum_order := b } a hdebug).2
        (fun c => by have := c.2; simp only at this; omega)
      exact ⟨err, by rw [e2]⟩
    · left
      obtain ⟨err, e⟩ := (set_maximum_order_checked s b hdebug).2 h
      exact ⟨err, by rw [e]⟩

/-- C9 as amended, at the sample object with the debug checks, `a = 5` and
`b = 3`. -/
theorem inverted_bounds_rejected_witness :
    (sample_algorithm true 1 .Minimum []).debug = true ∧ 5 ≥ 3 ∧
    ((∃ e, (set_minimum_order (sample_algorithm true 1 .Minimum []) 5).1 = .error e) ∨
      (∃ e, (set_maximum_order
        (set_minimum_order (sample_algorithm true 1 .Minimum []) 5).2 3).1 = .error e)) ∧
    ((∃ e, (set_maximum_order (sample_algorithm true 1 .Minimum []) 3).1 = .error e) ∨
      (∃ e, (set_minimum_order
        (set_maximum_order (sample_algorithm true 1 .Minimum []) 3).2 5).1 = .error e)) :=
  ⟨rfl, by decide,
    (inverted_bounds_rejected (sample_algorithm true 1 .Minimum []) 5 3 rfl (by decide)).1,
    (inverted_bounds_rejected (sample_algorithm true 1 .Minimum []) 5 3 rfl (by decide)).2.1⟩


/-- C10 (pre-flight check). `check` throws if and only if at least one of
these holds: no training strategy is attached, its performance functional is
missing, the neural network is missing, the multilayer perceptron is missing,
the perceptron is empty, the perceptron has exactly one layer, the data set is
missing, or the number of selection instances is zero; otherwise it returns
normally. In both cases the object, and with it the trace of trainings, is
what it was. -/
theorem check_throws_iff (s : OrderSelectionAlgorithm) :
    ((∃ e, (check s).1 = .error e) ↔
      (s.training_strategy_pointer = none ∨
        (∃ ts, s.training_strategy_pointer = some ts ∧
          ts.performance_functional_pointer = none) ∨
        (∃ ts pf, s.training_strategy_pointer = some ts ∧
          ts.performance_functional_pointer = some pf ∧ pf.neural_network_pointer = none) ∨
        (∃ ts pf nn, s.training_strategy_pointer = some ts ∧
          ts.performance_functional_pointer = some pf ∧ pf.neural_network_pointer = some nn ∧
          nn.multilayer_perceptron_pointer = none) ∨
        (∃ ts pf nn mlp, s.training_strategy_pointer = some ts ∧
          ts.performance_functional_pointer = some pf ∧ pf.neural_network_pointer = some nn ∧
          nn.multilayer_perceptron_pointer = some mlp ∧ mlp.is_empty = true) ∨
        (∃ ts pf nn mlp, s.training_strategy_pointer = some ts ∧
          ts.performance_functional_pointer = some pf ∧ pf.neural_network_pointer = some nn ∧
          nn.multilayer_perceptron_pointer = some mlp ∧ mlp.get_layers_number = 1) ∨
        (∃ ts pf, s.training_strategy_pointer = some ts ∧
          ts.performance_functional_pointer = some pf ∧ pf.data_set_pointer = none) ∨
        (∃ ts pf ds, s.training_strategy_pointer = some ts ∧
          ts.performance_functional_pointer = some pf ∧ pf.data_set_pointer = some ds ∧
          ds.count_selection_instances_number = 0))) ∧
    ((check s).1 = .ok () ∨ ∃ e, (check s).1 = .error e) ∧
    (check s).2 = s ∧ training_invocations (check s).2 = training_invocations s := by
  have hstate : (check s).2 = s := by
    unfold check
    split
    · rfl
    split
    · rfl
    split
    · rfl
    split
    · rfl
    split
    · rfl
    split
    · rfl
    split
    · rfl
    split
    · rfl
    · rfl
  refine ⟨?_, ?_, hstate, by rw [hstate]⟩
  · unfold check
    cases hts : s.training_strategy_pointer with
    | none => simp
    | some ts =>
      cases hpf : ts.performance_functional_pointer with
      | none => simp [hpf]
      | some pf =>
        cases hnn : pf.neural_network_pointer with
        | none => simp [hpf, hnn]
        | some nn =>
          cases hmlp : nn.multilayer_perceptron_pointer with
          | none => simp [hpf, hnn, hmlp]
          | some mlp =>
            by_cases he : mlp.is_empty = true
            · simp [hpf, hnn, hmlp, he]
            · by_cases hl : mlp.get_layers_number = 1
              · simp [hpf, hnn, hmlp, he, hl]
              · cases hds : pf.data_set_pointer with
                | none => simp [hpf, hnn, hmlp, he, hl, hds]
                | some ds =>
                  by_cases hc : ds.count_selection_instances_number = 0
                  · simp [hpf, hnn, hmlp, he, hl, hds, hc]
                  · simp [hpf, hnn, hmlp, he, hl, hds, hc]
  · cases h : (check s).1 with
    | ok u => left; rfl
    | error e => right; exact ⟨e, rfl⟩

/-! ## Properties of failing calls -/

theorem calculate_final_performances_frame (r : Reduction) (s : OrderSelectionAlgorithm)
    (order_number : Nat) :
    (calculate_final_performances r s order_number).2.minimum_order = s.minimum_order ∧
    (calculate_final_performances r s order_number).2.maximum_order = s.maximum_order ∧
    (calculate_final_performances r s order_number).2.trials_number = s.trials_number ∧
    (calculate_final_performances r s order_number).2.debug = s.debug ∧
    (calculate_final_performances r s order_number).2.performance_calculation_method
      = s.performance_calculation_method := by
  unfold calculate_final_performances
  split
  · exact ⟨rfl, rfl, rfl, rfl, rfl⟩
  split
  · exact ⟨rfl, rfl, rfl, rfl, rfl⟩
  split
  · exact ⟨rfl, rfl, rfl, rfl, rfl⟩
  split
  · exact ⟨rfl, rfl, rfl, rfl, rfl⟩
  split
  · exact ⟨rfl, rfl, rfl, rfl, rfl⟩
  split
  · exact ⟨rfl, rfl, rfl, rfl, rfl⟩
  split
  · exact ⟨rfl, rfl, rfl, rfl, rfl⟩
  split
  · exact ⟨rfl, rfl, rfl, rfl, rfl⟩
  split
  · exact ⟨rfl, rfl, rfl, rfl, rfl⟩
  · exact ⟨rfl, rfl, rfl, rfl, rfl⟩

theorem calculate_performances_frame (s : OrderSelectionAlgorithm) (order_number : Nat) :
    (calculate_performances s order_number).2.minimum_order = s.minimum_order ∧
    (calculate_performances s order_number).2.maximum_order = s.maximum_order ∧
    (calculate_performances s order_number).2.trials_number = s.trials_number ∧
    (calculate_performances s order_number).2.debug = s.debug ∧
    (calculate_performances s order_number).2.performance_calculation_method
      = s.performance_calculation_method := by
  unfold calculate_performances
  split
  · exact calculate_final_performances_frame maximum_reduction s order_number
  · exact calculate_final_performances_frame minimum_reduction s order_number
  · exact calculate_final_performances_frame mean_reduction s order_number
  · exact ⟨rfl, rfl, rfl, rfl, rfl⟩

theorem calculate_final_performances_rejected (r : Reduction) (s : OrderSelectionAlgorithm)
    (order_number : Nat) (hdebug : s.debug = true)
    (hbad : order_number = 0 ∨ s.trials_number = 0) :
    ∃ e, calculate_final_performances r s order_number = (.error e, s) := by
  unfold calculate_final_performances
  by_cases h0 : order_number ≤ 0
  · rw [if_pos ⟨hdebug, h0⟩]; exact ⟨_, rfl⟩
  · rw [if_neg (fun c => h0 c.2), if_pos ⟨hdebug, by omega⟩]; exact ⟨_, rfl⟩

/-- C11, the claim fails without `__OPENNN_DEBUG__`: with `trials_number = 0`
(order 3) and with `order_number = 0` (`trials_number = 1`) the call does not
throw; it trains once and appends a record to the histories. -/
theorem invalid_arguments_accepted_without_debug :
    (sample_algorithm false 0 .Minimum sample_script).trials_number = 0 ∧
    (calculate_minimum_final_performances
      (sample_algorithm false 0 .Minimum sample_script) 3).1 = .ok (2, 5) ∧
    training_invocations (calculate_minimum_final_performances
      (sample_algorithm false 0 .Minimum sample_script) 3).2 = 1 ∧
    (calculate_minimum_final_performances
      (sample_algorithm false 0 .Minimum sample_script) 3).2.order_history = [3] ∧
    (calculate_minimum_final_performances
      (sample_algorithm false 1 .Minimum sample_script) 0).1 = .ok (2, 5) ∧
    training_invocations (calculate_minimum_final_performances
      (sample_algorithm false 1 .Minimum sample_script) 0).2 = 1 ∧
    (calculate_minimum_final_performances
      (sample_algorithm false 1 .Minimum sample_script) 0).2.order_history = [0] := by
  refine ⟨rfl, ?_, ?_, ?_, ?_, ?_, ?_⟩ <;> rfl

/-- C11 as amended (fail fast on invalid arguments when the debug checks are
compiled in). With `__OPENNN_DEBUG__`, a call of
`calculate_minimum_final_performances`, `calculate_maximum_final_performances`
or `calculate_mean_final_performances` with `order_number = 0` or with
`trials_number = 0` throws and hands back the object as it was: no training is
invoked, and the network and the four histories are unchanged. -/
theorem invalid_arguments_fail_fast (s : OrderSelectionAlgorithm) (order_number : Nat)
    (hdebug : s.debug = true) (hbad : order_number = 0 ∨ s.trials_number = 0) :
    (∃ e, calculate_minimum_final_performances s order_number = (.error e, s)) ∧
    (∃ e, calculate_maximum_final_performances s order_number = (.error e, s)) ∧
    (∃ e, calculate_mean_final_performances s order_number = (.error e, s)) ∧
    training_invocations (calculate_minimum_final_performances s order_number).2
      = training_invocations s ∧
    training_invocations (calculate_maximum_final_performances s order_number).2
      = training_invocations s ∧
    training_invocations (calculate_mean_final_performances s order_number).2
      = training_invocations s := by
  obtain ⟨e1, h1⟩ := calculate_final_performances_rejected minimum_reduction s order_number
    hdebug hbad
  obtain ⟨e2, h2⟩ := calculate_final_performances_rejected maximum_reduction s order_number
    hdebug hbad
  obtain ⟨e3, h3⟩ := calculate_final_performances_rejected mean_reduction s order_number
    hdebug hbad
  refine ⟨⟨e1, h1⟩, ⟨e2, h2⟩, ⟨e3, h3⟩, ?_, ?_, ?_⟩
  · simp only [calculate_minimum_final_performances, h1]
  · simp only [calculate_maximum_final_performances, h2]
  · simp only [calculate_mean_final_performances, h3]

/-- C11 as amended, at the sample object with the debug checks: order 0, and
order 3 with `trials_number = 0`. -/
theorem invalid_arguments_fail_fast_witness :
    (∃ e, calculate_minimum_final_performances (sample_algorithm true 1 .Minimum sample_script) 0
      = (.error e, sample_algorithm true 1 .Minimum sample_script)) ∧
    (∃ e, calculate_mean_final_performances (sample_algorithm true 0 .Mean sample_script) 3
      = (.error e, sample_algorithm true 0 .Mean sample_script)) :=
  ⟨(invalid_arguments_fail_fast (sample_algorithm true 1 .Minimum sample_script) 0 rfl
      (Or.inl rfl)).1,
    (invalid_arguments_fail_fast (sample_algorithm true 0 .Mean sample_script) 3 rfl
      (Or.inr rfl)).2.2.1⟩

/-- C12 (final performances by main method). For GRADIENT_DESCENT,
CONJUGATE_GRADIENT, QUASI_NEWTON_METHOD and LEVENBERG_MARQUARDT_ALGORITHM
`get_final_performances` returns the final performance and the final selection
performance of the results record of that method, whatever the other three
pointers hold; for NO_MAIN and USER_MAIN it returns (0, 0) for every results
structure; for any other value of the main type it throws. -/
theorem get_final_performances_by_main_type (r : TrainingAlgorithmResults)
    (a b c : Option TrainingAlgorithmResults) (results : Results) (code : Nat) :
    get_final_performances .GRADIENT_DESCENT ⟨some r, a, b, c⟩
      = .ok (r.final_performance, r.final_selection_performance) ∧
    get_final_performances .CONJUGATE_GRADIENT ⟨a, some r, b, c⟩
      = .ok (r.final_performance, r.final_selection_performance) ∧
    get_final_performances .QUASI_NEWTON_METHOD ⟨a, b, some r, c⟩
      = .ok (r.final_performance, r.final_selection_performance) ∧
    get_final_performances .LEVENBERG_MARQUARDT_ALGORITHM ⟨a, b, c, some r⟩
      = .ok (r.final_performance, r.final_selection_performance) ∧
    get_final_performances .NO_MAIN results = .ok (0, 0) ∧
    get_final_performances .USER_MAIN results = .ok (0, 0) ∧
    (∃ e, get_final_performances (.unnamed code) results = .error e) :=
  ⟨rfl, rfl, rfl, rfl, rfl, rfl, ⟨_, rfl⟩⟩

/-- C18, the claim fails: with bounds 1 and 6 the call
`calculate_performances(9)` evaluates order 9 and records it. -/
theorem order_above_maximum_is_recorded :
    (sample_algorithm true 1 .Minimum sample_script).minimum_order = 1 ∧
    (sample_algorithm true 1 .Minimum sample_script).maximum_order = 6 ∧
    (calculate_performances (sample_algorithm true 1 .Minimum sample_script) 9).1
      = .ok (2, 5) ∧
    (calculate_performances (sample_algorithm true 1 .Minimum sample_script) 9).2.order_history
      = [9] ∧
    (calculate_performances (sample_algorithm true 1 .Minimum sample_script) 9).2.maximum_order
      = 6 ∧
    ¬ (9 ≤ (calculate_performances
      (sample_algorithm true 1 .Minimum sample_script) 9).2.maximum_order) := by
  refine ⟨rfl, rfl, rfl, rfl, rfl, ?_⟩
  have h : (calculate_performances
      (sample_algorithm true 1 .Minimum sample_script) 9).2.maximum_order = 6 := rfl
  rw [h]
  decide

/-- C18 as amended (bounds are the caller's to respect).
`calculate_performances` does not compare the order with the bounds and leaves
the bounds as they are; the only order it can add to `order_history` is the one
it is passed. So if every recorded order lies between `minimum_order` and
`maximum_order` and the order passed lies between them too, every recorded
order still does after the call. -/
theorem bounds_kept_by_in_range_calls (s : OrderSelectionAlgorithm) (order_number : Nat)
    (hhist : ∀ o ∈ s.order_history, s.minimum_order ≤ o ∧ o ≤ s.maximum_order)
    (hrange : s.minimum_order ≤ order_number ∧ order_number ≤ s.maximum_order) :
    (calculate_performances s order_number).2.minimum_order = s.minimum_order ∧
    (calculate_performances s order_number).2.maximum_order = s.maximum_order ∧
    ((calculate_performances s order_number).2.order_history = s.order_history ∨
      (calculate_performances s order_number).2.order_history
        = s.order_history ++ [order_number]) ∧
    (∀ o ∈ (calculate_performances s order_number).2.order_history,
      (calculate_performances s order_number).2.minimum_order ≤ o ∧
      o ≤ (calculate_performances s order_number).2.maximum_order) := by
  obtain ⟨f1, f2, _⟩ := calculate_performances_frame s order_number
  have hcases : (calculate_performances s order_number).2.order_history = s.order_history ∨
      (calculate_performances s order_number).2.order_history
        = s.order_history ++ [order_number] := by
    rcases calculate_performances_shape s order_number with h | ⟨_, _, _, _, h, _⟩
    · exact Or.inl h.1
    · exact Or.inr h
  refine ⟨f1, f2, hcases, ?_⟩
  intro o ho
  rw [f1, f2]
  rcases hcases with h | h
  · rw [h] at ho; exact hhist o ho
  · rw [h] at ho
    rcases List.mem_append.1 ho with c | c
    · exact hhist o c
    · simp only [List.mem_singleton] at c
      rw [c]; exact hrange

/-- C18 as amended, at the sample object with orders 2 and 3 recorded and
bounds 1 and 6, for the order 5. -/
theorem bounds_kept_by_in_range_calls_witness :
    (calculate_performances (sample_cached true .Minimum) 5).2.minimum_order
      = (sample_cached true .Minimum).minimum_order ∧
    (calculate_performances (sample_cached true .Minimum) 5).2.maximum_order
      = (sample_cached true .Minimum).maximum_order ∧
    ((calculate_performances (sample_cached true .Minimum) 5).2.order_history
        = (sample_cached true .Minimum).order_history ∨
      (calculate_performances (sample_cached true .Minimum) 5).2.order_history
        = (sample_cached true .Minimum).order_history ++ [5]) ∧
    (∀ o ∈ (calculate_performances (sample_cached true .Minimum) 5).2.order_history,
      (calculate_performances (sample_cached true .Minimum) 5).2.minimum_order ≤ o ∧
      o ≤ (calculate_performances (sample_cached true .Minimum) 5).2.maximum_order) :=
  bounds_kept_by_in_range_calls (sample_cached true .Minimum) 5 (by decide) (by decide)

/-! ## Properties of the recorded parameters -/

theorem minimum_update_parameters (n : Nat) (acc : Aggregate) (c : ℚ × ℚ) (p : List ℚ) :
    minimum_update false false n acc c p = acc ∨
    ((minimum_update false false n acc c p).2 = p ∧
      ((minimum_update false false n acc c p).1.1 = c.1 ∨
        (minimum_update false false n acc c p).1.2 = c.2)) := by
  unfold minimum_update
  by_cases c1 : acc.1.1 > c.1
  · right
    by_cases c2 : acc.1.2 > c.2
    · simp [c1, c2]
    · simp [c1, c2]
  · by_cases c2 : acc.1.2 > c.2
    · right; simp [c1, c2]
    · left; simp [c1, c2]

theorem minimum_fold_parameters (n : Nat) :
    ∀ (xs pool : List (TrainingOutcome × (ℚ × ℚ))) (acc : Aggregate),
      (∃ y ∈ pool, acc.2 = y.1.parameters ∧ (y.2.1 = acc.1.1 ∨ y.2.2 = acc.1.2)) →
      ∃ y ∈ pool ++ xs,
        (xs.foldl (fun a y => minimum_update false false n a y.2 y.1.parameters) acc).2
          = y.1.parameters ∧
        (y.2.1 = (xs.foldl (fun a y => minimum_update false false n a y.2 y.1.parameters)
            acc).1.1 ∨
          y.2.2 = (xs.foldl (fun a y => minimum_update false false n a y.2 y.1.parameters)
            acc).1.2) := by
  intro xs
  induction xs with
  | nil =>
    intro pool acc h
    simpa using h
  | cons x xs ih =>
    intro pool acc h
    simp only [List.foldl_cons]
    have step : ∃ y ∈ pool ++ [x],
        (minimum_update false false n acc x.2 x.1.parameters).2 = y.1.parameters ∧
        (y.2.1 = (minimum_update false false n acc x.2 x.1.parameters).1.1 ∨
          y.2.2 = (minimum_update false false n acc x.2 x.1.parameters).1.2) := by
      rcases minimum_update_parameters n acc x.2 x.1.parameters with e | ⟨e1, e2⟩
      · obtain ⟨y, hy, h1, h2⟩ := h
        exact ⟨y, List.mem_append_left _ hy, by rw [e]; exact h1, by rw [e]; exact h2⟩
      · exact ⟨x, by simp, e1, e2.imp Eq.symm Eq.symm⟩
    obtain ⟨y, hy, h1, h2⟩ := ih (pool ++ [x]) _ step
    exact ⟨y, by simpa using hy, h1, h2⟩

/-- C15 (parameters kept by the minimum policy). For a fresh order and a batch
of `N = trials_number ≥ 1` trials with outcomes `(t_i, s_i)` and post-training
parameter vectors `p_i` (collaborators attached, at least two layers, order
passing the debug check), the vector appended to `parameters_history` by
`calculate_minimum_final_performances` is `p_k` for a trial `k` of the batch
with `t_k` equal to the recorded training value or `s_k` equal to the recorded
selection value. -/
theorem minimum_parameters_from_kept_trial (s : OrderSelectionAlgorithm) (order_number : Nat)
    (ts : TrainingStrategy) (nn : NeuralNetwork) (mlp : MultilayerPerceptron)
    (trials : List (TrainingOutcome × (ℚ × ℚ))) (rest : List (Option TrainingOutcome))
    (hts : s.training_strategy_pointer = some ts)
    (hnn : ts.neural_network = some nn) (hmlp : nn.multilayer_perceptron_pointer = some mlp)
    (hlayers : 2 ≤ mlp.layers.length)
    (hfresh : order_number ∉ s.order_history)
    (horder : s.debug = true → 1 ≤ order_number)
    (hN : trials.length = s.trials_number) (hpos : 1 ≤ s.trials_number)
    (hscript : ts.script = trials.map (fun y => some y.1) ++ rest)
    (hfin : ∀ y ∈ trials, get_final_performances ts.main_type y.1.results = .ok y.2) :
    ∃ (pair : ℚ × ℚ) (parameters : List ℚ),
      (calculate_minimum_final_performances s order_number).1 = .ok pair ∧
      (calculate_minimum_final_performances s order_number).2.performance_history
        = s.performance_history ++ [pair.1] ∧
      (calculate_minimum_final_performances s order_number).2.selection_performance_history
        = s.selection_performance_history ++ [pair.2] ∧
      (calculate_minimum_final_performances s order_number).2.parameters_history
        = s.parameters_history ++ [parameters] ∧
      ∃ y ∈ trials, parameters = y.1.parameters ∧ (y.2.1 = pair.1 ∨ y.2.2 = pair.2) := by
  obtain ⟨ts2, e, _⟩ := calculate_final_performances_fresh minimum_reduction s order_number ts
    nn mlp trials rest hts hnn hmlp hlayers (by simp [minimum_reduction]) hfresh horder hN hpos
    hscript hfin
  refine ⟨(aggregate minimum_reduction s.trials_number trials).1,
    (aggregate minimum_reduction s.trials_number trials).2, ?_, ?_, ?_, ?_, ?_⟩
  · simp only [calculate_minimum_final_performances, e]
  · simp only [calculate_minimum_final_performances, e]
  · simp only [calculate_minimum_final_performances, e]
  · simp only [calculate_minimum_final_performances, e]
  · cases trials with
    | nil => simp at hN; omega
    | cons x xs =>
      obtain ⟨y, hy, h1, h2⟩ := minimum_fold_parameters s.trials_number xs [x]
        (x.2, x.1.parameters) ⟨x, by simp, rfl, Or.inl rfl⟩
      exact ⟨y, by simpa using hy, h1, h2⟩

/-- C15 at the sample object with two trials, (2, 5) with parameters [1] then
(4, 3) with parameters [2], order 3. -/
theorem minimum_parameters_from_kept_trial_witness :
    ∃ (pair : ℚ × ℚ) (parameters : List ℚ),
      (calculate_minimum_final_performances
        (sample_algorithm true 2 .Minimum sample_script) 3).1 = .ok pair ∧
      (calculate_minimum_final_performances
        (sample_algorithm true 2 .Minimum sample_script) 3).2.performance_history
        = (sample_algorithm true 2 .Minimum sample_script).performance_history ++ [pair.1] ∧
      (calculate_minimum_final_performances
        (sample_algorithm true 2 .Minimum sample_script) 3).2.selection_performance_history
        = (sample_algorithm true 2 .Minimum sample_script).selection_performance_history
          ++ [pair.2] ∧
      (calculate_minimum_final_performances
        (sample_algorithm true 2 .Minimum sample_script) 3).2.parameters_history
        = (sample_algorithm true 2 .Minimum sample_script).parameters_history
          ++ [parameters] ∧
      ∃ y ∈ sample_trials, parameters = y.1.parameters ∧ (y.2.1 = pair.1 ∨ y.2.2 = pair.2) :=
  minimum_parameters_from_kept_trial (sample_algorithm true 2 .Minimum sample_script) 3
    (sample_strategy sample_script) sample_network sample_perceptron sample_trials []
    rfl rfl rfl (by decide) (by decide) (fun _ => by decide) rfl (by decide)
    (by simp [sample_strategy, sample_script])
    (by
      intro y hy
      simp only [sample_trials, List.mem_cons, List.mem_singleton, List.not_mem_nil,
        or_false] at hy
      rcases hy with e | e <;> subst e <;> rfl)

/-- C16, the code departs from the claim: with `trials_number = 2` and
post-training parameter vectors [1] then [2],
`calculate_mean_final_performances` appends [1], the vector after the first
trial, although the network ends with [2], the vector after the last trial; the
minimum and the maximum method, whose loops assign `final_parameters`, append
[2] on the same input. -/
theorem mean_records_first_trial_parameters :
    3 ∉ (sample_algorithm true 2 .Mean sample_script).order_history ∧
    (sample_algorithm true 2 .Mean sample_script).trials_number = 2 ∧
    sample_trials.map (fun y => y.1.parameters) = [[1], [2]] ∧
    (calculate_mean_final_performances
      (sample_algorithm true 2 .Mean sample_script) 3).2.parameters_history = [[1]] ∧
    (calculate_mean_final_performances
      (sample_algorithm true 2 .Mean sample_script) 3).2.training_strategy_pointer.map
        arrange_parameters = some [2] ∧
    (calculate_minimum_final_performances
      (sample_algorithm true 2 .Mean sample_script) 3).2.parameters_history = [[2]] ∧
    (calculate_maximum_final_performances
      (sample_algorithm true 2 .Mean sample_script) 3).2.parameters_history = [[2]] := by
  refine ⟨by decide, rfl, rfl, rfl, rfl, rfl, rfl⟩

/-- The vector recorded by the mean method. For a fresh order and a batch of
`N = trials_number ≥ 1` trials (collaborators attached, at least two layers,
order passing the debug check), the vector appended to `parameters_history` by
`calculate_mean_final_performances` is the parameter vector of the network
after the first trial. -/
theorem mean_parameters_from_first_trial (s : OrderSelectionAlgorithm) (order_number : Nat)
    (ts : TrainingStrategy) (nn : NeuralNetwork) (mlp : MultilayerPerceptron)
    (first : TrainingOutcome × (ℚ × ℚ)) (later : List (TrainingOutcome × (ℚ × ℚ)))
    (rest : List (Option TrainingOutcome))
    (hts : s.training_strategy_pointer = some ts)
    (hnn : ts.neural_network = some nn) (hmlp : nn.multilayer_perceptron_pointer = some mlp)
    (hlayers : 2 ≤ mlp.layers.length)
    (hfresh : order_number ∉ s.order_history)
    (horder : s.debug = true → 1 ≤ order_number)
    (hN : (first :: later).length = s.trials_number)
    (hscript : ts.script = (first :: later).map (fun y => some y.1) ++ rest)
    (hfin : ∀ y ∈ first :: later, get_final_performances ts.main_type y.1.results = .ok y.2) :
    (calculate_mean_final_performances s order_number).2.parameters_history
      = s.parameters_history ++ [first.1.parameters] := by
  obtain ⟨ts2, e, _⟩ := calculate_final_performances_fresh mean_reduction s order_number ts
    nn mlp (first :: later) rest hts hnn hmlp hlayers (by simp [mean_reduction]) hfresh horder hN
    (by rw [← hN]; simp) hscript hfin
  simp only [calculate_mean_final_performances, e, aggregate_mean]

/-- The vector recorded by the mean method at the sample object with two
trials, parameters [1] then [2], order 3. -/
theorem mean_parameters_from_first_trial_witness :
    (calculate_mean_final_performances
      (sample_algorithm true 2 .Mean sample_script) 3).2.parameters_history
      = (sample_algorithm true 2 .Mean sample_script).parameters_history
        ++ [(sample_trial 2 5 [1]).1.parameters] :=
  mean_parameters_from_first_trial (sample_algorithm true 2 .Mean sample_script) 3
    (sample_strategy sample_script) sample_network sample_perceptron
    (sample_trial 2 5 [1]) [sample_trial 4 3 [2]] []
    rfl rfl rfl (by decide) (by decide) (fun _ => by decide) rfl rfl
    (by
      intro y hy
      simp only [List.mem_cons, List.mem_singleton, List.not_mem_nil, or_false] at hy
      rcases hy with e | e <;> subst e <;> rfl)

/-! ## Sign of the recorded performances -/

theorem nonneg_outcomes_of_steady {a b : TrainingStrategy} (h : a.steady b)
    (ha : a.nonneg_outcomes) : b.nonneg_outcomes := by
  intro out hout pair hp
  rw [h.1] at hout
  rw [h.2.1] at hp
  exact ha out hout pair hp

theorem set_quasi_Newton_method_nonneg (ts : TrainingStrategy) (ha : ts.nonneg_outcomes) :
    (set_quasi_Newton_method ts).2.nonneg_outcomes := by
  unfold set_quasi_Newton_method
  split
  · exact ha
  · intro out hout pair hp
    exact ha out hout pair hp

theorem perform_training_nonneg (ts : TrainingStrategy) (ha : ts.nonneg_outcomes) :
    (perform_training ts).2.nonneg_outcomes ∧
    (perform_training ts).2.main_type = ts.main_type ∧
    ∀ results, (perform_training ts).1 = .ok results → ∀ pair : ℚ × ℚ,
      get_final_performances ts.main_type results = .ok pair → 0 ≤ pair.1 ∧ 0 ≤ pair.2 := by
  unfold perform_training
  cases hs : ts.script with
  | nil =>
    refine ⟨?_, rfl, fun results h => by cases h⟩
    intro out hout pair hp
    exact ha out hout pair hp
  | cons entry rest =>
    cases entry with
    | none =>
      refine ⟨?_, rfl, fun results h => by cases h⟩
      intro out hout pair hp
      exact ha out (by rw [hs]; exact List.mem_cons_of_mem _ hout) pair hp
    | some o =>
      refine ⟨?_, by simp, ?_⟩
      · intro out hout pair hp
        have hm : ({ (ts.record Event.perform_training).modify_neural_network
            (fun nn => { nn with parameters := o.parameters }) with script := rest } :
            TrainingStrategy).main_type = ts.main_type := by simp
        rw [hm] at hp
        exact ha out (by rw [hs]; exact List.mem_cons_of_mem _ hout) pair hp
      · intro results h pair hp
        simp only [Except.ok.injEq] at h
        subst h
        exact ha o (by rw [hs]; exact List.mem_cons_self _ _) pair hp

theorem first_trial_nonneg (ts : TrainingStrategy) (ha : ts.nonneg_outcomes) :
    (first_trial ts).2.nonneg_outcomes ∧
    ∀ agg, (first_trial ts).1 = .ok agg → 0 ≤ agg.1.1 ∧ 0 ≤ agg.1.2 := by
  have hs := steady_perturbate_parameters (1 / 2) ts
  have hb := nonneg_outcomes_of_steady hs ha
  obtain ⟨p1, p2, p3⟩ := perform_training_nonneg _ hb
  unfold first_trial
  cases hpt : perform_training (perturbate_parameters (1 / 2) ts) with
  | mk res ts1 =>
    rw [hpt] at p1 p2 p3
    cases res with
    | error e => exact ⟨p1, fun agg h => by cases h⟩
    | ok results =>
      simp only
      cases hg : get_final_performances ts1.main_type results with
      | error e => exact ⟨p1, fun agg h => by cases h⟩
      | ok final =>
        refine ⟨p1, fun agg h => ?_⟩
        simp only [Except.ok.injEq] at h
        subst h
        simp only at p2
        rw [p2] at hg
        exact p3 results rfl final hg

theorem trials_loop_nonneg (update : Aggregate → ℚ × ℚ → List ℚ → Aggregate)
    (hupd : ∀ (acc : Aggregate) (c : ℚ × ℚ) (p : List ℚ), 0 ≤ acc.1.1 → 0 ≤ acc.1.2 →
      0 ≤ c.1 → 0 ≤ c.2 → 0 ≤ (update acc c p).1.1 ∧ 0 ≤ (update acc c p).1.2) :
    ∀ (n : Nat) (acc : Aggregate) (ts : TrainingStrategy), ts.nonneg_outcomes →
      0 ≤ acc.1.1 → 0 ≤ acc.1.2 →
      ∀ agg, (trials_loop update n acc ts).1 = .ok agg → 0 ≤ agg.1.1 ∧ 0 ≤ agg.1.2 := by
  intro n
  induction n with
  | zero =>
    intro acc ts _ h1 h2 agg h
    simp only [trials_loop, Except.ok.injEq] at h
    subst h
    exact ⟨h1, h2⟩
  | succ n ih =>
    intro acc ts ha h1 h2 agg h
    have hs := steady_randomize_parameters_normal ts
    have hb := nonneg_outcomes_of_steady hs ha
    obtain ⟨p1, p2, p3⟩ := perform_training_nonneg _ hb
    simp only [trials_loop] at h
    cases hpt : perform_training (randomize_parameters_normal ts) with
    | mk res ts1 =>
      rw [hpt] at p1 p2 p3 h
      cases res with
      | error e => cases h
      | ok results =>
        simp only at h p2
        cases hg : get_final_performances ts1.main_type results with
        | error e => rw [hg] at h; cases h
        | ok current =>
          rw [hg] at h
          simp only at h
          rw [p2] at hg
          obtain ⟨c1, c2⟩ := p3 results rfl current hg
          obtain ⟨u1, u2⟩ := hupd acc current (arrange_parameters ts1) h1 h2 c1 c2
          exact ih _ ts1 p1 u1 u2 agg h

theorem resize_and_train_nonneg (r : Reduction) (order_number : Nat) (ts : TrainingStrategy)
    (ha : ts.nonneg_outcomes) :
    (resize_and_train r order_number ts).2.nonneg_outcomes ∧
    ∀ agg, (resize_and_train r order_number ts).1 = .ok agg → 0 ≤ agg.1.1 ∧ 0 ≤ agg.1.2 := by
  unfold resize_and_train
  cases hnn : ts.neural_network with
  | none => exact ⟨ha, fun agg h => by cases h⟩
  | some nn =>
    simp only
    cases hmlp : nn.multilayer_perceptron_pointer with
    | none => exact ⟨ha, fun agg h => by cases h⟩
    | some mlp =>
      simp only
      cases hw : mlp.layers[size_t_sub mlp.get_layers_number 2]? with
      | none => exact ⟨ha, fun agg h => by cases h⟩
      | some w =>
        simp only
        by_cases hgt : order_number > w
        · rw [if_pos hgt]
          exact first_trial_nonneg _
            (nonneg_outcomes_of_steady (steady_grow_layer_perceptron _ _ ts) ha)
        · rw [if_neg hgt]
          by_cases hq : r.sets_quasi_Newton_method = true
          · rw [if_pos hq]
            have hqn := set_quasi_Newton_method_nonneg ts ha
            cases hsq : set_quasi_Newton_method ts with
            | mk res ts0 =>
              rw [hsq] at hqn
              cases res with
              | error e => exact ⟨hqn, fun agg h => by cases h⟩
              | ok u =>
                exact first_trial_nonneg _
                  (nonneg_outcomes_of_steady (steady_prune_loop _ _ _) hqn)
          · rw [if_neg hq]
            exact first_trial_nonneg _
              (nonneg_outcomes_of_steady (steady_prune_loop _ _ _) ha)

theorem minimum_update_nonneg (fp fs : Bool) (n : Nat) (acc : Aggregate) (c : ℚ × ℚ)
    (p : List ℚ) (h1 : 0 ≤ acc.1.1) (h2 : 0 ≤ acc.1.2) (c1 : 0 ≤ c.1) (c2 : 0 ≤ c.2) :
    0 ≤ (minimum_update fp fs n acc c p).1.1 ∧ 0 ≤ (minimum_update fp fs n acc c p).1.2 := by
  simp only [minimum_update]
  split_ifs <;> exact ⟨by assumption, by assumption⟩

theorem maximum_update_nonneg (fp fs : Bool) (n : Nat) (acc : Aggregate) (c : ℚ × ℚ)
    (p : List ℚ) (h1 : 0 ≤ acc.1.1) (h2 : 0 ≤ acc.1.2) (c1 : 0 ≤ c.1) (c2 : 0 ≤ c.2) :
    0 ≤ (maximum_update fp fs n acc c p).1.1 ∧ 0 ≤ (maximum_update fp fs n acc c p).1.2 := by
  simp only [maximum_update]
  split_ifs <;> exact ⟨by assumption, by assumption⟩

theorem mean_update_nonneg (fp fs : Bool) (n : Nat) (acc : Aggregate) (c : ℚ × ℚ)
    (p : List ℚ) (h1 : 0 ≤ acc.1.1) (h2 : 0 ≤ acc.1.2) (c1 : 0 ≤ c.1) (c2 : 0 ≤ c.2) :
    0 ≤ (mean_update fp fs n acc c p).1.1 ∧ 0 ≤ (mean_update fp fs n acc c p).1.2 := by
  unfold mean_update
  have hn : (0 : ℚ) ≤ (n : ℚ) := Nat.cast_nonneg n
  constructor
  · simp only
    split_ifs
    · exact add_nonneg h1 (div_nonneg c1 hn)
    · exact h1
  · simp only
    split_ifs
    · exact add_nonneg h2 (div_nonneg c2 hn)
    · exact h2

theorem scan_history_value (values : List ℚ) (order_number : Nat) :
    ∀ (rest : List Nat) (i : Nat) (acc : ℚ × Bool) (v : ℚ) (f : Bool),
      scan_history values order_number rest i acc = .ok (v, f) →
      (v, f) = acc ∨ v ∈ values := by
  intro rest
  induction rest with
  | nil =>
    intro i acc v f h
    simp only [scan_history, Except.ok.injEq] at h
    exact Or.inl h.symm
  | cons o rest ih =>
    intro i acc v f h
    by_cases ho : o = order_number
    · simp only [scan_history, ho, if_true] at h
      cases hv : values[i]? with
      | none => rw [hv] at h; cases h
      | some w =>
        rw [hv] at h
        simp only at h
        rcases ih (i + 1) (w, true) v f h with e | e
        · right
          have : v = w := by
            have := congrArg Prod.fst e
            simpa using this
          rw [this]
          exact List.getElem?_mem hv
        · exact Or.inr e
    · simp only [scan_history, ho, if_false] at h
      exact ih (i + 1) acc v f h

theorem calculate_final_performances_nonneg (r : Reduction) (s : OrderSelectionAlgorithm)
    (order_number : Nat)
    (hupd : ∀ (fp fs : Bool) (n : Nat) (acc : Aggregate) (c : ℚ × ℚ) (p : List ℚ),
      0 ≤ acc.1.1 → 0 ≤ acc.1.2 → 0 ≤ c.1 → 0 ≤ c.2 →
      0 ≤ (r.update fp fs n acc c p).1.1 ∧ 0 ≤ (r.update fp fs n acc c p).1.2)
    (hperf : ∀ v ∈ s.performance_history, 0 ≤ v)
    (hsel : ∀ v ∈ s.selection_performance_history, 0 ≤ v)
    (htrainer : ∀ ts, s.training_strategy_pointer = some ts → ts.nonneg_outcomes) :
    ∀ pair : ℚ × ℚ, (calculate_final_performances r s order_number).1 = .ok pair →
      0 ≤ pair.1 ∧ 0 ≤ pair.2 := by
  unfold calculate_final_performances
  split
  · intro pair h; cases h
  split
  · intro pair h; cases h
  split
  · intro pair h; cases h
  rename_i ts hts
  split
  · intro pair h; cases h
  split
  · intro pair h; cases h
  rename_i final0 flag_performance hscan0
  split
  · intro pair h; cases h
  rename_i final1 flag_selection hscan1
  split
  · rename_i hflags
    intro pair h
    simp only [Except.ok.injEq] at h
    subst h
    constructor
    · rcases scan_history_value _ _ _ _ _ _ _ hscan0 with e | e
      · have := congrArg Prod.snd e
        simp only at this
        rw [hflags.1] at this
        cases this
      · exact hperf _ e
    · rcases scan_history_value _ _ _ _ _ _ _ hscan1 with e | e
      · have := congrArg Prod.snd e
        simp only at this
        rw [hflags.2] at this
        cases this
      · exact hsel _ e
  have ha := htrainer ts hts
  obtain ⟨q1, q2⟩ := resize_and_train_nonneg r order_number ts ha
  split
  · intro pair h; cases h
  rename_i first ts1 hres
  rw [hres] at q1 q2
  obtain ⟨f1, f2⟩ := q2 first rfl
  have hl := trials_loop_nonneg (r.update flag_performance flag_selection s.trials_number)
    (hupd flag_performance flag_selection s.trials_number) (s.trials_number - 1) first ts1 q1
    f1 f2
  split
  · intro pair h; cases h
  rename_i final final_parameters ts2 hloop
  rw [hloop] at hl
  intro pair h
  simp only [Except.ok.injEq] at h
  subst h
  exact hl (final, final_parameters) rfl

/-- C14 (non-negative history). If every entry of `performance_history` and of
`selection_performance_history` is non-negative and every outcome the trainer
can return has non-negative training and selection values, then after
`calculate_performances`, under any policy, the pair it returns (when it
returns) and every entry of both histories are non-negative. -/
theorem non_negative_history (s : OrderSelectionAlgorithm) (order_number : Nat)
    (hperf : ∀ v ∈ s.performance_history, 0 ≤ v)
    (hsel : ∀ v ∈ s.selection_performance_history, 0 ≤ v)
    (htrainer : ∀ ts, s.training_strategy_pointer = some ts → ts.nonneg_outcomes) :
    (∀ pair : ℚ × ℚ, (calculate_performances s order_number).1 = .ok pair →
      0 ≤ pair.1 ∧ 0 ≤ pair.2) ∧
    (∀ v ∈ (calculate_performances s order_number).2.performance_history, 0 ≤ v) ∧
    (∀ v ∈ (calculate_performances s order_number).2.selection_performance_history, 0 ≤ v) := by
  have hpair : ∀ pair : ℚ × ℚ, (calculate_performances s order_number).1 = .ok pair →
      0 ≤ pair.1 ∧ 0 ≤ pair.2 := by
    unfold calculate_performances
    split
    · exact calculate_final_performances_nonneg maximum_reduction s order_number
        maximum_update_nonneg hperf hsel htrainer
    · exact calculate_final_performances_nonneg minimum_reduction s order_number
        minimum_update_nonneg hperf hsel htrainer
    · exact calculate_final_performances_nonneg mean_reduction s order_number
        mean_update_nonneg hperf hsel htrainer
    · intro pair h; cases h
  refine ⟨hpair, ?_, ?_⟩
  · rcases calculate_performances_shape s order_number with h | ⟨_, final, _, hok, _, hp, _⟩
    · rw [h.2.1]; exact hperf
    · intro v hv
      rw [hp] at hv
      rcases List.mem_append.1 hv with c | c
      · exact hperf v c
      · simp only [List.mem_singleton] at c
        rw [c]; exact (hpair final hok).1
  · rcases calculate_performances_shape s order_number with h | ⟨_, final, _, hok, _, _, hq, _⟩
    · rw [h.2.2.1]; exact hsel
    · intro v hv
      rw [hq] at hv
      rcases List.mem_append.1 hv with c | c
      · exact hsel v c
      · simp only [List.mem_singleton] at c
        rw [c]; exact (hpair final hok).2

/-- C14 at the sample object with recorded values 7, 1 and 8, 3 and two
trainings ahead with final values (2, 5) and (4, 3), for the fresh order 5
under the Mean policy. -/
theorem non_negative_history_witness :
    (∀ pair : ℚ × ℚ,
      (calculate_performances
        { sample_cached true .Mean with
          training_strategy_pointer := some (sample_strategy sample_script) } 5).1 = .ok pair →
      0 ≤ pair.1 ∧ 0 ≤ pair.2) ∧
    (∀ v ∈ (calculate_performances
        { sample_cached true .Mean with
          training_strategy_pointer := some (sample_strategy sample_script) }
        5).2.performance_history, 0 ≤ v) ∧
    (∀ v ∈ (calculate_performances
        { sample_cached true .Mean with
          training_strategy_pointer := some (sample_strategy sample_script) }
        5).2.selection_performance_history, 0 ≤ v) :=
  non_negative_history
    { sample_cached true .Mean with
      training_strategy_pointer := some (sample_strategy sample_script) } 5
    (by
      intro v hv
      simp only [sample_cached, List.mem_cons, List.mem_singleton, List.not_mem_nil,
        or_false] at hv
      rcases hv with e | e <;> rw [e] <;> norm_num)
    (by
      intro v hv
      simp only [sample_cached, List.mem_cons, List.mem_singleton, List.not_mem_nil,
        or_false] at hv
      rcases hv with e | e <;> rw [e] <;> norm_num)
    (by
      intro ts hts out hout pair hp
      simp only [sample_cached, Option.some.injEq] at hts
      subst hts
      simp only [sample_strategy, sample_script, sample_trials, sample_trial, List.map_cons,
        List.map_nil, List.mem_cons, Option.some.injEq, List.mem_singleton, List.not_mem_nil,
        or_false] at hout
      rcases hout with e | e <;> subst e <;>
        simp only [sample_strategy, get_final_performances, read_results, sample_results,
          Except.ok.injEq] at hp <;>
        subst hp <;> constructor <;> norm_num)

/-! ## Resize of the last hidden layer -/

theorem settled_refl (a : TrainingStrategy) : a.settled a := ⟨rfl, rfl⟩

theorem settled_trans {a b c : TrainingStrategy} (h1 : a.settled b) (h2 : b.settled c) :
    a.settled c := ⟨h2.1.trans h1.1, h2.2.trans h1.2⟩

theorem layers_modify_neural_network (ts : TrainingStrategy) (f : NeuralNetwork → NeuralNetwork) :
    (ts.modify_neural_network f).layers
      = match ts.neural_network with
        | some nn =>
          match (f nn).multilayer_perceptron_pointer with
          | some mlp => some mlp.layers
          | none => none
        | none => none := by
  unfold TrainingStrategy.layers
  rw [modify_neural_network_neural_network]
  cases ts.neural_network <;> rfl

theorem settled_record (ts : TrainingStrategy) (e : Event) (he : e.is_resize = false) :
    ts.settled (ts.record e) := by
  refine ⟨rfl, ?_⟩
  simp [TrainingStrategy.resizes, TrainingStrategy.record, List.filter_append, he]

theorem settled_set_parameters (ts : TrainingStrategy) (p : List ℚ) :
    ts.settled (ts.modify_neural_network (fun nn => { nn with parameters := p })) := by
  refine ⟨?_, ?_⟩
  · rw [layers_modify_neural_network]
    unfold TrainingStrategy.layers
    cases ts.neural_network <;> rfl
  · simp [TrainingStrategy.resizes]

theorem settled_draw_parameters (ts : TrainingStrategy) : ts.settled ts.draw_parameters := by
  have h := settled_set_parameters ts (ts.random.headD [])
  exact ⟨h.1, h.2⟩

theorem settled_perturbate_parameters (magnitude : ℚ) (ts : TrainingStrategy) :
    ts.settled (perturbate_parameters magnitude ts) :=
  settled_trans (settled_draw_parameters ts) (settled_record _ _ rfl)

theorem settled_randomize_parameters_normal (ts : TrainingStrategy) :
    ts.settled (randomize_parameters_normal ts) :=
  settled_trans (settled_draw_parameters ts) (settled_record _ _ rfl)

theorem settled_perform_training (ts : TrainingStrategy) :
    ts.settled (perform_training ts).2 := by
  unfold perform_training
  cases hs : ts.script with
  | nil => exact settled_record ts _ rfl
  | cons entry rest =>
    cases entry with
    | none =>
      have h := settled_record ts Event.perform_training rfl
      exact ⟨h.1, h.2⟩
    | some out =>
      have h := settled_trans (settled_record ts Event.perform_training rfl)
        (settled_set_parameters _ out.parameters)
      exact ⟨h.1, h.2⟩

theorem settled_first_trial (ts : TrainingStrategy) : ts.settled (first_trial ts).2 := by
  have h := settled_trans (settled_perturbate_parameters (1 / 2) ts)
    (settled_perform_training (perturbate_parameters (1 / 2) ts))
  unfold first_trial
  cases hpt : perform_training (perturbate_parameters (1 / 2) ts) with
  | mk res ts1 =>
    rw [hpt] at h
    cases res with
    | error e => exact h
    | ok results =>
      simp only
      cases get_final_performances ts1.main_type results <;> exact h

theorem settled_trials_loop (update : Aggregate → ℚ × ℚ → List ℚ → Aggregate) :
    ∀ (n : Nat) (acc : Aggregate) (ts : TrainingStrategy),
      ts.settled (trials_loop update n acc ts).2 := by
  intro n
  induction n with
  | zero => intro acc ts; exact settled_refl ts
  | succ n ih =>
    intro acc ts
    have h := settled_trans (settled_randomize_parameters_normal ts)
      (settled_perform_training (randomize_parameters_normal ts))
    simp only [trials_loop]
    cases hpt : perform_training (randomize_parameters_normal ts) with
    | mk res ts1 =>
      rw [hpt] at h
      cases res with
      | error e => exact h
      | ok results =>
        simp only
        cases get_final_performances ts1.main_type results with
        | error e => exact h
        | ok current => exact settled_trans h (ih _ ts1)

theorem layers_of_pointers (ts : TrainingStrategy) (nn : NeuralNetwork)
    (mlp : MultilayerPerceptron) (hnn : ts.neural_network = some nn)
    (hmlp : nn.multilayer_perceptron_pointer = some mlp) : ts.layers = some mlp.layers := by
  simp [TrainingStrategy.layers, hnn, hmlp]

theorem layers_modify_perceptron (ts : TrainingStrategy) (l : List Nat) (g : List Nat → List Nat)
    (h : ts.layers = some l) :
    (ts.modify_neural_network (NeuralNetwork.modify_multilayer_perceptron
      (fun mlp => { mlp with layers := g mlp.layers }))).layers = some (g l) := by
  rw [layers_modify_neural_network]
  unfold TrainingStrategy.layers at h
  cases hnn : ts.neural_network with
  | none => rw [hnn] at h; cases h
  | some nn =>
    rw [hnn] at h
    simp only at h ⊢
    cases hmlp : nn.multilayer_perceptron_pointer with
    | none => rw [hmlp] at h; cases h
    | some mlp =>
      rw [hmlp] at h
      simp only [Option.some.injEq] at h
      simp [NeuralNetwork.modify_multilayer_perceptron, hmlp, h]

theorem grow_layer_perceptron_layers (layer count : Nat) (ts : TrainingStrategy) (l : List Nat)
    (h : ts.layers = some l) :
    (grow_layer_perceptron layer count ts).layers = some (l.set layer (l.getD layer 0 + count)) ∧
    (grow_layer_perceptron layer count ts).resizes
      = ts.resizes ++ [Event.grow_layer_perceptron layer count] := by
  constructor
  · exact layers_modify_perceptron ts l (fun x => x.set layer (x.getD layer 0 + count)) h
  · simp [grow_layer_perceptron, TrainingStrategy.resizes, TrainingStrategy.record,
      List.filter_append, Event.is_resize]

theorem prune_layer_perceptron_layers (layer index : Nat) (ts : TrainingStrategy) (l : List Nat)
    (h : ts.layers = some l) :
    (prune_layer_perceptron layer index ts).layers
      = some (l.set layer (l.getD layer 0 - 1)) ∧
    (prune_layer_perceptron layer index ts).resizes
      = ts.resizes ++ [Event.prune_layer_perceptron layer index] := by
  constructor
  · exact layers_modify_perceptron ts l (fun x => x.set layer (x.getD layer 0 - 1)) h
  · simp [prune_layer_perceptron, TrainingStrategy.resizes, TrainingStrategy.record,
      List.filter_append, Event.is_resize]

theorem prune_loop_layers (layer : Nat) :
    ∀ (k : Nat) (ts : TrainingStrategy) (l : List Nat) (w : Nat),
      ts.layers = some l → l[layer]? = some w →
      ∃ l1, (prune_loop layer k ts).layers = some l1 ∧ l1.length = l.length ∧
        l1[layer]? = some (w - k) ∧
        (prune_loop layer k ts).resizes
          = ts.resizes ++ List.replicate k (Event.prune_layer_perceptron layer 0) := by
  intro k
  induction k with
  | zero =>
    intro ts l w h hw
    exact ⟨l, h, rfl, by simpa using hw, by simp [prune_loop]⟩
  | succ k ih =>
    intro ts l w h hw
    obtain ⟨p1, p2⟩ := prune_layer_perceptron_layers layer 0 ts l h
    have hlt : layer < l.length := (List.getElem?_eq_some.1 hw).1
    have hget : l.getD layer 0 = w := by
      rw [List.getD_eq_getElem?_getD, hw]; rfl
    rw [hget] at p1
    obtain ⟨l1, q1, q2, q3, q4⟩ := ih (prune_layer_perceptron layer 0 ts)
      (l.set layer (w - 1)) (w - 1) p1 (by simp [List.getElem?_set, hlt])
    refine ⟨l1, q1, by rw [q2]; simp, ?_, ?_⟩
    · rw [q3]; congr 1; omega
    · simp only [prune_loop]
      rw [q4, p2, List.replicate_succ, List.append_assoc]
      rfl

theorem settled_set_quasi_Newton_method (ts : TrainingStrategy) :
    ts.settled (set_quasi_Newton_method ts).2 := by
  unfold set_quasi_Newton_method
  split
  · exact settled_refl ts
  · refine ⟨rfl, ?_⟩
    simp [TrainingStrategy.resizes, TrainingStrategy.record, List.filter_append,
      Event.is_resize]

theorem resize_and_train_resized (r : Reduction) (order_number : Nat) (ts : TrainingStrategy)
    (nn : NeuralNetwork) (mlp : MultilayerPerceptron) (w : Nat)
    (hnn : ts.neural_network = some nn) (hmlp : nn.multilayer_perceptron_pointer = some mlp)
    (hlayers : 2 ≤ mlp.layers.length)
    (hw : mlp.layers[mlp.layers.length - 2]? = some w)
    (hqn : r.sets_quasi_Newton_method = true → ts.quasi_Newton_method_pointer.isSome = true) :
    (resize_and_train r order_number ts).2.last_hidden_perceptrons = some order_number ∧
    (order_number > w →
      (resize_and_train r order_number ts).2.resizes = ts.resizes ++
        [Event.grow_layer_perceptron (mlp.layers.length - 2) (order_number - w)]) ∧
    (order_number ≤ w →
      (resize_and_train r order_number ts).2.resizes = ts.resizes ++
        List.replicate (w - order_number)
          (Event.prune_layer_perceptron (mlp.layers.length - 2) 0)) := by
  have hl := layers_of_pointers ts nn mlp hnn hmlp
  have hidx : size_t_sub mlp.get_layers_number 2 = mlp.layers.length - 2 := by
    simp [size_t_sub, MultilayerPerceptron.get_layers_number, hlayers]
  have hlt : mlp.layers.length - 2 < mlp.layers.length := by omega
  have width : ∀ (t : TrainingStrategy) (l1 : List Nat), t.layers = some l1 →
      l1.length = mlp.layers.length → l1[mlp.layers.length - 2]? = some order_number →
      t.last_hidden_perceptrons = some order_number := by
    intro t l1 h1 h2 h3
    simp only [TrainingStrategy.last_hidden_perceptrons, h1]
    have : size_t_sub l1.length 2 = mlp.layers.length - 2 := by
      simp [size_t_sub, h2, hlayers]
    rw [this]; exact h3
  unfold resize_and_train
  simp only [hnn, hmlp, hidx, hw]
  by_cases hgt : order_number > w
  · rw [if_pos hgt]
    obtain ⟨g1, g2⟩ := grow_layer_perceptron_layers (mlp.layers.length - 2)
      (order_number - w) ts mlp.layers hl
    have hs := settled_first_trial (grow_layer_perceptron (mlp.layers.length - 2)
      (order_number - w) ts)
    refine ⟨?_, fun _ => by rw [hs.2, g2], fun c => by omega⟩
    refine width _ _ (hs.1.trans g1) (by simp) ?_
    have hget : mlp.layers.getD (mlp.layers.length - 2) 0 = w := by
      rw [List.getD_eq_getElem?_getD, hw]; rfl
    rw [hget]
    simp only [List.getElem?_set, hlt, if_true]
    congr 1; omega
  · rw [if_neg hgt]
    have key : ∀ ts0 : TrainingStrategy, ts.settled ts0 →
        TrainingStrategy.last_hidden_perceptrons
            (first_trial (prune_loop (mlp.layers.length - 2) (w - order_number) ts0)).2
          = some order_number ∧
        (first_trial (prune_loop (mlp.layers.length - 2) (w - order_number) ts0)).2.resizes
          = ts.resizes ++ List.replicate (w - order_number)
            (Event.prune_layer_perceptron (mlp.layers.length - 2) 0) := by
      intro ts0 h0
      obtain ⟨l1, q1, q2, q3, q4⟩ := prune_loop_layers (mlp.layers.length - 2)
        (w - order_number) ts0 mlp.layers w (h0.1.trans hl) hw
      have hs := settled_first_trial
        (prune_loop (mlp.layers.length - 2) (w - order_number) ts0)
      refine ⟨width _ l1 (hs.1.trans q1) q2 ?_, by rw [hs.2, q4, h0.2]⟩
      rw [q3]; congr 1; omega
    by_cases hq : r.sets_quasi_Newton_method = true
    · rw [if_pos hq]
      obtain ⟨ts0, e0, _⟩ := set_quasi_Newton_method_spec ts (hqn hq)
      have h0 := settled_set_quasi_Newton_method ts
      rw [e0] at h0 ⊢
      simp only
      exact ⟨(key ts0 h0).1, fun c => by omega, fun _ => (key ts0 h0).2⟩
    · rw [if_neg hq]
      exact ⟨(key ts (settled_refl ts)).1, fun c => by omega,
        fun _ => (key ts (settled_refl ts)).2⟩

theorem calculate_final_performances_resized (r : Reduction) (s : OrderSelectionAlgorithm)
    (order_number : Nat) (ts : TrainingStrategy) (nn : NeuralNetwork)
    (mlp : MultilayerPerceptron) (w : Nat)
    (hts : s.training_strategy_pointer = some ts)
    (hnn : ts.neural_network = some nn) (hmlp : nn.multilayer_perceptron_pointer = some mlp)
    (hlayers : 2 ≤ mlp.layers.length)
    (hw : mlp.layers[mlp.layers.length - 2]? = some w)
    (hqn : r.sets_quasi_Newton_method = true → ts.quasi_Newton_method_pointer.isSome = true)
    (hfresh : order_number ∉ s.order_history)
    (hargs : s.debug = true → 1 ≤ order_number ∧ 1 ≤ s.trials_number) :
    ∃ ts1, (calculate_final_performances r s order_number).2.training_strategy_pointer
        = some ts1 ∧
      ts1.last_hidden_perceptrons = some order_number ∧
      (order_number > w →
        ts1.resizes = ts.resizes ++
          [Event.grow_layer_perceptron (mlp.layers.length - 2) (order_number - w)]) ∧
      (order_number ≤ w →
        ts1.resizes = ts.resizes ++
          List.replicate (w - order_number)
            (Event.prune_layer_perceptron (mlp.layers.length - 2) 0)) := by
  have hpf : ∃ pf, ts.performance_functional_pointer = some pf := by
    unfold TrainingStrategy.neural_network at hnn
    cases hp : ts.performance_functional_pointer with
    | none => simp [hp] at hnn
    | some pf => exact ⟨pf, rfl⟩
  obtain ⟨pf, hpf⟩ := hpf
  have g1 : ¬ (s.debug = true ∧ order_number ≤ 0) := fun c => by
    have := (hargs c.1).1; omega
  have g2 : ¬ (s.debug = true ∧ s.trials_number ≤ 0) := fun c => by
    have := (hargs c.1).2; omega
  obtain ⟨r1, r2, r3⟩ := resize_and_train_resized r order_number ts nn mlp w hnn hmlp hlayers
    hw hqn
  unfold calculate_final_performances
  simp only [g1, g2, if_false, hts, hpf, scan_history_not_mem _ _ _ _ _ hfresh]
  cases hres : resize_and_train r order_number ts with
  | mk res ts1 =>
    rw [hres] at r1 r2 r3
    cases res with
    | error e =>
      simp only [Bool.false_eq_true, and_self, if_false]
      exact ⟨ts1, rfl, r1, r2, r3⟩
    | ok first =>
      simp only [Bool.false_eq_true, and_self, if_false]
      have hs := settled_trials_loop (r.update false false s.trials_number)
        (s.trials_number - 1) first ts1
      cases hloop : trials_loop (r.update false false s.trials_number) (s.trials_number - 1)
          first ts1 with
      | mk res2 ts2 =>
        rw [hloop] at hs
        have hwidth : ts2.last_hidden_perceptrons = some order_number := by
          unfold TrainingStrategy.last_hidden_perceptrons at r1 ⊢
          rw [hs.1]; exact r1
        cases res2 with
        | error e =>
          exact ⟨ts2, rfl, hwidth, fun c => by rw [hs.2]; exact r2 c,
            fun c => by rw [hs.2]; exact r3 c⟩
        | ok agg =>
          exact ⟨ts2, rfl, hwidth, fun c => by rw [hs.2]; exact r2 c,
            fun c => by rw [hs.2]; exact r3 c⟩

/-- Resize to the requested order, for a trainer with the quasi-Newton method
that the shrink branch of the maximum method reads. Under each of the policies Minimum,
Maximum and Mean, for a fresh order (at least 1 when the debug checks are
compiled in, with `trials_number ≥ 1` then) and a network whose last hidden
layer, of index `layers_number - 2`, has `w` perceptrons (collaborators
attached, at least two layers, the quasi-Newton method attached for Maximum):
after the call, whether the trainings succeed or throw, the last hidden layer
has exactly `order` perceptrons; when `order > w` the only resize call made is
one `grow_layer_perceptron` with count `order - w`, otherwise the resize calls
made are exactly `w - order` calls `prune_layer_perceptron(layer, 0)`; and the
three subtractions computed, `layers_number - 2`, `order - w` and `w - order`,
have a second operand not above the first. -/
theorem resize_to_requested_order (s : OrderSelectionAlgorithm) (order_number : Nat)
    (ts : TrainingStrategy) (nn : NeuralNetwork) (mlp : MultilayerPerceptron) (w : Nat)
    (hmethod : s.performance_calculation_method = .Minimum ∨
      s.performance_calculation_method = .Maximum ∨ s.performance_calculation_method = .Mean)
    (hts : s.training_strategy_pointer = some ts)
    (hnn : ts.neural_network = some nn) (hmlp : nn.multilayer_perceptron_pointer = some mlp)
    (hlayers : 2 ≤ mlp.layers.length)
    (hw : mlp.layers[mlp.layers.length - 2]? = some w)
    (hqn : s.performance_calculation_method = .Maximum →
      ts.quasi_Newton_method_pointer.isSome = true)
    (hfresh : order_number ∉ s.order_history)
    (hargs : s.debug = true → 1 ≤ order_number ∧ 1 ≤ s.trials_number) :
    ∃ ts1, (calculate_performances s order_number).2.training_strategy_pointer = some ts1 ∧
      ts1.last_hidden_perceptrons = some order_number ∧
      (order_number > w →
        ts1.resizes = ts.resizes ++
          [Event.grow_layer_perceptron (mlp.layers.length - 2) (order_number - w)] ∧
        (order_number - w) + w = order_number) ∧
      (order_number ≤ w →
        ts1.resizes = ts.resizes ++
          List.replicate (w - order_number)
            (Event.prune_layer_perceptron (mlp.layers.length - 2) 0) ∧
        (w - order_number) + order_number = w) ∧
      size_t_sub mlp.get_layers_number 2 + 2 = mlp.get_layers_number := by
  obtain ⟨r, _, hq, hr⟩ := calculate_performances_eq s order_number hmethod
  obtain ⟨ts1, h1, h2, h3, h4⟩ := calculate_final_performances_resized r s order_number ts nn
    mlp w hts hnn hmlp hlayers hw (fun c => hqn (hq c)) hfresh hargs
  refine ⟨ts1, by rw [hr s rfl]; exact h1, h2, fun c => ⟨h3 c, by omega⟩,
    fun c => ⟨h4 c, by omega⟩, ?_⟩
  simp only [size_t_sub, MultilayerPerceptron.get_layers_number, hlayers, if_true]
  omega

/-- Resize at the sample object, whose hidden layer has 4 perceptrons: order 3
is reached by one prune, under the Maximum policy. -/
theorem resize_to_requested_order_witness :
    ∃ ts1, (calculate_performances
        (sample_algorithm true 2 .Maximum sample_script) 3).2.training_strategy_pointer
        = some ts1 ∧
      ts1.last_hidden_perceptrons = some 3 ∧
      (3 > 4 →
        ts1.resizes = (sample_strategy sample_script).resizes ++
          [Event.grow_layer_perceptron (sample_perceptron.layers.length - 2) (3 - 4)] ∧
        (3 - 4) + 4 = 3) ∧
      (3 ≤ 4 →
        ts1.resizes = (sample_strategy sample_script).resizes ++
          List.replicate (4 - 3)
            (Event.prune_layer_perceptron (sample_perceptron.layers.length - 2) 0) ∧
        (4 - 3) + 3 = 4) ∧
      size_t_sub sample_perceptron.get_layers_number 2 + 2
        = sample_perceptron.get_layers_number :=
  resize_to_requested_order (sample_algorithm true 2 .Maximum sample_script) 3
    (sample_strategy sample_script) sample_network sample_perceptron 4
    (Or.inr (Or.inl rfl)) rfl rfl rfl (by decide) rfl (fun _ => rfl) (by decide)
    (fun _ => ⟨by decide, by decide⟩)

/-! ## Normalized squared error -/

/-- C19: `NormalizedSquaredError::check` succeeds exactly when a neural network
and its multilayer perceptron are attached, the inputs number and the outputs
number of the perceptron are both non-zero, a data set is attached, the inputs
number equals the number of input variables of the data set and the outputs
number equals its number of target variables; in every other case it throws a
`logic_error`. -/
theorem normalized_squared_error_check_iff (nse : NormalizedSquaredError) :
    (nse.check = .ok () ↔
      ∃ nn mlp ds, nse.neural_network_pointer = some nn ∧
        nn.multilayer_perceptron_pointer = some mlp ∧
        mlp.get_inputs_number ≠ 0 ∧ mlp.get_outputs_number ≠ 0 ∧
        nse.data_set_pointer = some ds ∧
        mlp.get_inputs_number = ds.count_inputs_number ∧
        mlp.get_outputs_number = ds.count_targets_number) ∧
    (nse.check = .ok () ∨ ∃ what, nse.check = .error (.logic_error what)) := by
  unfold NormalizedSquaredError.check
  cases hnn : nse.neural_network_pointer with
  | none =>
    refine ⟨⟨(fun h => by cases h), ?_⟩, Or.inr ⟨_, rfl⟩⟩
    rintro ⟨nn1, mlp1, ds1, h1, _⟩
    cases h1
  | some nn =>
    simp only
    cases hmlp : nn.multilayer_perceptron_pointer with
    | none =>
      refine ⟨⟨(fun h => by cases h), ?_⟩, Or.inr ⟨_, rfl⟩⟩
      rintro ⟨nn1, mlp1, ds1, h1, h2, _⟩
      cases h1
      rw [hmlp] at h2
      cases h2
    | some mlp =>
      simp only
      by_cases hi : mlp.get_inputs_number = 0
      · rw [if_pos hi]
        refine ⟨⟨(fun h => by cases h), ?_⟩, Or.inr ⟨_, rfl⟩⟩
        rintro ⟨nn1, mlp1, ds1, h1, h2, h3, _⟩
        cases h1
        rw [hmlp] at h2
        cases h2
        exact absurd hi h3
      · rw [if_neg hi]
        by_cases ho : mlp.get_outputs_number = 0
        · rw [if_pos ho]
          refine ⟨⟨(fun h => by cases h), ?_⟩, Or.inr ⟨_, rfl⟩⟩
          rintro ⟨nn1, mlp1, ds1, h1, h2, _, h4, _⟩
          cases h1
          rw [hmlp] at h2
          cases h2
          exact absurd ho h4
        · rw [if_neg ho]
          cases hds : nse.data_set_pointer with
          | none =>
            refine ⟨⟨(fun h => by cases h), ?_⟩, Or.inr ⟨_, rfl⟩⟩
            rintro ⟨nn1, mlp1, ds1, _, _, _, _, h5, _⟩
            cases h5
          | some ds =>
            simp only
            by_cases hie : mlp.get_inputs_number = ds.count_inputs_number
            · rw [if_neg (not_not.mpr hie)]
              by_cases hoe : mlp.get_outputs_number = ds.count_targets_number
              · rw [if_neg (not_not.mpr hoe)]
                exact ⟨⟨fun _ => ⟨nn, mlp, ds, rfl, hmlp, hi, ho, rfl, hie, hoe⟩, fun _ => rfl⟩,
                  Or.inl rfl⟩
              · rw [if_pos hoe]
                refine ⟨⟨(fun h => by cases h), ?_⟩, Or.inr ⟨_, rfl⟩⟩
                rintro ⟨nn1, mlp1, ds1, h1, h2, _, _, h5, _, h7⟩
                cases h1
                rw [hmlp] at h2
                cases h2
                cases h5
                exact absurd h7 hoe
            · rw [if_pos hie]
              refine ⟨⟨(fun h => by cases h), ?_⟩, Or.inr ⟨_, rfl⟩⟩
              rintro ⟨nn1, mlp1, ds1, h1, h2, _, _, h5, h6, _⟩
              cases h1
              rw [hmlp] at h2
              cases h2
              cases h5
              exact absurd h6 hie

/-- The training rows of the sample data are the first and the third row. -/
theorem sample_training_rows :
    sample_nse_data_set.training_rows sample_data = [([0], [1]), ([1], [3])] := by
  decide

/-- The normalization coefficient of the sample data is 2. -/
theorem sample_normalization_coefficient :
    normalization_coefficient sample_nse_data_set sample_data = 2 := by
  unfold normalization_coefficient
  rw [sample_training_rows]
  simp [calculate_target_data_mean, calculate_sum_squared_error, sample_nse_data_set,
    List.range_succ]
  norm_num

/-- The sum squared error of the identity network on the sample data is 5. -/
theorem sample_sum_squared_error :
    sum_squared_error id sample_nse_data_set sample_data = 5 := by
  unfold sum_squared_error
  rw [sample_training_rows]
  simp [calculate_sum_squared_error]
  norm_num

/-- C21, the claim fails without `__OPENNN_DEBUG__`: the time -1 is accepted
and stored. -/
theorem negative_time_accepted_without_debug :
    (-1 : ℚ) ≤ 0 ∧
    (set_maximum_time (sample_algorithm false 1 .Minimum []) (-1)).1 = .ok () ∧
    get_maximum_time (set_maximum_time (sample_algorithm false 1 .Minimum []) (-1)).2 = -1 := by
  refine ⟨by norm_num, ?_, ?_⟩ <;> simp [set_maximum_time, get_maximum_time, sample_algorithm]

/-- C21 as amended (the time check of the debug build). With
`__OPENNN_DEBUG__`, `set_maximum_time` throws for every time below zero and
leaves the object, hence `maximum_time`, as it was; for every time above zero
it succeeds, `get_maximum_time` returns the new value and nothing else
changes. -/
theorem set_maximum_time_checked (s : OrderSelectionAlgorithm) (new_maximum_time : ℚ)
    (hdebug : s.debug = true) :
    (new_maximum_time < 0 →
      (∃ e, set_maximum_time s new_maximum_time = (.error e, s)) ∧
      get_maximum_time (set_maximum_time s new_maximum_time).2 = get_maximum_time s) ∧
    (0 < new_maximum_time →
      set_maximum_time s new_maximum_time
        = (.ok (), { s with maximum_time := new_maximum_time }) ∧
      get_maximum_time (set_maximum_time s new_maximum_time).2 = new_maximum_time) := by
  constructor
  · intro hneg
    have h : set_maximum_time s new_maximum_time
        = (.error (.logic_error "Maximum time must be greater than 0."), s) := by
      unfold set_maximum_time
      rw [if_pos ⟨hdebug, hneg⟩]
    rw [h]
    exact ⟨⟨_, rfl⟩, rfl⟩
  · intro hpos
    have h : set_maximum_time s new_maximum_time
        = (.ok (), { s with maximum_time := new_maximum_time }) := by
      unfold set_maximum_time
      rw [if_neg (fun hc => absurd hc.2 (not_lt.mpr hpos.le))]
    rw [h]
    exact ⟨rfl, rfl⟩

/-- C21 as amended, at the sample object with the debug checks, for the times
-1 and 5. -/
theorem set_maximum_time_checked_witness :
    ((∃ e, set_maximum_time (sample_algorithm true 1 .Minimum []) (-1)
        = (.error e, sample_algorithm true 1 .Minimum [])) ∧
      get_maximum_time (set_maximum_time (sample_algorithm true 1 .Minimum []) (-1)).2
        = get_maximum_time (sample_algorithm true 1 .Minimum [])) ∧
    (set_maximum_time (sample_algorithm true 1 .Minimum []) 5
        = (.ok (), { sample_algorithm true 1 .Minimum [] with maximum_time := 5 }) ∧
      get_maximum_time (set_maximum_time (sample_algorithm true 1 .Minimum []) 5).2 = 5) :=
  ⟨(set_maximum_time_checked (sample_algorithm true 1 .Minimum []) (-1) rfl).1 (by norm_num),
    (set_maximum_time_checked (sample_algorithm true 1 .Minimum []) 5 rfl).2 (by norm_num)⟩

/-- The time 0 passes the check of the debug build, whose message reads
"Maximum time must be greater than 0": the test is `new_maximum_time < 0`. -/
theorem set_maximum_time_zero (s : OrderSelectionAlgorithm) :
    set_maximum_time s 0 = (.ok (), { s with maximum_time := 0 }) := by
  unfold set_maximum_time
  rw [if_neg (fun hc => absurd hc.2 (lt_irrefl 0))]

/-! ## Properties of the history readers -/

/-- The loop of `get_parameters_order` from index `i`: it ends at the first
occurrence of the order in what is left, or at the end. -/
theorem find_parameters_spec (parameters_history : List (List ℚ)) (order : Nat) :
    ∀ (rest : List Nat) (i : Nat),
      find_parameters parameters_history order rest i =
        if order ∈ rest then
          match parameters_history[i + rest.indexOf order]? with
          | some parameters => .ok (i + rest.indexOf order, parameters)
          | none => .error .undefined
        else .ok (i + rest.length, []) := by
  intro rest
  induction rest with
  | nil =>
    intro i
    simp [find_parameters]
  | cons o rest ih =>
    intro i
    by_cases ho : o = order
    · subst ho
      simp [find_parameters]
    · have hne : ¬ order = o := fun h => ho h.symm
      rw [find_parameters, if_neg ho, ih (i + 1), List.indexOf_cons_ne _ ho]
      simp only [List.mem_cons, hne, false_or, List.length_cons, Nat.succ_eq_add_one]
      have e1 : i + 1 + List.indexOf order rest = i + (List.indexOf order rest + 1) := by omega
      have e2 : i + 1 + rest.length = i + (rest.length + 1) := by omega
      rw [e1, e2]

/-- The call `get_parameters_order` never changes the object. -/
theorem get_parameters_order_state (s : OrderSelectionAlgorithm) (order : Nat) :
    (get_parameters_order s order).2 = s := by
  unfold get_parameters_order
  split
  · rfl
  split
  · rfl
  split <;> rfl

/-- C22 (parameters of a recorded order). In a state whose recorded orders
passed the debug check where it is compiled in (no order 0) and whose
parameters history is at least as long as the order history, for every order
`get_parameters_order` throws if and only if the order does not occur in
`order_history`; otherwise it returns `parameters_history[i]` for the first
index `i` with `order_history[i] = order`; in every case the object, hence each
history, is unchanged. -/
theorem get_parameters_order_spec (s : OrderSelectionAlgorithm) (order : Nat)
    (hdomain : s.debug = true → 0 ∉ s.order_history)
    (hlength : s.order_history.length ≤ s.parameters_history.length) :
    ((∃ e, (get_parameters_order s order).1 = .error e) ↔ order ∉ s.order_history) ∧
    (order ∈ s.order_history →
      ∃ (i : Nat) (parameters : List ℚ),
        s.order_history[i]? = some order ∧
        (∀ j : Nat, j < i → s.order_history[j]? ≠ some order) ∧
        s.parameters_history[i]? = some parameters ∧
        (get_parameters_order s order).1 = .ok parameters) ∧
    (get_parameters_order s order).2 = s := by
  have hcheck : order ∈ s.order_history → ¬ (s.debug = true ∧ order ≤ 0) := by
    rintro hmem ⟨hd, ho⟩
    have h0 : order = 0 := by omega
    rw [h0] at hmem
    exact hdomain hd hmem
  have hfound : order ∈ s.order_history →
      ∃ (i : Nat) (parameters : List ℚ),
        s.order_history[i]? = some order ∧
        (∀ j : Nat, j < i → s.order_history[j]? ≠ some order) ∧
        s.parameters_history[i]? = some parameters ∧
        (get_parameters_order s order).1 = .ok parameters := by
    intro hmem
    have hlt : s.order_history.indexOf order < s.order_history.length :=
      List.indexOf_lt_length.mpr hmem
    have hlt2 : s.order_history.indexOf order < s.parameters_history.length :=
      lt_of_lt_of_le hlt hlength
    refine ⟨s.order_history.indexOf order, s.parameters_history[s.order_history.indexOf order],
      ?_, ?_, List.getElem?_eq_getElem hlt2, ?_⟩
    · rw [List.getElem?_eq_getElem hlt, List.getElem_indexOf hlt]
    · intro j hj hc
      have hjl : j < s.order_history.length := lt_trans hj hlt
      rw [List.getElem?_eq_getElem hjl, Option.some.injEq] at hc
      have hnot := List.not_of_lt_findIdx hj
      simp [hc] at hnot
    · unfold get_parameters_order
      rw [if_neg (hcheck hmem), find_parameters_spec, if_pos hmem]
      simp only [zero_add]
      rw [List.getElem?_eq_getElem hlt2]
      simp only
      rw [if_neg (ne_of_lt hlt)]
  refine ⟨⟨?_, ?_⟩, hfound, get_parameters_order_state s order⟩
  · rintro ⟨e, he⟩ hmem
    obtain ⟨_, _, _, _, _, hok⟩ := hfound hmem
    rw [hok] at he
    cases he
  · intro hmem
    unfold get_parameters_order
    by_cases hc : s.debug = true ∧ order ≤ 0
    · rw [if_pos hc]
      exact ⟨_, rfl⟩
    · rw [if_neg hc, find_parameters_spec, if_neg hmem]
      simp only [zero_add, if_true]
      exact ⟨_, rfl⟩

/-- C22 at the sample object with orders 2 and 3 recorded, for the order 3. -/
theorem get_parameters_order_spec_witness :
    ((∃ e, (get_parameters_order (sample_cached true .Minimum) 3).1 = .error e)
      ↔ 3 ∉ (sample_cached true .Minimum).order_history) ∧
    (3 ∈ (sample_cached true .Minimum).order_history →
      ∃ (i : Nat) (parameters : List ℚ),
        (sample_cached true .Minimum).order_history[i]? = some 3 ∧
        (∀ j : Nat, j < i → (sample_cached true .Minimum).order_history[j]? ≠ some 3) ∧
        (sample_cached true .Minimum).parameters_history[i]? = some parameters ∧
        (get_parameters_order (sample_cached true .Minimum) 3).1 = .ok parameters) ∧
    (get_parameters_order (sample_cached true .Minimum) 3).2 = sample_cached true .Minimum :=
  get_parameters_order_spec (sample_cached true .Minimum) 3 (fun _ => by decide) (by decide)

/-! ## The maximum policy against the minimum policy -/

/-- When the last hidden layer grows, `calculate_maximum_final_performances`
is the mirror of the minimum method. -/
theorem maximum_symmetric_when_growing (s : OrderSelectionAlgorithm) (order_number : Nat)
    (ts : TrainingStrategy) (nn : NeuralNetwork) (mlp : MultilayerPerceptron) (w : Nat)
    (hts : s.training_strategy_pointer = some ts)
    (hnn : ts.neural_network = some nn) (hmlp : nn.multilayer_perceptron_pointer = some mlp)
    (hw : mlp.layers[size_t_sub mlp.get_layers_number 2]? = some w)
    (hgrow : order_number > w) :
    calculate_maximum_final_performances s order_number
      = symmetric_maximum_final_performances s order_number := by
  have hr : resize_and_train maximum_reduction order_number ts
      = resize_and_train symmetric_maximum_reduction order_number ts := by
    unfold resize_and_train
    rw [hnn]
    simp only
    rw [hmlp]
    simp only
    rw [hw]
    simp only
    rw [if_pos hgrow, if_pos hgrow]
  unfold calculate_maximum_final_performances symmetric_maximum_final_performances
    calculate_final_performances
  rw [hts]
  simp only [hr]
  rfl

/-- C23, the code departs from the claim: on the sample object with a last
hidden layer of 4 and the order 3 (shrink branch), the minimum method and the
mirror of it prune, perturbate and train, and leave the quasi-Newton method as
it is, while `calculate_maximum_final_performances` first sets
`maximum_selection_performance_decreases` of the quasi-Newton method to its
`maximum_iterations_number`; with a gradient descent strategy, which has no
quasi-Newton method, the minimum method returns (2, 5) and the maximum method
dereferences the null pointer before any training. -/
theorem maximum_shrink_sets_quasi_Newton_method :
    Option.map TrainingStrategy.trace
      (calculate_minimum_final_performances
        (sample_algorithm true 1 .Maximum sample_script) 3).2.training_strategy_pointer
      = some [Event.prune_layer_perceptron 0 0, Event.perturbate_parameters (1 / 2),
          Event.perform_training] ∧
    Option.map TrainingStrategy.trace
      (symmetric_maximum_final_performances
        (sample_algorithm true 1 .Maximum sample_script) 3).2.training_strategy_pointer
      = some [Event.prune_layer_perceptron 0 0, Event.perturbate_parameters (1 / 2),
          Event.perform_training] ∧
    Option.map TrainingStrategy.trace
      (calculate_maximum_final_performances
        (sample_algorithm true 1 .Maximum sample_script) 3).2.training_strategy_pointer
      = some [Event.set_maximum_selection_performance_decreases 100,
          Event.prune_layer_perceptron 0 0, Event.perturbate_parameters (1 / 2),
          Event.perform_training] ∧
    Option.map TrainingStrategy.quasi_Newton_method_pointer
      (calculate_minimum_final_performances
        (sample_algorithm true 1 .Maximum sample_script) 3).2.training_strategy_pointer
      = some (some ⟨100, 5⟩) ∧
    Option.map TrainingStrategy.quasi_Newton_method_pointer
      (calculate_maximum_final_performances
        (sample_algorithm true 1 .Maximum sample_script) 3).2.training_strategy_pointer
      = some (some ⟨100, 100⟩) ∧
    (calculate_minimum_final_performances sample_gradient_descent_algorithm 3).1
      = .ok (2, 5) ∧
    (symmetric_maximum_final_performances sample_gradient_descent_algorithm 3).1
      = .ok (2, 5) ∧
    (calculate_maximum_final_performances sample_gradient_descent_algorithm 3).1
      = .error .undefined ∧
    training_invocations
      (calculate_maximum_final_performances sample_gradient_descent_algorithm 3).2 = 0 := by
  refine ⟨rfl, rfl, rfl, rfl, rfl, rfl, rfl, rfl, rfl⟩

/-! ## Properties of the default configuration and of the policy names -/

/-- C24, the claim fails: without training strategy `set_default` leaves
`minimum_order = 1` and `maximum_order = 0`, so `maximum_order > minimum_order`
is false. -/
theorem default_bounds_without_strategy :
    ({ sample_algorithm true 1 .Mean [] with
        training_strategy_pointer := none } : OrderSelectionAlgorithm).training_strategy_pointer
      = none ∧
    (set_default { sample_algorithm true 1 .Mean [] with training_strategy_pointer := none }).1
      = .ok () ∧
    (set_default
      { sample_algorithm true 1 .Mean [] with training_strategy_pointer := none }).2.minimum_order
      = 1 ∧
    (set_default
      { sample_algorithm true 1 .Mean [] with training_strategy_pointer := none }).2.maximum_order
      = 0 ∧
    ¬ ((set_default
      { sample_algorithm true 1 .Mean [] with training_strategy_pointer := none }).2.maximum_order
      > (set_default
      { sample_algorithm true 1 .Mean [] with
        training_strategy_pointer := none }).2.minimum_order) := by
  refine ⟨rfl, rfl, rfl, rfl, ?_⟩
  decide

/-- C24 as amended (bounds after `set_default`). Whenever `set_default`
returns, `minimum_order` is 1. Without training strategy, or with a strategy
without performance functional, it returns with `maximum_order = 0`. With a
strategy whose network is attached it returns with `maximum_order` equal to
twice the sum of the inputs number and the outputs number of the network,
modulo 2 ^ 64, which is greater than `minimum_order` when that sum is at least
1 and below 2 ^ 63. -/
theorem set_default_bounds (s : OrderSelectionAlgorithm) :
    (∀ s1, set_default s = (.ok (), s1) → s1.minimum_order = 1 ∧ 1 ≤ s1.minimum_order) ∧
    ((s.training_strategy_pointer = none ∨
        ∃ ts, s.training_strategy_pointer = some ts ∧ ts.performance_functional_pointer = none) →
      (set_default s).1 = .ok () ∧ (set_default s).2.minimum_order = 1 ∧
      (set_default s).2.maximum_order = 0) ∧
    (∀ ts nn, s.training_strategy_pointer = some ts → ts.neural_network = some nn →
      (set_default s).1 = .ok () ∧ (set_default s).2.minimum_order = 1 ∧
      (set_default s).2.maximum_order
        = (2 * (nn.get_inputs_number + nn.get_outputs_number)) % 2 ^ 64 ∧
      (1 ≤ nn.get_inputs_number + nn.get_outputs_number →
        nn.get_inputs_number + nn.get_outputs_number < 2 ^ 63 →
        (set_default s).2.maximum_order > (set_default s).2.minimum_order)) := by
  refine ⟨?_, ?_, ?_⟩
  · intro s1 h
    have h1 : s1.minimum_order = 1 := by
      unfold set_default at h
      split at h
      · cases h; rfl
      · split at h
        · cases h; rfl
        · split at h
          · cases h
          · cases h; rfl
    exact ⟨h1, by rw [h1]⟩
  · rintro (hnone | ⟨ts, hts, hpf⟩)
    · unfold set_default
      rw [hnone]
      exact ⟨rfl, rfl, rfl⟩
    · have hhas : ts.has_performance_functional = false := by
        unfold TrainingStrategy.has_performance_functional
        rw [hpf]
        rfl
      unfold set_default
      rw [hts]
      simp only
      rw [if_pos hhas]
      exact ⟨rfl, rfl, rfl⟩
  · intro ts nn hts hnn
    have hhas : ¬ ts.has_performance_functional = false := by
      unfold TrainingStrategy.has_performance_functional
      unfold TrainingStrategy.neural_network at hnn
      cases hpf : ts.performance_functional_pointer with
      | none => rw [hpf] at hnn; cases hnn
      | some pf => simp
    have h : set_default s
        = (.ok (), assign_default s nn.get_inputs_number nn.get_outputs_number) := by
      unfold set_default
      rw [hts]
      simp only
      rw [if_neg hhas, hnn]
    rw [h]
    refine ⟨rfl, rfl, rfl, ?_⟩
    intro h1 h2
    show (2 * (nn.get_inputs_number + nn.get_outputs_number)) % 2 ^ 64 > 1
    rw [Nat.mod_eq_of_lt (by omega)]
    omega

/-- C24 as amended, at the sample object: the network has two inputs and one
output, so the bounds after `set_default` are 1 and 6. -/
theorem set_default_bounds_witness :
    (set_default (sample_algorithm true 1 .Mean [])).1 = .ok () ∧
    (set_default (sample_algorithm true 1 .Mean [])).2.minimum_order = 1 ∧
    (set_default (sample_algorithm true 1 .Mean [])).2.maximum_order
      = (2 * (sample_network.get_inputs_number + sample_network.get_outputs_number)) % 2 ^ 64 ∧
    (1 ≤ sample_network.get_inputs_number + sample_network.get_outputs_number →
      sample_network.get_inputs_number + sample_network.get_outputs_number < 2 ^ 63 →
      (set_default (sample_algorithm true 1 .Mean [])).2.maximum_order
        > (set_default (sample_algorithm true 1 .Mean [])).2.minimum_order) :=
  (set_default_bounds (sample_algorithm true 1 .Mean [])).2.2 (sample_strategy []) sample_network
    rfl rfl

/-- C25 (policy names round-trip). For each of Maximum, Minimum and Mean the
written name set back leaves the object as it is; setting from each of the
three names succeeds and the name written afterwards is that name; for any
string, either it is none of the three names and the setter throws and leaves
the object as it is, or it is one of them and the setter succeeds. -/
theorem performance_calculation_method_names (s : OrderSelectionAlgorithm) (name : String) :
    (write_performance_calculation_method { s with performance_calculation_method := .Maximum }
        = .ok "Maximum" ∧
      set_performance_calculation_method { s with performance_calculation_method := .Maximum }
        "Maximum" = (.ok (), { s with performance_calculation_method := .Maximum })) ∧
    (write_performance_calculation_method { s with performance_calculation_method := .Minimum }
        = .ok "Minimum" ∧
      set_performance_calculation_method { s with performance_calculation_method := .Minimum }
        "Minimum" = (.ok (), { s with performance_calculation_method := .Minimum })) ∧
    (write_performance_calculation_method { s with performance_calculation_method := .Mean }
        = .ok "Mean" ∧
      set_performance_calculation_method { s with performance_calculation_method := .Mean }
        "Mean" = (.ok (), { s with performance_calculation_method := .Mean })) ∧
    ((set_performance_calculation_method s "Maximum").1 = .ok () ∧
      write_performance_calculation_method (set_performance_calculation_method s "Maximum").2
        = .ok "Maximum") ∧
    ((set_performance_calculation_method s "Minimum").1 = .ok () ∧
      write_performance_calculation_method (set_performance_calculation_method s "Minimum").2
        = .ok "Minimum") ∧
    ((set_performance_calculation_method s "Mean").1 = .ok () ∧
      write_performance_calculation_method (set_performance_calculation_method s "Mean").2
        = .ok "Mean") ∧
    ((∃ e, (set_performance_calculation_method s name).1 = .error e) ↔
      (name ≠ "Maximum" ∧ name ≠ "Minimum" ∧ name ≠ "Mean")) ∧
    (((name ≠ "Maximum" ∧ name ≠ "Minimum" ∧ name ≠ "Mean") ∧
        ∃ e, set_performance_calculation_method s name = (.error e, s)) ∨
      ((name = "Maximum" ∨ name = "Minimum" ∨ name = "Mean") ∧
        (set_performance_calculation_method s name).1 = .ok ())) := by
  have hset : ((name ≠ "Maximum" ∧ name ≠ "Minimum" ∧ name ≠ "Mean") ∧
        ∃ e, set_performance_calculation_method s name = (.error e, s)) ∨
      ((name = "Maximum" ∨ name = "Minimum" ∨ name = "Mean") ∧
        (set_performance_calculation_method s name).1 = .ok ()) := by
    unfold set_performance_calculation_method
    by_cases h1 : name = "Maximum"
    · rw [if_pos h1]
      exact Or.inr ⟨Or.inl h1, rfl⟩
    · rw [if_neg h1]
      by_cases h2 : name = "Minimum"
      · rw [if_pos h2]
        exact Or.inr ⟨Or.inr (Or.inl h2), rfl⟩
      · rw [if_neg h2]
        by_cases h3 : name = "Mean"
        · rw [if_pos h3]
          exact Or.inr ⟨Or.inr (Or.inr h3), rfl⟩
        · rw [if_neg h3]
          exact Or.inl ⟨⟨h1, h2, h3⟩, _, rfl⟩
  refine ⟨⟨rfl, rfl⟩, ⟨rfl, rfl⟩, ⟨rfl, rfl⟩, ⟨rfl, rfl⟩, ⟨rfl, rfl⟩, ⟨rfl, rfl⟩, ⟨?_, ?_⟩, hset⟩
  · rintro ⟨e, he⟩
    rcases hset with h | ⟨_, hok⟩
    · exact h.1
    · rw [hok] at he
      cases he
  · intro hne
    rcases hset with ⟨_, e, he⟩ | ⟨hone, _⟩
    · exact ⟨e, by rw [he]⟩
    · rcases hone with h | h | h
      · exact absurd h hne.1
      · exact absurd h hne.2.1
      · exact absurd h hne.2.2

/-! ## Properties of the cache lookup -/

/-- A lookup that starts with the flag down ends with the flag up exactly
when the order occurs in what it scans. -/
theorem scan_history_flag_iff (values : List ℚ) (order_number : Nat) (rest : List Nat)
    (i : Nat) (v0 v : ℚ) (f : Bool)
    (h : scan_history values order_number rest i (v0, false) = .ok (v, f)) :
    f = true ↔ order_number ∈ rest := by
  constructor
  · intro hf
    rw [hf] at h
    exact scan_history_found values order_number rest i v0 v h
  · intro hmem
    exact scan_history_flag values order_number rest i (v0, false) v f h (Or.inl hmem)

/-- A lookup over a history at least as long as the orders it scans reads
inside the history. -/
theorem scan_history_total (values : List ℚ) (order_number : Nat) :
    ∀ (rest : List Nat) (i : Nat) (acc : ℚ × Bool), i + rest.length ≤ values.length →
      ∃ v f, scan_history values order_number rest i acc = .ok (v, f) := by
  intro rest
  induction rest with
  | nil =>
    intro i acc _
    exact ⟨acc.1, acc.2, rfl⟩
  | cons o rest ih =>
    intro i acc hle
    simp only [List.length_cons] at hle
    have hi : i < values.length := by omega
    by_cases ho : o = order_number
    · simp only [scan_history, ho, if_true, List.getElem?_eq_getElem hi]
      exact ih (i + 1) _ (by omega)
    · simp only [scan_history, ho, if_false]
      exact ih (i + 1) _ (by omega)

/-- The two flags of a lookup that completes are equal, and up exactly when the
order is recorded. -/
theorem lookup_flags_spec (r : Reduction) (s : OrderSelectionAlgorithm) (order_number : Nat)
    (flag_performance flag_selection : Bool)
    (h : lookup_flags r s order_number = .ok (flag_performance, flag_selection)) :
    (flag_performance = true ↔ order_number ∈ s.order_history) ∧
    (flag_selection = true ↔ order_number ∈ s.order_history) := by
  unfold lookup_flags at h
  cases h0 : scan_history s.performance_history order_number s.order_history 0
      (r.initial.1, false) with
  | error e => rw [h0] at h; cases h
  | ok p0 =>
    obtain ⟨v0, f0⟩ := p0
    rw [h0] at h
    simp only at h
    cases h1 : scan_history s.selection_performance_history order_number s.order_history 0
        (r.initial.2, false) with
    | error e => rw [h1] at h; cases h
    | ok p1 =>
      obtain ⟨v1, f1⟩ := p1
      rw [h1] at h
      simp only [Except.ok.injEq, Prod.mk.injEq] at h
      obtain ⟨e0, e1⟩ := h
      subst e0
      subst e1
      exact ⟨scan_history_flag_iff _ _ _ _ _ _ _ h0, scan_history_flag_iff _ _ _ _ _ _ _ h1⟩

/-- The resize with the first trial reads only the third item of the
reduction. -/
theorem resize_and_train_congr (r1 r2 : Reduction) (order_number : Nat) (ts : TrainingStrategy)
    (h : r1.sets_quasi_Newton_method = r2.sets_quasi_Newton_method) :
    resize_and_train r1 order_number ts = resize_and_train r2 order_number ts := by
  unfold resize_and_train
  rw [h]

/-- The methods read their update only with both flags down. -/
theorem calculate_final_performances_congr (r1 r2 : Reduction) (s : OrderSelectionAlgorithm)
    (order_number : Nat) (hinitial : r1.initial = r2.initial)
    (hsets : r1.sets_quasi_Newton_method = r2.sets_quasi_Newton_method)
    (hupdate : r1.update false false = r2.update false false) :
    calculate_final_performances r1 s order_number
      = calculate_final_performances r2 s order_number := by
  unfold calculate_final_performances
  rw [hinitial]
  simp only [resize_and_train_congr r1 r2 order_number _ hsets]
  by_cases hc1 : s.debug = true ∧ order_number ≤ 0
  · rw [if_pos hc1, if_pos hc1]
  rw [if_neg hc1, if_neg hc1]
  by_cases hc2 : s.debug = true ∧ s.trials_number ≤ 0
  · rw [if_pos hc2, if_pos hc2]
  rw [if_neg hc2, if_neg hc2]
  cases hts : s.training_strategy_pointer with
  | none => rfl
  | some ts =>
    simp only
    cases hpf : ts.performance_functional_pointer with
    | none => rfl
    | some pf =>
      simp only
      cases h0 : scan_history s.performance_history order_number s.order_history 0
          (r2.initial.1, false) with
      | error e => rfl
      | ok p0 =>
        obtain ⟨v0, f0⟩ := p0
        simp only
        cases h1 : scan_history s.selection_performance_history order_number s.order_history 0
            (r2.initial.2, false) with
        | error e => rfl
        | ok p1 =>
          obtain ⟨v1, f1⟩ := p1
          simp only
          by_cases hflags : f0 = true ∧ f1 = true
          · rw [if_pos hflags, if_pos hflags]
          · rw [if_neg hflags, if_neg hflags]
            have i0 := scan_history_flag_iff _ _ _ _ _ _ _ h0
            have i1 := scan_history_flag_iff _ _ _ _ _ _ _ h1
            have hnot : order_number ∉ s.order_history :=
              fun hmem => hflags ⟨i0.mpr hmem, i1.mpr hmem⟩
            have e0 : f0 = false := by
              cases f0
              · rfl
              · exact absurd (i0.mp rfl) hnot
            have e1 : f1 = false := by
              cases f1
              · rfl
              · exact absurd (i1.mp rfl) hnot
            rw [e0, e1, hupdate]

/-- The two flags of a lookup that completes are equal; when they are not both
up they are both down. -/
theorem lookup_flags_agree (r : Reduction) (s : OrderSelectionAlgorithm) (order_number : Nat)
    (flag_performance flag_selection : Bool)
    (h : lookup_flags r s order_number = .ok (flag_performance, flag_selection)) :
    flag_performance = flag_selection ∧
    (flag_performance = true ↔ order_number ∈ s.order_history) ∧
    (¬ (flag_performance = true ∧ flag_selection = true) →
      flag_performance = false ∧ flag_selection = false) := by
  obtain ⟨i0, i1⟩ := lookup_flags_spec r s order_number flag_performance flag_selection h
  have heq : flag_performance = flag_selection := by
    cases flag_performance <;> cases flag_selection
    · rfl
    · exact absurd (i0.mpr (i1.mp rfl)) (by decide)
    · exact absurd (i1.mpr (i0.mp rfl)) (by decide)
    · rfl
  refine ⟨heq, i0, ?_⟩
  intro hnot
  subst heq
  cases flag_performance
  · exact ⟨rfl, rfl⟩
  · exact absurd ⟨rfl, rfl⟩ hnot

/-- The lookup completes, with equal flags, when the two performance histories
are at least as long as `order_history`. -/
theorem lookup_flags_total (r : Reduction) (s : OrderSelectionAlgorithm) (order_number : Nat)
    (hp : s.order_history.length ≤ s.performance_history.length)
    (hs : s.order_history.length ≤ s.selection_performance_history.length) :
    ∃ flag : Bool, lookup_flags r s order_number = .ok (flag, flag) := by
  obtain ⟨v0, f0, h0⟩ := scan_history_total s.performance_history order_number
    s.order_history 0 (r.initial.1, false) (by omega)
  obtain ⟨v1, f1, h1⟩ := scan_history_total s.selection_performance_history order_number
    s.order_history 0 (r.initial.2, false) (by omega)
  have hl : lookup_flags r s order_number = .ok (f0, f1) := by
    unfold lookup_flags
    rw [h0]
    simp only
    rw [h1]
  have heq := (lookup_flags_agree r s order_number f0 f1 hl).1
  subst heq
  exact ⟨f0, hl⟩

/-- C26 (the two cache flags agree). For each of the three methods (any
reduction `r`), every state and every order: when the two lookup loops complete,
`flag_performance = flag_selection`, both are up exactly when the order occurs
in `order_history`, and if the method goes on to the trials both are down; the
loops complete whenever the two performance histories are at least as long as
`order_history`; and the method reads its per-trial update only with both flags
down: two reductions that agree there give the same call. -/
theorem cache_flags_agree (r : Reduction) (s : OrderSelectionAlgorithm) (order_number : Nat) :
    (∀ flag_performance flag_selection : Bool,
      lookup_flags r s order_number = .ok (flag_performance, flag_selection) →
      flag_performance = flag_selection ∧
      (flag_performance = true ↔ order_number ∈ s.order_history) ∧
      (¬ (flag_performance = true ∧ flag_selection = true) →
        flag_performance = false ∧ flag_selection = false)) ∧
    (s.order_history.length ≤ s.performance_history.length →
      s.order_history.length ≤ s.selection_performance_history.length →
      ∃ flag : Bool, lookup_flags r s order_number = .ok (flag, flag)) ∧
    (∀ r2 : Reduction, r2.initial = r.initial →
      r2.sets_quasi_Newton_method = r.sets_quasi_Newton_method →
      r2.update false false = r.update false false →
      calculate_final_performances r2 s order_number
        = calculate_final_performances r s order_number) :=
  ⟨lookup_flags_agree r s order_number, lookup_flags_total r s order_number,
    fun r2 hi hq hu => calculate_final_performances_congr r2 r s order_number hi hq hu⟩

/-- C26 at the sample object with orders 2 and 3 recorded: for the recorded
order 3 and for the fresh order 5 the lookups of the minimum method complete
with equal flags. -/
theorem cache_flags_agree_witness :
    (∃ flag : Bool,
      lookup_flags minimum_reduction (sample_cached true .Minimum) 3 = .ok (flag, flag)) ∧
    (∃ flag : Bool,
      lookup_flags minimum_reduction (sample_cached true .Minimum) 5 = .ok (flag, flag)) :=
  ⟨(cache_flags_agree minimum_reduction (sample_cached true .Minimum) 3).2.1
      (by decide) (by decide),
    (cache_flags_agree minimum_reduction (sample_cached true .Minimum) 5).2.1
      (by decide) (by decide)⟩

/-! ## Alignment of the histories -/

/-- The loop of `get_parameters_order` over a parameters history at least as
long as the orders it scans reads inside the history. -/
theorem find_parameters_total (parameters_history : List (List ℚ)) (order : Nat)
    (rest : List Nat) (i : Nat) (hle : i + rest.length ≤ parameters_history.length) :
    ∃ k parameters, find_parameters parameters_history order rest i = .ok (k, parameters) := by
  rw [find_parameters_spec]
  by_cases hmem : order ∈ rest
  · rw [if_pos hmem]
    have hlt : rest.indexOf order < rest.length := List.indexOf_lt_length.mpr hmem
    have hlt2 : i + rest.indexOf order < parameters_history.length := by omega
    rw [List.getElem?_eq_getElem hlt2]
    exact ⟨_, _, rfl⟩
  · rw [if_neg hmem]
    exact ⟨_, _, rfl⟩

/-- A call of one of the three methods keeps the histories aligned. -/
theorem calculate_final_performances_aligned (r : Reduction) (s : OrderSelectionAlgorithm)
    (order_number : Nat) (h : aligned s) :
    aligned (calculate_final_performances r s order_number).2 := by
  obtain ⟨hp, hs, hq⟩ := h
  unfold aligned
  rcases calculate_final_performances_shape r s order_number with
    ⟨e1, e2, e3, e4⟩ | ⟨_, final, final_parameters, _, e1, e2, e3, e4⟩
  · rw [e1, e2, e3, e4]
    exact ⟨hp, hs, hq⟩
  · rw [e1, e2, e3, e4]
    simp only [List.length_append, List.length_singleton]
    omega

/-- A call of `calculate_performances` keeps the histories aligned. -/
theorem calculate_performances_aligned (s : OrderSelectionAlgorithm) (order_number : Nat)
    (h : aligned s) : aligned (calculate_performances s order_number).2 := by
  unfold calculate_performances
  split
  · exact calculate_final_performances_aligned maximum_reduction s order_number h
  · exact calculate_final_performances_aligned minimum_reduction s order_number h
  · exact calculate_final_performances_aligned mean_reduction s order_number h
  · exact h

/-- In a state with aligned histories the cache lookup and the loop of
`get_parameters_order` read inside the histories, for every order. -/
theorem aligned_reads_in_bounds (r : Reduction) (s : OrderSelectionAlgorithm) (order : Nat)
    (h : aligned s) :
    (∃ flag : Bool, lookup_flags r s order = .ok (flag, flag)) ∧
    (∃ k parameters,
      find_parameters s.parameters_history order s.order_history 0 = .ok (k, parameters)) ∧
    (get_parameters_order s order).1 ≠ .error .undefined := by
  obtain ⟨hp, hs, hq⟩ := h
  have hfind := find_parameters_total s.parameters_history order s.order_history 0 (by omega)
  refine ⟨lookup_flags_total r s order (by omega) (by omega), hfind, ?_⟩
  obtain ⟨k, parameters, hk⟩ := hfind
  unfold get_parameters_order
  split
  · intro hc; cases hc
  · rw [hk]
    simp only
    split
    · intro hc; cases hc
    · intro hc; cases hc

/-- C27 (parallel histories stay aligned). If the four histories have equal
length, they still have after a call of `calculate_minimum_final_performances`,
`calculate_maximum_final_performances` or `calculate_mean_final_performances`,
whether the order is recorded or not; and in a state with aligned histories,
before as after the call, the cache lookup of each method and the loop of
`get_parameters_order` read inside the histories for every order. -/
theorem histories_stay_aligned (s : OrderSelectionAlgorithm) (order_number : Nat)
    (h : aligned s) :
    aligned (calculate_minimum_final_performances s order_number).2 ∧
    aligned (calculate_maximum_final_performances s order_number).2 ∧
    aligned (calculate_mean_final_performances s order_number).2 ∧
    (∀ (r : Reduction) (order : Nat),
      (∃ flag : Bool, lookup_flags r s order = .ok (flag, flag)) ∧
      (∃ k parameters,
        find_parameters s.parameters_history order s.order_history 0 = .ok (k, parameters)) ∧
      (get_parameters_order s order).1 ≠ .error .undefined) ∧
    (∀ (r r1 : Reduction) (order : Nat),
      (∃ flag : Bool,
        lookup_flags r1 (calculate_final_performances r s order_number).2 order
          = .ok (flag, flag)) ∧
      (∃ k parameters,
        find_parameters (calculate_final_performances r s order_number).2.parameters_history
          order (calculate_final_performances r s order_number).2.order_history 0
          = .ok (k, parameters)) ∧
      (get_parameters_order (calculate_final_performances r s order_number).2 order).1
        ≠ .error .undefined) :=
  ⟨calculate_final_performances_aligned minimum_reduction s order_number h,
    calculate_final_performances_aligned maximum_reduction s order_number h,
    calculate_final_performances_aligned mean_reduction s order_number h,
    fun r order => aligned_reads_in_bounds r s order h,
    fun r r1 order => aligned_reads_in_bounds r1 _ order
      (calculate_final_performances_aligned r s order_number h)⟩

/-- C27 at the sample object with orders 2 and 3 recorded, for the fresh
order 5. -/
theorem histories_stay_aligned_witness :
    aligned (calculate_minimum_final_performances
      { sample_cached true .Minimum with
        training_strategy_pointer := some (sample_strategy sample_script) } 5).2 ∧
    aligned (calculate_maximum_final_performances
      { sample_cached true .Minimum with
        training_strategy_pointer := some (sample_strategy sample_script) } 5).2 ∧
    aligned (calculate_mean_final_performances
      { sample_cached true .Minimum with
        training_strategy_pointer := some (sample_strategy sample_script) } 5).2 :=
  ⟨(histories_stay_aligned
      { sample_cached true .Minimum with
        training_strategy_pointer := some (sample_strategy sample_script) } 5
      ⟨rfl, rfl, rfl⟩).1,
    (histories_stay_aligned
      { sample_cached true .Minimum with
        training_strategy_pointer := some (sample_strategy sample_script) } 5
      ⟨rfl, rfl, rfl⟩).2.1,
    (histories_stay_aligned
      { sample_cached true .Minimum with
        training_strategy_pointer := some (sample_strategy sample_script) } 5
      ⟨rfl, rfl, rfl⟩).2.2.1⟩

/-- C28, the claim fails: from empty histories, after `calculate_performances(3)`
and `delete_performance_history()` the order history is [3] and the performance
history is empty, and the next `calculate_performances(3)` reads
`performance_history[0]`, which does not exist; likewise after
`delete_parameters_history()` the call `get_parameters_order(3)` reads
`parameters_history[0]`, which does not exist. -/
theorem delete_breaks_alignment :
    (sample_algorithm true 1 .Minimum sample_script).order_history = [] ∧
    (sample_algorithm true 1 .Minimum sample_script).performance_history = [] ∧
    (sample_algorithm true 1 .Minimum sample_script).selection_performance_history = [] ∧
    (sample_algorithm true 1 .Minimum sample_script).parameters_history = [] ∧
    (run_operations (sample_algorithm true 1 .Minimum sample_script)
      [.calculate_performances 3, .delete_performance_history]).order_history = [3] ∧
    (run_operations (sample_algorithm true 1 .Minimum sample_script)
      [.calculate_performances 3, .delete_performance_history]).performance_history = [] ∧
    ¬ aligned (run_operations (sample_algorithm true 1 .Minimum sample_script)
      [.calculate_performances 3, .delete_performance_history]) ∧
    (calculate_performances
      (run_operations (sample_algorithm true 1 .Minimum sample_script)
        [.calculate_performances 3, .delete_performance_history]) 3).1 = .error .undefined ∧
    (run_operations (sample_algorithm true 1 .Minimum sample_script)
      [.calculate_performances 3, .delete_parameters_history]).order_history = [3] ∧
    (run_operations (sample_algorithm true 1 .Minimum sample_script)
      [.calculate_performances 3, .delete_parameters_history]).parameters_history = [] ∧
    (get_parameters_order
      (run_operations (sample_algorithm true 1 .Minimum sample_script)
        [.calculate_performances 3, .delete_parameters_history]) 3).1 = .error .undefined := by
  refine ⟨rfl, rfl, rfl, rfl, rfl, rfl, ?_, rfl, rfl, rfl, rfl⟩
  intro h
  exact absurd h.1 (by decide)

/-- A sequence of `calculate_performances` calls keeps the histories
aligned. -/
theorem run_evaluations_aligned :
    ∀ (orders : List Nat) (s : OrderSelectionAlgorithm), aligned s →
      aligned (run_operations s (orders.map Operation.calculate_performances)) := by
  intro orders
  induction orders with
  | nil => intro s h; exact h
  | cons o rest ih =>
    intro s h
    exact ih _ (calculate_performances_aligned s o h)

/-- C28 as amended (alignment under evaluations alone). From a state with
aligned histories, in particular from empty histories, every sequence of
`calculate_performances` calls leads to a state whose four histories have equal
length, where the cache lookup and `get_parameters_order` read existing
entries. Each of `delete_selection_history`, `delete_performance_history` and
`delete_parameters_history` empties its own history and leaves the other three,
so that afterwards the histories are aligned only if `order_history` is
empty. -/
theorem evaluations_keep_alignment (s : OrderSelectionAlgorithm) (orders : List Nat)
    (h : aligned s) :
    aligned (run_operations s (orders.map Operation.calculate_performances)) ∧
    (∀ (r : Reduction) (order : Nat),
      (∃ flag : Bool,
        lookup_flags r (run_operations s (orders.map Operation.calculate_performances)) order
          = .ok (flag, flag)) ∧
      (get_parameters_order
        (run_operations s (orders.map Operation.calculate_performances)) order).1
        ≠ .error .undefined) ∧
    ((delete_selection_history s).selection_performance_history = [] ∧
      (delete_selection_history s).order_history = s.order_history ∧
      (delete_selection_history s).performance_history = s.performance_history ∧
      (delete_selection_history s).parameters_history = s.parameters_history ∧
      (aligned (delete_selection_history s) ↔ s.order_history = [])) ∧
    ((delete_performance_history s).performance_history = [] ∧
      (delete_performance_history s).order_history = s.order_history ∧
      (delete_performance_history s).selection_performance_history
        = s.selection_performance_history ∧
      (delete_performance_history s).parameters_history = s.parameters_history ∧
      (aligned (delete_performance_history s) ↔ s.order_history = [])) ∧
    ((delete_parameters_history s).parameters_history = [] ∧
      (delete_parameters_history s).order_history = s.order_history ∧
      (delete_parameters_history s).performance_history = s.performance_history ∧
      (delete_parameters_history s).selection_performance_history
        = s.selection_performance_history ∧
      (aligned (delete_parameters_history s) ↔ s.order_history = [])) := by
  have hrun := run_evaluations_aligned orders s h
  obtain ⟨hp, hs, hq⟩ := h
  refine ⟨hrun, ?_, ⟨rfl, rfl, rfl, rfl, ?_⟩, ⟨rfl, rfl, rfl, rfl, ?_⟩, ⟨rfl, rfl, rfl, rfl, ?_⟩⟩
  · intro r order
    have hb := aligned_reads_in_bounds r _ order hrun
    exact ⟨hb.1, hb.2.2⟩
  · unfold aligned delete_selection_history
    simp only [List.length_nil]
    constructor
    · intro ha
      exact List.length_eq_zero.mp ha.2.1.symm
    · intro he
      rw [he] at hp hq ⊢
      exact ⟨hp, rfl, hq⟩
  · unfold aligned delete_performance_history
    simp only [List.length_nil]
    constructor
    · intro ha
      exact List.length_eq_zero.mp ha.1.symm
    · intro he
      rw [he] at hs hq ⊢
      exact ⟨rfl, hs, hq⟩
  · unfold aligned delete_parameters_history
    simp only [List.length_nil]
    constructor
    · intro ha
      exact List.length_eq_zero.mp ha.2.2.symm
    · intro he
      rw [he] at hp hs ⊢
      exact ⟨hp, hs, rfl⟩

/-- C28 as amended, from the empty histories of the sample object, for the
evaluations of the orders 3 and 2. -/
theorem evaluations_keep_alignment_witness :
    aligned (run_operations (sample_algorithm true 1 .Minimum sample_script)
      ([3, 2].map Operation.calculate_performances)) :=
  (evaluations_keep_alignment (sample_algorithm true 1 .Minimum sample_script) [3, 2]
    ⟨rfl, rfl, rfl⟩).1

/-! ## Frame of a cache hit -/

/-- C29 (a cache hit leaves the live network untouched). When the order
already occurs in `order_history`, each of `calculate_minimum_final_performances`,
`calculate_maximum_final_performances` and `calculate_mean_final_performances`
hands back the object as it was: the training strategy is the same, so no
grow, prune, perturbation, randomization or training is added to its trace, the
parameters of the network are not replaced, and the last hidden layer keeps its
width. -/
theorem cache_hit_leaves_network (s : OrderSelectionAlgorithm) (order_number : Nat)
    (hmem : order_number ∈ s.order_history) :
    ((calculate_minimum_final_performances s order_number).2 = s ∧
      (calculate_maximum_final_performances s order_number).2 = s ∧
      (calculate_mean_final_performances s order_number).2 = s) ∧
    (∀ r : Reduction,
      (calculate_final_performances r s order_number).2.training_strategy_pointer
        = s.training_strategy_pointer ∧
      Option.map TrainingStrategy.trace
          (calculate_final_performances r s order_number).2.training_strategy_pointer
        = Option.map TrainingStrategy.trace s.training_strategy_pointer ∧
      Option.map TrainingStrategy.neural_network
          (calculate_final_performances r s order_number).2.training_strategy_pointer
        = Option.map TrainingStrategy.neural_network s.training_strategy_pointer ∧
      Option.map TrainingStrategy.last_hidden_perceptrons
          (calculate_final_performances r s order_number).2.training_strategy_pointer
        = Option.map TrainingStrategy.last_hidden_perceptrons s.training_strategy_pointer) := by
  refine ⟨⟨calculate_final_performances_cached_state minimum_reduction s order_number hmem,
    calculate_final_performances_cached_state maximum_reduction s order_number hmem,
    calculate_final_performances_cached_state mean_reduction s order_number hmem⟩, ?_⟩
  intro r
  rw [calculate_final_performances_cached_state r s order_number hmem]
  exact ⟨rfl, rfl, rfl, rfl⟩

/-- C29 at the sample object with orders 2 and 3 recorded, whose last hidden
layer has 4 perceptrons: after the three methods are called for the recorded
order 2 the object is the same, with a last hidden layer of 4. -/
theorem cache_hit_leaves_network_witness :
    ((calculate_minimum_final_performances (sample_cached true .Minimum) 2).2
        = sample_cached true .Minimum ∧
      (calculate_maximum_final_performances (sample_cached true .Minimum) 2).2
        = sample_cached true .Minimum ∧
      (calculate_mean_final_performances (sample_cached true .Minimum) 2).2
        = sample_cached true .Minimum) ∧
    Option.map TrainingStrategy.last_hidden_perceptrons
      (calculate_minimum_final_performances
        (sample_cached true .Minimum) 2).2.training_strategy_pointer = some (some 4) :=
  ⟨(cache_hit_leaves_network (sample_cached true .Minimum) 2 (by decide)).1, rfl⟩

/-! ## Selection performance of the normalized squared error -/

/-- C2, the code departs from the claim: on the fresh order 3 with
`trials_number = 1` under the Maximum policy the first `calculate_performances`
stops at the null quasi-Newton pointer with zero trainings instead of one, and
the second call does the same instead of returning a recorded pair; under the
Minimum policy the same object trains once at the first call, not at the
second, and both calls return (2, 5). -/
theorem maximum_shrink_evaluated_twice :
    3 ∉ sample_gradient_descent_algorithm.order_history ∧
    sample_gradient_descent_algorithm.trials_number = 1 ∧
    sample_gradient_descent_algorithm.performance_calculation_method = .Maximum ∧
    (calculate_performances sample_gradient_descent_algorithm 3).1 = .error .undefined ∧
    training_invocations (calculate_performances sample_gradient_descent_algorithm 3).2
      = training_invocations sample_gradient_descent_algorithm + 0 ∧
    (calculate_performances
      (calculate_performances sample_gradient_descent_algorithm 3).2 3).1
      = .error .undefined ∧
    (calculate_performances
      { sample_gradient_descent_algorithm with performance_calculation_method := .Minimum }
      3).1 = .ok (2, 5) ∧
    training_invocations (calculate_performances
      { sample_gradient_descent_algorithm with performance_calculation_method := .Minimum }
      3).2 = training_invocations sample_gradient_descent_algorithm + 1 ∧
    (calculate_performances (calculate_performances
      { sample_gradient_descent_algorithm with performance_calculation_method := .Minimum }
      3).2 3).1 = .ok (2, 5) ∧
    training_invocations (calculate_performances (calculate_performances
      { sample_gradient_descent_algorithm with performance_calculation_method := .Minimum }
      3).2 3).2 = training_invocations sample_gradient_descent_algorithm + 1 := by
  refine ⟨by decide, rfl, rfl, rfl, rfl, rfl, rfl, rfl, rfl, rfl⟩

/-- C4, the code departs from the claim: the trainer is ready to return the
single outcome (2, 5), so the claim gives the pair (2, 5) returned and
recorded; `calculate_maximum_final_performances` stops at the null quasi-Newton
pointer and records nothing, while the mirror of the minimum method returns
(2, 5) and records it. -/
theorem maximum_shrink_returns_no_maximum :
    3 ∉ sample_gradient_descent_algorithm.order_history ∧
    sample_gradient_descent_algorithm.trials_number = 1 ∧
    sample_gradient_descent_strategy.script.map (Option.map (fun out =>
        get_final_performances sample_gradient_descent_strategy.main_type out.results))
      = [some (.ok (2, 5))] ∧
    (calculate_maximum_final_performances sample_gradient_descent_algorithm 3).1
      = .error .undefined ∧
    (calculate_maximum_final_performances sample_gradient_descent_algorithm 3).2.order_history
      = [] ∧
    (calculate_maximum_final_performances
      sample_gradient_descent_algorithm 3).2.performance_history = [] ∧
    (calculate_maximum_final_performances
      sample_gradient_descent_algorithm 3).2.selection_performance_history = [] ∧
    (symmetric_maximum_final_performances sample_gradient_descent_algorithm 3).1
      = .ok (2, 5) ∧
    (symmetric_maximum_final_performances sample_gradient_descent_algorithm 3).2.order_history
      = [3] ∧
    (symmetric_maximum_final_performances
      sample_gradient_descent_algorithm 3).2.performance_history = [2] ∧
    (symmetric_maximum_final_performances
      sample_gradient_descent_algorithm 3).2.selection_performance_history = [5] := by
  refine ⟨by decide, rfl, rfl, rfl, rfl, rfl, rfl, rfl, rfl, rfl, rfl⟩

/-- C6, the code departs from the claim: `calculate_performances` on the fresh
order 3 under the Maximum policy appends nothing to any of the four histories,
although no training failed (none was invoked and the script of the trainer is
untouched); under the Minimum policy the same call appends one element to
each. -/
theorem maximum_shrink_appends_nothing :
    3 ∉ sample_gradient_descent_algorithm.order_history ∧
    sample_gradient_descent_algorithm.performance_calculation_method = .Maximum ∧
    (calculate_performances sample_gradient_descent_algorithm 3).2.order_history = [] ∧
    (calculate_performances sample_gradient_descent_algorithm 3).2.performance_history = [] ∧
    (calculate_performances
      sample_gradient_descent_algorithm 3).2.selection_performance_history = [] ∧
    (calculate_performances sample_gradient_descent_algorithm 3).2.parameters_history = [] ∧
    training_invocations (calculate_performances sample_gradient_descent_algorithm 3).2 = 0 ∧
    Option.map TrainingStrategy.script
      (calculate_performances sample_gradient_descent_algorithm 3).2.training_strategy_pointer
      = some sample_gradient_descent_strategy.script ∧
    (calculate_performances
      { sample_gradient_descent_algorithm with performance_calculation_method := .Minimum }
      3).1 = .ok (2, 5) ∧
    (calculate_performances
      { sample_gradient_descent_algorithm with performance_calculation_method := .Minimum }
      3).2.order_history = [3] ∧
    (calculate_performances
      { sample_gradient_descent_algorithm with performance_calculation_method := .Minimum }
      3).2.performance_history = [2] ∧
    (calculate_performances
      { sample_gradient_descent_algorithm with performance_calculation_method := .Minimum }
      3).2.selection_performance_history = [5] ∧
    (calculate_performances
      { sample_gradient_descent_algorithm with performance_calculation_method := .Minimum }
      3).2.parameters_history = [[1]] := by
  refine ⟨by decide, rfl, rfl, rfl, rfl, rfl, rfl, rfl, rfl, rfl, rfl, rfl, rfl⟩

/-- C17, the code departs from the claim: the last hidden layer has 4
perceptrons and the fresh order is 3, so the claim gives one prune and a width
of 3; after `calculate_maximum_final_performances` the width is still 4 and no
resize call was made, while after `calculate_minimum_final_performances` the
width is 3 after one `prune_layer_perceptron(0, 0)`. -/
theorem maximum_shrink_keeps_width :
    3 ∉ sample_gradient_descent_algorithm.order_history ∧
    Option.map TrainingStrategy.last_hidden_perceptrons
      sample_gradient_descent_algorithm.training_strategy_pointer = some (some 4) ∧
    Option.map TrainingStrategy.last_hidden_perceptrons
      (calculate_maximum_final_performances
        sample_gradient_descent_algorithm 3).2.training_strategy_pointer = some (some 4) ∧
    Option.map TrainingStrategy.resizes
      (calculate_maximum_final_performances
        sample_gradient_descent_algorithm 3).2.training_strategy_pointer = some [] ∧
    Option.map TrainingStrategy.last_hidden_perceptrons
      (calculate_minimum_final_performances
        sample_gradient_descent_algorithm 3).2.training_strategy_pointer = some (some 3) ∧
    Option.map TrainingStrategy.resizes
      (calculate_minimum_final_performances
        sample_gradient_descent_algorithm 3).2.training_strategy_pointer
      = some [Event.prune_layer_perceptron 0 0] := by
  refine ⟨by decide, rfl, rfl, rfl, rfl, rfl⟩

end OpenNN
